import Mathlib

/-!
# mrgrid: grid-bounds resolution for regrid / crop / pad

A shallow embedding of `cmd/mrgrid.cpp` (function `run`).  Exceptions become values of
`Except Error`, every indexed vector access is checked and an out-of-range index is the
explicit failure `Error.indexOutOfRange`.

Integers: image extents are far below the 64-bit range, so `run` computes the `ssize_t`
quantities in `Int` without wrap-around.  Two inputs can leave that regime whatever the
image: the `int` entries of a delta specification, whose negation is taken in 32 bits
(`asInt32`), and the margin of `-uniform`, for which `run64` repeats the branch with the
`-uniform` loop and the size computation in the 64-bit arithmetic of `ssize_t` (`asInt64`).
-/

namespace MRGrid

/-! ## Errors, scalars, headers -/

/-- One constructor per throw site of `run`, in source order, plus the two standard-library
exceptions of `std::stoi`, failures raised inside library setters, and the out-of-range
vector access (undefined behaviour in the source, made explicit here). -/
inductive Error where
  /-- Raised with "use either -nan or -value". -/
  | fillAndNan
  /-- Raised with "the template image requires at least 3 spatial dimensions". -/
  | templateTooFewDims
  /-- An exception raised inside a library routine called by the regrid branch. -/
  | library (msg : String)
  /-- Raised with "please use either the -scale, -voxel, -resolution or -template option". -/
  | noRegridOption
  /-- Raised with "only a single method can be used to resize the image". -/
  | multipleResize
  /-- Raised with "padding and -mask options is not supported". -/
  | padWithMask
  /-- Raised by `check_dimensions` when the mask and the input differ on axes 0..2. -/
  | dimensionMismatch
  /-- Raised with "mask image is empty". -/
  | emptyMask
  /-- Raised with "can be performed using either a mask or a template image". -/
  | maskAndAs
  /-- Raised with "-axis A larger than image dimensions (D)". -/
  | axisTooLarge (axis ndim : Nat)
  /-- Raised with "-axis A: cannot parse delta specifier". -/
  | badDeltaSpec (axis : Nat) (spec : String)
  /-- The exception `std::invalid_argument` escaping from `std::stoi`. -/
  | stoiInvalidArgument
  /-- The exception `std::out_of_range` escaping from `std::stoi`. -/
  | stoiOutOfRange
  /-- Raised with "-axis A empty: (lower:upper)". -/
  | axisEmpty (axis : Nat) (lower upper : Int)
  /-- Raised with "no crop or pad option supplied". -/
  | noCropPadOption
  /-- An index past the end of a vector. -/
  | indexOutOfRange
  deriving DecidableEq, Repr

/-- The errors the specification calls a configuration error: every exception of `run`
that is not the empty-mask, the unsupported-operation or the dimension-mismatch error and
is not a standard-library exception or an out-of-range access. -/
def Error.isConfigurationError : Error → Bool
  | .fillAndNan => true
  | .templateTooFewDims => true
  | .library _ => true
  | .noRegridOption => true
  | .multipleResize => true
  | .maskAndAs => true
  | .axisTooLarge _ _ => true
  | .badDeltaSpec _ _ => true
  | .axisEmpty _ _ _ => true
  | .noCropPadOption => true
  | _ => false

/-- A voxel or fill value (`default_type` / `float`): either NaN or an ordinary value.
Values are only copied and tested for being NaN, never computed with. -/
inductive Scalar (α : Type) where
  | nan
  | num (a : α)
  deriving DecidableEq, Repr

/-- The test `x != x` of the source, true exactly for NaN. -/
def Scalar.neSelf {α : Type} : Scalar α → Bool
  | .nan => true
  | .num _ => false

/-- Modelled from the spec: the header datatype (declared in the library, not in src);
only the distinction between the stored types matters here. -/
inductive DataType where
  | Bit | Int8 | UInt8 | Int16 | UInt16 | Int32 | UInt32 | Int64 | UInt64
  | Float32 | Float64 | CFloat32 | CFloat64
  deriving DecidableEq, Repr

/-- The part of an image header that `run` reads: the axis extents (`size (axis)`, with
`ndim` their number) and the datatype. -/
structure Header where
  size : List Int
  datatype : DataType
  deriving DecidableEq, Repr

/-- Number of axes. -/
def Header.ndim (H : Header) : Nat := H.size.length

/-- A boolean mask image: its extents and its voxel values by index. -/
structure Mask where
  size : List Int
  value : List Int → Bool

/-- Per-axis `(lower, upper)` pairs: `bounds[axis][0]` and `bounds[axis][1]`. -/
abbrev Bounds := List (Int × Int)

/-! ## Checked vector access and counted loops -/

/-- Read `xs[i]`. -/
def getAt {β : Type} (xs : List β) (i : Nat) : Except Error β :=
  match xs[i]? with
  | some x => .ok x
  | none => .error .indexOutOfRange

/-- Write `xs[i] = v`. -/
def setAt {β : Type} (xs : List β) (i : Nat) (v : β) : Except Error (List β) :=
  if i < xs.length then .ok (xs.set i v) else .error .indexOutOfRange

/-- The loop `for (size_t axis = 0; axis < n; axis++) body`. -/
def forAxes {σ : Type} (n : Nat) (body : Nat → σ → Except Error σ) (s : σ) : Except Error σ :=
  (List.range n).foldlM (fun st axis => body axis st) s

/-! ## String helpers used by the `-axis` specification -/

/-- The call `std::string::find_first_of` for a single character: the first position of `c`. -/
def find_first_of (s : List Char) (c : Char) : Option Nat :=
  match s with
  | [] => none
  | x :: xs => if x = c then some 0 else (find_first_of xs c).map (· + 1)

/-- Modelled from the spec: the whitespace set of the library routine `strip` (blank, tab,
newline), which is not part of src. -/
def isStripSpace (c : Char) : Bool := c.toNat = 32 || c.toNat = 9 || c.toNat = 10

/-- Modelled from the spec: the library routine `strip`, which is not part of src: removes
leading and trailing whitespace. -/
def strip (s : List Char) : List Char :=
  ((s.dropWhile isStripSpace).reverse.dropWhile isStripSpace).reverse

/-- Modelled from the spec: the library routine `lowercase`, which is not part of src:
maps every character through `tolower`. -/
def lowercase (s : List Char) : List Char := s.map Char.toLower

/-- The predicate `isspace` of the C locale. -/
def isspace (c : Char) : Bool := c.toNat = 32 || (9 ≤ c.toNat && c.toNat ≤ 13)

/-- The predicate `isdigit`. -/
def isdigit (c : Char) : Bool := 48 ≤ c.toNat && c.toNat ≤ 57

/-- Value of a run of decimal digits. -/
def digitsValue (ds : List Char) : Nat :=
  ds.foldl (fun acc c => 10 * acc + (c.toNat - 48)) 0

/-- Split an optional sign off the front: `(negative, rest)`. -/
def takeSign (s : List Char) : Bool × List Char :=
  match s with
  | [] => (false, [])
  | c :: r => if c = '-' then (true, r) else if c = '+' then (false, r) else (false, c :: r)

/-- The function `std::stoi` in base 10: skips leading whitespace, reads an optional sign and the longest
run of digits, ignores whatever follows; no digit is `std::invalid_argument`, a value
outside the range of `int` is `std::out_of_range`. -/
def stoi (s : List Char) : Except Error Int :=
  let s1 := s.dropWhile isspace
  let sg := takeSign s1
  let ds := sg.2.takeWhile isdigit
  if ds = [] then .error .stoiInvalidArgument
  else
    let v : Int := if sg.1 then -(digitsValue ds : Int) else (digitsValue ds : Int)
    if v < -2147483648 ∨ 2147483647 < v then .error .stoiOutOfRange else .ok v

/-- Split at every comma. -/
def splitComma : List Char → List (List Char)
  | [] => [[]]
  | c :: cs =>
    if c = ',' then [] :: splitComma cs
    else match splitComma cs with
      | [] => [[c]]
      | t :: ts => (c :: t) :: ts

/-- One entry of an integer list: optional sign and digits only, within the range of `int`. -/
def parseIntToken (t : List Char) : Option Int :=
  let sg := takeSign (strip t)
  if sg.2 = [] ∨ ¬ sg.2.all isdigit then none
  else
    let v : Int := if sg.1 then -(digitsValue sg.2 : Int) else (digitsValue sg.2 : Int)
    if v < -2147483648 ∨ 2147483647 < v then none else some v

/-- Modelled from the spec: the library routine `parse_ints`, which is not part of src,
restricted to the form the `-axis` delta specifier uses (the spec writes it `dl,du`): a
comma-separated list of decimal integers.  `none` stands for the exception it raises. -/
def parse_ints (s : List Char) : Option (List Int) :=
  (splitComma s).mapM parseIntToken

/-! ## Command line -/

/-- The `operation` argument: `regrid` is 0, `crop` is 1, `pad` is 2. -/
inductive Operation where
  | regrid
  | crop
  | pad
  deriving DecidableEq, Repr

/-- What `get_options` returns for each option of the command; `none`, `false` and the empty
list mean the option was not supplied.  Images named on the command line appear opened. -/
structure Options (α : Type) where
  nan : Bool
  fill : Option (Scalar α)
  datatype : Option DataType
  template : Option Header
  size : Option String
  voxel : Option String
  scale : Option String
  interp : Option Nat
  oversample : Option String
  as_ : Option Header
  uniform : Option Int
  mask : Option Mask
  axis : List (Nat × String)
  nd : Bool

/-- No option supplied. -/
def Options.none (α : Type) : Options α where
  nan := false
  fill := Option.none
  datatype := Option.none
  template := Option.none
  size := Option.none
  voxel := Option.none
  scale := Option.none
  interp := Option.none
  oversample := Option.none
  as_ := Option.none
  uniform := Option.none
  mask := Option.none
  axis := []
  nd := false

/-- Modelled from the spec: `DataType::from_command_line`, which is not part of src: the
`-datatype` option when given, the supplied default otherwise. -/
def DataType.from_command_line {α : Type} (opts : Options α) (dflt : DataType) : DataType :=
  match opts.datatype with
  | some d => d
  | Option.none => dflt

/-- Lines 128-139: the out-of-bounds value. -/
def out_of_bounds_value {α : Type} [Zero α] (opts : Options α) : Except Error (Scalar α) :=
  let v0 : Scalar α := .num 0
  let v1 : Scalar α := if opts.nan then .nan else v0
  match opts.fill with
  | some f => if v1.neSelf then .error .fillAndNan else .ok f
  | Option.none => .ok v1

/-! ## The regrid branch (validation only) -/

/-- Modelled from the spec: the setters of `Filter::Resize` together with the parsing of
their arguments (`parse_floats`, `parse_ints`), none of which is part of src.  Each takes the
raw option argument and returns the message of the exception it raises, if any. -/
structure ResizeLibrary where
  set_oversample : Option String → Option String
  set_scale_factor : String → Option String
  set_size : String → Option String
  set_voxel_size : String → Option String

/-- A library in which no setter raises. -/
def ResizeLibrary.total : ResizeLibrary where
  set_oversample := fun _ => Option.none
  set_scale_factor := fun _ => Option.none
  set_size := fun _ => Option.none
  set_voxel_size := fun _ => Option.none

/-- The block `if (opt.size()) { setter (opt[0][0]); ++count; }`. -/
def resizeOption (setter : String → Option String) (arg : Option String) (count : Nat) :
    Except Error Nat :=
  match arg with
  | Option.none => .ok count
  | some a =>
    match setter a with
    | some msg => .error (.library msg)
    | Option.none => .ok (count + 1)

/-- What the regrid branch has decided when it reaches the construction of the output. -/
structure RegridPlan (α : Type) where
  interp : Nat
  resize_option_count : Nat
  template_option_count : Nat
  out_of_bounds_value : Scalar α
  datatype : DataType
  deriving DecidableEq, Repr

/-- Lines 141-221, up to the output header. -/
def run_regrid {α : Type} (lib : ResizeLibrary) (input_header : Header) (opts : Options α)
    (oob : Scalar α) : Except Error (RegridPlan α) := do
  let interp : Nat := match opts.interp with
    | some i => i
    | Option.none => 2
  let template_option_count : Nat ← match opts.template with
    | some template_header =>
      if template_header.ndim < 3 then Except.error Error.templateTooFewDims else pure 1
    | Option.none => pure 0
  match lib.set_oversample opts.oversample with
  | some msg => Except.error (Error.library msg)
  | Option.none =>
    let c1 ← resizeOption lib.set_scale_factor opts.scale 0
    let c2 ← resizeOption lib.set_size opts.size c1
    let resize_option_count ← resizeOption lib.set_voxel_size opts.voxel c2
    if resize_option_count = 0 ∧ template_option_count = 0 then
      Except.error Error.noRegridOption
    else if resize_option_count > 1 then
      Except.error Error.multipleResize
    else
      pure { interp := interp
             resize_option_count := resize_option_count
             template_option_count := template_option_count
             out_of_bounds_value := oob
             datatype :=
               if interp = 0 then DataType.from_command_line opts input_header.datatype
               else DataType.from_command_line opts DataType.Float32 }

/-! ## The crop / pad branch -/

/-- Read, transform and write back one entry: the pattern `v[axis] = f (v[axis])`. -/
def updAt {β : Type} (xs : List β) (axis : Nat) (f : β → Except Error β) :
    Except Error (List β) := do
  let cur ← getAt xs axis
  let v ← f cur
  setAt xs axis v

/-- Modelled from the spec: `dimensions_match` behind the library routine
`check_dimensions`, which is not part of src: both images have at least `to_axis` axes and
equal extents on the axes `from_axis .. to_axis - 1`. -/
def dimensions_match (s1 s2 : List Int) (from_axis to_axis : Nat) : Bool :=
  decide (to_axis ≤ s1.length) && decide (to_axis ≤ s2.length) &&
    decide ((s1.take to_axis).drop from_axis = (s2.take to_axis).drop from_axis)

/-- Modelled from the spec: `check_dimensions`, raising when `dimensions_match` fails. -/
def check_dimensions (s1 s2 : List Int) (from_axis to_axis : Nat) : Except Error Unit :=
  if dimensions_match s1 s2 from_axis to_axis then .ok () else .error .dimensionMismatch

/-- Every voxel index of an image with the given extents (all axes, all volumes). -/
def voxels : List Int → List (List Int)
  | [] => [[]]
  | n :: rest => (List.range n.toNat).flatMap (fun i => (voxels rest).map (fun v => (i : Int) :: v))

/-- Lines 260-267: `BoundsCheck::operator()` on the voxel at `idx`. -/
def BoundsCheck.call (mask : Mask) (bounds : Bounds) (idx : List Int) : Except Error Bounds :=
  if mask.value idx then
    forAxes 3 (fun axis b => updAt b axis (fun cur => do
      let i ← getAt idx axis
      pure (min cur.1 i, max cur.2 i))) bounds
  else .ok bounds

/-- Lines 254-259: the destructor of `BoundsCheck`, folding the local bounds into the
shared ones. -/
def BoundsCheck.merge (bounds overall_bounds : Bounds) : Except Error Bounds :=
  forAxes 3 (fun axis ov => updAt ov axis (fun cur => do
    let loc ← getAt bounds axis
    pure (min loc.1 cur.1, max loc.2 cur.2))) overall_bounds

/-- Line 270: `ThreadedLoop (mask).run (BoundsCheck (bounds), mask)`, with one worker: the
functor starts from a copy of the shared bounds, visits every voxel of the mask and is merged
into the shared bounds when destroyed.  (Minimum and maximum make the result independent of
how voxels are split among workers.) -/
def ThreadedLoop.run (mask : Mask) (overall_bounds : Bounds) : Except Error Bounds := do
  let loc ← (voxels mask.size).foldlM (BoundsCheck.call mask) overall_bounds
  BoundsCheck.merge loc overall_bounds

/-- Lines 245-248: the bounds of axes 0..2 are seeded with the empty box `(size, 0)`. -/
def seedBounds (input_header : Header) (bounds : Bounds) : Except Error Bounds :=
  forAxes 3 (fun axis b => updAt b axis (fun _ => do
    let n ← getAt input_header.size axis
    pure (n, 0))) bounds

/-- Lines 273-278: the empty check and the one-voxel margin on one axis. -/
def marginStep (mask : Mask) (axis : Nat) (cur : Int × Int) : Except Error (Int × Int) :=
  if cur.1 > cur.2 then .error .emptyMask
  else do
    let lo := if cur.1 ≠ 0 then cur.1 - 1 else cur.1
    let n ← getAt mask.size axis
    let hi := if cur.2 < n - 1 then cur.2 + 1 else cur.2
    pure (lo, hi)

/-- Lines 272-279: the loop over axes 0..2 after the scan. -/
def addMargin (mask : Mask) (bounds : Bounds) : Except Error Bounds :=
  forAxes 3 (fun axis b => updAt b axis (marginStep mask axis)) bounds

/-- Lines 243-279: bounds from the mask. -/
def maskBounds (input_header : Header) (mask : Mask) (bounds : Bounds) : Except Error Bounds := do
  check_dimensions input_header.size mask.size 0 3
  let seeded ← seedBounds input_header bounds
  let scanned ← ThreadedLoop.run mask seeded
  addMargin mask scanned

/-- Lines 238-280: the `-mask` option; the state is the bounds and `crop_pad_option_count`. -/
def maskStage (input_header : Header) (do_crop : Bool) (mask : Option Mask)
    (st : Bounds × Nat) : Except Error (Bounds × Nat) :=
  match mask with
  | none => .ok st
  | some m =>
    if !do_crop then .error .padWithMask
    else do
      let b ← maskBounds input_header m st.1
      pure (b, st.2 + 1)

/-- Lines 290-300: the loop of the `-as` option. -/
def applyAs (do_crop : Bool) (nd : Nat) (template_header : Header) (bounds : Bounds) :
    Except Error Bounds :=
  forAxes nd (fun axis b =>
    if axis ≥ template_header.ndim then
      if do_crop then updAt b axis (fun cur => pure (cur.1, 0)) else .ok b
    else
      updAt b axis (fun cur => do
        let n ← getAt template_header.size axis
        pure (cur.1, if do_crop then min cur.2 (n - 1) else max cur.2 (n - 1)))) bounds

/-- Lines 282-301: the `-as` option. -/
def asStage (do_crop : Bool) (nd : Nat) (as_ : Option Header) (st : Bounds × Nat) :
    Except Error (Bounds × Nat) :=
  match as_ with
  | none => .ok st
  | some template_header =>
    if st.2 ≠ 0 then .error .maskAndAs
    else do
      let b ← applyAs do_crop nd template_header st.1
      pure (b, st.2 + 1)

/-- Lines 307-310: the loop of the `-uniform` option, in unbounded integers (`applyUniform64`
below is the same loop in the 64-bit arithmetic of `ssize_t`). -/
def applyUniform (do_crop : Bool) (nd : Nat) (val : Int) (bounds : Bounds) : Except Error Bounds :=
  forAxes nd (fun axis b => updAt b axis (fun cur =>
    pure (cur.1 + (if do_crop then val else -val), cur.2 + (if do_crop then -val else val)))) bounds

/-- Lines 303-311: the `-uniform` option. -/
def uniformStage (do_crop : Bool) (nd : Nat) (uniform : Option Int) (st : Bounds × Nat) :
    Except Error (Bounds × Nat) :=
  match uniform with
  | none => .ok st
  | some val => do
    let b ← applyUniform do_crop nd val st.1
    pure (b, st.2 + 1)

/-- The value an `int` (32 bits, two's complement) holds when the integer `x` is stored in it. -/
def asInt32 (x : Int) : Int := (x + 2147483648) % 4294967296 - 2147483648

/-- Lines 319-341: the pair assigned to `bounds[axis]` by one `-axis` specification, for an
axis of extent `n`.  The entries of `delta` are of type `int` and are negated in that type
(`-delta[k]` is `asInt32 (-delta[k])`, so the negation of -2147483648 is -2147483648); the
sum with the extent is taken in unbounded integers. -/
def axisSpecBounds (do_crop : Bool) (n : Int) (axis : Nat) (spec : String) :
    Except Error (Int × Int) :=
  let s := spec.toList
  match find_first_of s ':' with
  | none =>
    let delta : List Int := match parse_ints s with
      | some d => d
      | none => []
    match delta with
    | [d0, d1] =>
      .ok (if do_crop then d0 else asInt32 (-d0), n - 1 + (if do_crop then asInt32 (-d1) else d1))
    | _ => .error (.badDeltaSpec axis spec)
  | some end_ => do
    let lo ← stoi (strip (s.take end_))
    let token := strip (s.drop (end_ + 1))
    let hi ← if lowercase token = "end".toList then pure (n - 1) else stoi token
    pure (lo, hi)

/-- Lines 315-343: one iteration of the `-axis` loop. -/
def applyAxis (input_header : Header) (do_crop : Bool) (st : Bounds × Nat) (opt : Nat × String) :
    Except Error (Bounds × Nat) :=
  let axis := opt.1
  if axis ≥ input_header.ndim then .error (.axisTooLarge axis input_header.ndim)
  else do
    let n ← getAt input_header.size axis
    let v ← axisSpecBounds do_crop n axis opt.2
    let b ← setAt st.1 axis v
    if v.2 < v.1 then Except.error (Error.axisEmpty axis v.1 v.2)
    else pure (b, st.2 + 1)

/-- Lines 313-344: the `-axis` options, in command-line order. -/
def axisStage (input_header : Header) (do_crop : Bool) (axis : List (Nat × String))
    (st : Bounds × Nat) : Except Error (Bounds × Nat) :=
  axis.foldlM (applyAxis input_header do_crop) st

/-- Lines 356-364: the number of axes reported as changed. -/
def countChanged (input_header : Header) (nd : Nat) (bounds : Bounds) (size : List Int) :
    Except Error Nat :=
  forAxes nd (fun axis changed_axes => do
    let b ← getAt bounds axis
    let n ← getAt input_header.size axis
    let sz ← getAt size axis
    pure (if b.1 ≠ 0 ∨ n ≠ sz then changed_axes + 1 else changed_axes)) 0

/-- What the crop / pad branch hands to `Adapter::Regrid` and the output header, with the
advisory it emits. -/
structure CropPad (α : Type) where
  bounds : Bounds
  from_ : List Int
  size : List Int
  changed_axes : Nat
  /-- Whether `WARN ("no axes were changed")` was emitted. -/
  warn_no_axes_changed : Bool
  out_of_bounds_value : Scalar α
  datatype : DataType
  deriving DecidableEq, Repr

/-- Lines 346-373: the final check, offsets, sizes, change report and output datatype. -/
def finish {α : Type} (input_header : Header) (nd : Nat) (opts : Options α) (oob : Scalar α)
    (st : Bounds × Nat) : Except Error (CropPad α) :=
  if st.2 = 0 then .error .noCropPadOption
  else do
    let from_ : List Int := st.1.map (fun b => b.1)
    let size : List Int := st.1.map (fun b => b.2 - b.1 + 1)
    let changed_axes ← countChanged input_header nd st.1 size
    pure { bounds := st.1
           from_ := from_
           size := size
           changed_axes := changed_axes
           warn_no_axes_changed := decide (changed_axes = 0)
           out_of_bounds_value := oob
           datatype := DataType.from_command_line opts DataType.Float32 }

/-- Lines 228-234: `nd` and the initial bounds `(0, size - 1)` of every axis. -/
def initialBounds (input_header : Header) : Bounds :=
  input_header.size.map (fun n => (0, n - 1))

/-- Lines 223-373: the crop / pad branch. -/
def run_crop_pad {α : Type} (input_header : Header) (do_crop : Bool) (opts : Options α)
    (oob : Scalar α) : Except Error (CropPad α) := do
  let nd : Nat := if opts.nd then input_header.ndim else 3
  let st0 : Bounds × Nat := (initialBounds input_header, 0)
  let st1 ← maskStage input_header do_crop opts.mask st0
  let st2 ← asStage do_crop nd opts.as_ st1
  let st3 ← uniformStage do_crop nd opts.uniform st2
  let st4 ← axisStage input_header do_crop opts.axis st3
  finish input_header nd opts oob st4

/-- What `run` has decided when it starts writing the output image. -/
inductive Output (α : Type) where
  | regrid (plan : RegridPlan α)
  | crop_pad (r : CropPad α)
  deriving DecidableEq, Repr

/-- The function `run` (lines 123-378), up to the creation of the output image. -/
def run {α : Type} [Zero α] (lib : ResizeLibrary) (input_header : Header) (op : Operation)
    (opts : Options α) : Except Error (Output α) := do
  let oob ← out_of_bounds_value opts
  if op = .regrid then do
    let plan ← run_regrid lib input_header opts oob
    pure (.regrid plan)
  else do
    let do_crop : Bool := decide (op = .crop)
    let r ← run_crop_pad input_header do_crop opts oob
    pure (.crop_pad r)

/-! ## The `-uniform` option in the arithmetic of `ssize_t`

The stages above compute with unbounded integers.  In the source the bounds, the margin
`val`, the offsets and the sizes are of type `ssize_t`; this section repeats the `-uniform`
loop (lines 303-311) and the offset and size computation (lines 349-354) with the result of
every operation stored in 64 bits, and composes them with the other stages.  The two
versions agree as long as no result leaves the range of `ssize_t`. -/

/-- The value a `ssize_t` (64 bits, two's complement) holds when the integer `x` is stored in
it. -/
def asInt64 (x : Int) : Int :=
  (x + 9223372036854775808) % 18446744073709551616 - 9223372036854775808

/-- Lines 307-310 in the arithmetic of `ssize_t`: the loop of the `-uniform` option. -/
def applyUniform64 (do_crop : Bool) (nd : Nat) (val : Int) (bounds : Bounds) :
    Except Error Bounds :=
  forAxes nd (fun axis b => updAt b axis (fun cur =>
    pure (asInt64 (cur.1 + (if do_crop then val else asInt64 (-val))),
          asInt64 (cur.2 + (if do_crop then asInt64 (-val) else val))))) bounds

/-- An input image: header and voxel values by index. -/
structure Image (α : Type) where
  header : Header
  value : List Int → Scalar α

/-- Modelled from the spec: whether a source position lies outside the source extent on
some axis (`Adapter::Regrid` is not part of src). -/
def is_out_of_bounds (size pos : List Int) : Bool :=
  (List.zipWith (fun p n => decide (p < 0 ∨ n ≤ p)) pos size).any id

/-- Modelled from the spec: the value of `Adapter::Regrid` (not part of src) at output index
`idx`: output index `i` on axis `a` maps to source index `i + from[a]`; outside the source
extent the out-of-bounds value is emitted, otherwise the source voxel is copied. -/
def Adapter.Regrid.value {α : Type} (input : Image α) (from_ : List Int) (oob : Scalar α)
    (idx : List Int) : Scalar α :=
  let pos := List.zipWith (· + ·) idx from_
  if is_out_of_bounds input.header.size pos then oob else input.value pos

/-- Lines 368-376: the voxel written to the output image at `idx` by the threaded copy of
the regridded adapter. -/
def output_value {α : Type} (input : Image α) (r : CropPad α) (idx : List Int) : Scalar α :=
  Adapter.Regrid.value input r.from_ r.out_of_bounds_value idx

/-! ## Specification-side helpers -/

/-- The list `xs` with `g axis` applied to each of its first `n` entries. -/
def mapFirst {β : Type} (n : Nat) (g : Nat → β → β) (xs : List β) : List β :=
  xs.mapIdx (fun i x => if i < n then g i x else x)

/-- The errors that the `-axis` loop can raise. -/
def Error.isAxisError : Error → Bool
  | .axisTooLarge _ _ => true
  | .badDeltaSpec _ _ => true
  | .stoiInvalidArgument => true
  | .stoiOutOfRange => true
  | .axisEmpty _ _ _ => true
  | .indexOutOfRange => true
  | _ => false

/-- Number of resize-amount options (`-scale`, `-size`, `-voxel`) supplied. -/
def suppliedResize {α : Type} (opts : Options α) : Nat :=
  (if opts.scale.isSome then 1 else 0) + (if opts.size.isSome then 1 else 0) +
    (if opts.voxel.isSome then 1 else 0)

deriving instance DecidableEq for Except

/-- Nothing before the two counting checks of the regrid branch raises: not both `-fill` and
`-nan`, a template (if any) with at least 3 axes, and no exception from the library setters
on the supplied arguments. -/
def reachesCountChecks {α : Type} (lib : ResizeLibrary) (opts : Options α) : Prop :=
  (opts.nan = false ∨ opts.fill = none) ∧
  (∀ t, opts.template = some t → 3 ≤ t.ndim) ∧
  lib.set_oversample opts.oversample = none ∧
  (∀ a, opts.scale = some a → lib.set_scale_factor a = none) ∧
  (∀ a, opts.size = some a → lib.set_size a = none) ∧
  (∀ a, opts.voxel = some a → lib.set_voxel_size a = none)

/-- The entry the `-as` loop writes on axis `a` from the current entry `cur`. -/
def asEntry (do_crop : Bool) (template_header : Header) (a : Nat) (cur : Int × Int) : Int × Int :=
  if a ≥ template_header.ndim then (if do_crop then (cur.1, 0) else cur)
  else (cur.1, if do_crop then min cur.2 (template_header.size.getD a 0 - 1)
               else max cur.2 (template_header.size.getD a 0 - 1))

/-- The entry the `-uniform` loop writes from the current entry `cur`. -/
def uniformEntry (do_crop : Bool) (val : Int) (cur : Int × Int) : Int × Int :=
  (cur.1 + (if do_crop then val else -val), cur.2 + (if do_crop then -val else val))

/-- What `BoundsCheck::operator()` does to the entry of axis `a` at voxel `v`. -/
def visitEntry (mask : Mask) (v : List Int) (a : Nat) (cur : Int × Int) : Int × Int :=
  if mask.value v then (min cur.1 (v.getD a 0), max cur.2 (v.getD a 0)) else cur

/-- The entry of axis `a` after visiting the voxels `vs` in turn. -/
def scanEntry (mask : Mask) (vs : List (List Int)) (a : Nat) (cur : Int × Int) : Int × Int :=
  vs.foldl (fun acc v => visitEntry mask v a acc) cur

/-- The entry of axis `a` after the seed `(size, 0)`, the scan of all voxels and the merge. -/
def mergedEntry (input_header : Header) (mask : Mask) (a : Nat) : Int × Int :=
  let seed : Int × Int := (input_header.size.getD a 0, 0)
  let loc := scanEntry mask (voxels mask.size) a seed
  (min loc.1 seed.1, max loc.2 seed.2)

/-- Lines 275-278: the one-voxel margin added where the box does not touch the boundary. -/
def marginEntry (mask : Mask) (a : Nat) (cur : Int × Int) : Int × Int :=
  (if cur.1 ≠ 0 then cur.1 - 1 else cur.1,
   if cur.2 < mask.size.getD a 0 - 1 then cur.2 + 1 else cur.2)

/-- The index `v` addresses a voxel inside the extents `size`. -/
def inExtent (size v : List Int) : Prop :=
  List.Forall₂ (fun i n => 0 ≤ i ∧ i < n) v size

/-- The voxel `v` of the mask exists and is true. -/
def Mask.holds (mask : Mask) (v : List Int) : Prop :=
  inExtent mask.size v ∧ mask.value v = true

/-- On axis `a`, `mn` is the smallest index of a true voxel of the mask. -/
def Mask.boxMin (mask : Mask) (a : Nat) (mn : Int) : Prop :=
  (∃ v, mask.holds v ∧ v[a]? = some mn) ∧ ∀ v x, mask.holds v → v[a]? = some x → mn ≤ x

/-- On axis `a`, `mx` is the largest index of a true voxel of the mask. -/
def Mask.boxMax (mask : Mask) (a : Nat) (mx : Int) : Prop :=
  (∃ v, mask.holds v ∧ v[a]? = some mx) ∧ ∀ v x, mask.holds v → v[a]? = some x → x ≤ mx

/-- The last `-axis` specification given for axis `a`, if any. -/
def lastSpec : List (Nat × String) → Nat → Option String
  | [], _ => none
  | p :: rest, a =>
    match lastSpec rest a with
    | some s => some s
    | none => if p.1 = a then some p.2 else none

/-- The bounds after the `-as` option: untouched without it, `asEntry` on the considered axes
with it. -/
def asBounds (do_crop : Bool) (nd : Nat) (as_ : Option Header) (b : Bounds) : Bounds :=
  match as_ with
  | none => b
  | some template_header => mapFirst nd (asEntry do_crop template_header) b

/-- The bounds after the `-uniform` option: untouched without it, `uniformEntry` on the
considered axes with it. -/
def uniformBounds (do_crop : Bool) (nd : Nat) (uniform : Option Int) (b : Bounds) : Bounds :=
  match uniform with
  | none => b
  | some val => mapFirst nd (fun _ => uniformEntry do_crop val) b

/-- The outcome of one `-axis` specification taken on its own: the error it raises, or the
pair it assigns to the bounds of its axis. -/
def axisPair (input_header : Header) (do_crop : Bool) (opt : Nat × String) :
    Except Error (Int × Int) :=
  if opt.1 ≥ input_header.ndim then .error (.axisTooLarge opt.1 input_header.ndim)
  else do
    let n ← getAt input_header.size opt.1
    let v ← axisSpecBounds do_crop n opt.1 opt.2
    if v.2 < v.1 then Except.error (Error.axisEmpty opt.1 v.1 v.2) else pure v

/-- The outcomes of a list of `-axis` specifications, each on its own, in command-line order:
the first error, or the axis and pair of every specification. -/
def axisPairs (input_header : Header) (do_crop : Bool) :
    List (Nat × String) → Except Error (List (Nat × (Int × Int)))
  | [] => .ok []
  | p :: rest =>
    match axisPair input_header do_crop p with
    | .error e => .error e
    | .ok v =>
      match axisPairs input_header do_crop rest with
      | .error e => .error e
      | .ok ws => .ok ((p.1, v) :: ws)

/-- The bounds after the assignments `bounds[axis] = pair`, in order. -/
def setAll (b : Bounds) (ws : List (Nat × (Int × Int))) : Bounds :=
  ws.foldl (fun acc w => acc.set w.1 w.2) b

/-- The integer `x` is representable in a `ssize_t`. -/
def inRange64 (x : Int) : Prop := -9223372036854775808 ≤ x ∧ x ≤ 9223372036854775807

instance (x : Int) : Decidable (inRange64 x) := by
  unfold inRange64
  infer_instance

/-- The entry the `-uniform` loop writes from the current entry `cur` in the arithmetic of
`ssize_t`. -/
def uniformEntry64 (do_crop : Bool) (val : Int) (cur : Int × Int) : Int × Int :=
  (asInt64 (cur.1 + (if do_crop then val else -val)),
   asInt64 (cur.2 + (if do_crop then -val else val)))

/-- The delta specification `dl,du` written in decimal. -/
def deltaSpec (dl du : Int) : String := toString dl ++ "," ++ toString du

/-- The absolute specification `start:stop` written in decimal. -/
def rangeSpec (start stop : Int) : String := toString start ++ ":" ++ toString stop

/-- A sample 6x3x3 mask with two volumes, true at voxel (2,1,2) of volume 0 and at voxel
(3,1,0) of volume 1. -/
def sampleMask : Mask where
  size := [6, 3, 3, 2]
  value := fun v => decide (v = [2, 1, 2, 0] ∨ v = [3, 1, 0, 1])

/-! ## Lemmas on checked access and loops -/

theorem getAt_eq_ok {β : Type} {xs : List β} {i : Nat} {x : β} (h : xs[i]? = some x) :
    getAt xs i = .ok x := by
  simp [getAt, h]

theorem getAt_ok_iff {β : Type} {xs : List β} {i : Nat} {x : β} :
    getAt xs i = .ok x ↔ xs[i]? = some x := by
  unfold getAt
  cases h : xs[i]? <;> simp

theorem setAt_eq_ok {β : Type} {xs : List β} {i : Nat} (v : β) (h : i < xs.length) :
    setAt xs i v = .ok (xs.set i v) := by
  simp [setAt, h]

theorem updAt_eq_ok {β : Type} {xs : List β} {i : Nat} {x y : β} {f : β → Except Error β}
    (h : xs[i]? = some x) (hf : f x = .ok y) : updAt xs i f = .ok (xs.set i y) := by
  have hlt : i < xs.length := by
    rcases List.getElem?_eq_some.mp h with ⟨hl, _⟩
    exact hl
  simp [updAt, getAt_eq_ok h, hf, setAt_eq_ok y hlt, bind, Except.bind]

theorem updAt_eq_error {β : Type} {xs : List β} {i : Nat} {x : β} {e : Error}
    {f : β → Except Error β} (h : xs[i]? = some x) (hf : f x = .error e) :
    updAt xs i f = .error e := by
  simp [updAt, getAt_eq_ok h, hf, bind, Except.bind]

theorem set_same {β : Type} {xs : List β} {i : Nat} {x : β} (h : xs[i]? = some x) :
    xs.set i x = xs := by
  apply List.ext_getElem?
  intro j
  by_cases hij : i = j
  · subst hij
    rcases List.getElem?_eq_some.mp h with ⟨hl, _⟩
    rw [List.getElem?_set_self hl, h]
  · rw [List.getElem?_set_ne hij]

theorem getElem?_mapFirst {β : Type} (n : Nat) (g : Nat → β → β) (xs : List β) (i : Nat) :
    (mapFirst n g xs)[i]? = (xs[i]?).map (fun x => if i < n then g i x else x) := by
  simp [mapFirst, List.getElem?_mapIdx]

theorem length_mapFirst {β : Type} (n : Nat) (g : Nat → β → β) (xs : List β) :
    (mapFirst n g xs).length = xs.length := by
  simp [mapFirst]

theorem forAxes_succ {σ : Type} (n : Nat) (body : Nat → σ → Except Error σ) (s : σ) :
    forAxes (n + 1) body s = (forAxes n body s).bind (body n) := by
  simp only [forAxes, List.range_succ, List.foldlM_append, List.foldlM_cons, List.foldlM_nil,
    bind]
  cases List.foldlM (fun st axis => body axis st) s (List.range n) with
  | error e => rfl
  | ok v =>
    simp only [Except.bind]
    cases body n v <;> rfl

theorem forAxes_zero {σ : Type} (body : Nat → σ → Except Error σ) (s : σ) :
    forAxes 0 body s = .ok s := by
  simp [forAxes, pure, Except.pure]

/-- A counted loop whose iteration `a` rewrites entry `a` to `g a` of its old value (and
touches nothing else) succeeds on a long enough vector and applies `g` to the first `n`
entries. -/
theorem forAxes_pointwise {β : Type} (body : Nat → List β → Except Error (List β))
    (g : Nat → β → β) (xs : List β) :
    ∀ n : Nat, n ≤ xs.length →
      (∀ a b x, a < n → b.length = xs.length → b[a]? = some x → xs[a]? = some x →
        body a b = .ok (b.set a (g a x))) →
      forAxes n body xs = .ok (mapFirst n g xs) := by
  intro n
  induction n with
  | zero =>
    intro _ _
    rw [forAxes_zero]
    congr 1
    apply List.ext_getElem?
    intro i
    rw [getElem?_mapFirst]
    cases xs[i]? <;> simp
  | succ n ih =>
    intro hn hbody
    have ih1 := ih (by omega) (fun a b x ha hb h1 h2 => hbody a b x (by omega) hb h1 h2)
    rw [forAxes_succ, ih1]
    have hx : xs[n]? = some (xs[n]) := List.getElem?_eq_getElem (by omega)
    have hm : (mapFirst n g xs)[n]? = some (xs[n]) := by
      rw [getElem?_mapFirst, hx]
      simp
    show body n (mapFirst n g xs) = _
    rw [hbody n (mapFirst n g xs) (xs[n]) (by omega) (length_mapFirst n g xs) hm hx]
    congr 1
    apply List.ext_getElem?
    intro i
    by_cases hi : n = i
    · subst hi
      rw [List.getElem?_set_self (by rw [length_mapFirst]; omega), getElem?_mapFirst, hx]
      simp
    · rw [List.getElem?_set_ne hi, getElem?_mapFirst, getElem?_mapFirst]
      cases xs[i]? with
      | none => rfl
      | some y =>
        simp only [Option.map_some']
        by_cases h1 : i < n
        · have h2 : i < n + 1 := by omega
          simp [h1, h2]
        · have h2 : ¬ i < n + 1 := by omega
          simp [h1, h2]

/-! ## Lemmas on the regrid branch -/

theorem resizeOption_cases (setter : String → Option String) (arg : Option String) (c : Nat) :
    (∃ msg, resizeOption setter arg c = .error (.library msg)) ∨
      resizeOption setter arg c = .ok (c + if arg.isSome then 1 else 0) := by
  unfold resizeOption
  cases arg with
  | none => right; simp
  | some a =>
    cases h : setter a with
    | none => right; simp [h]
    | some msg => left; exact ⟨msg, by simp [h]⟩

theorem resizeOption_total (arg : Option String) (c : Nat) (setter : String → Option String)
    (h : ∀ a, setter a = none) :
    resizeOption setter arg c = .ok (c + if arg.isSome then 1 else 0) := by
  unfold resizeOption
  cases arg with
  | none => simp
  | some a => simp [h a]

/-- The regrid branch either stops on an earlier configuration error (template with fewer
than 3 axes, or an exception of a library setter) or reaches the two counting checks with
`resize_option_count = suppliedResize opts`. -/
theorem run_regrid_cases {α : Type} (lib : ResizeLibrary) (H : Header) (opts : Options α)
    (oob : Scalar α) :
    (run_regrid lib H opts oob = .error .templateTooFewDims) ∨
    (∃ msg, run_regrid lib H opts oob = .error (.library msg)) ∨
    (suppliedResize opts = 0 ∧ opts.template = none ∧
      run_regrid lib H opts oob = .error .noRegridOption) ∨
    (2 ≤ suppliedResize opts ∧ run_regrid lib H opts oob = .error .multipleResize) ∨
    ((suppliedResize opts = 1 ∨ (suppliedResize opts = 0 ∧ opts.template.isSome)) ∧
      ∃ plan, run_regrid lib H opts oob = .ok plan) := by
  unfold run_regrid
  cases ht : opts.template with
  | some t =>
    by_cases h3 : t.ndim < 3
    · left
      simp [h3, bind, Except.bind]
    · right
      cases ho : lib.set_oversample opts.oversample with
      | some msg => left; exact ⟨msg, by simp [h3, bind, Except.bind, pure, Except.pure]⟩
      | none =>
        rcases resizeOption_cases lib.set_scale_factor opts.scale 0 with ⟨m, h1⟩ | h1
        · left; exact ⟨m, by simp [h3, h1, bind, Except.bind, pure, Except.pure]⟩
        rw [Nat.zero_add] at h1
        rcases resizeOption_cases lib.set_size opts.size
          (if opts.scale.isSome then 1 else 0) with ⟨m, h2⟩ | h2
        · left; exact ⟨m, by simp [h3, h1, h2, bind, Except.bind, pure, Except.pure]⟩
        rcases resizeOption_cases lib.set_voxel_size opts.voxel
          ((if opts.scale.isSome then 1 else 0) + if opts.size.isSome then 1 else 0)
          with ⟨m, h4⟩ | h4
        · left; exact ⟨m, by simp [h3, h1, h2, h4, bind, Except.bind, pure, Except.pure]⟩
        right
        have hc : ((if opts.scale.isSome then 1 else 0) + (if opts.size.isSome then 1 else 0)
            + if opts.voxel.isSome then 1 else 0) = suppliedResize opts := by
          simp [suppliedResize]
        rw [hc] at h4
        by_cases h2c : 2 ≤ suppliedResize opts
        · right; left
          refine ⟨h2c, ?_⟩
          have : suppliedResize opts > 1 := h2c
          simp [h3, h1, h2, h4, bind, Except.bind, pure, Except.pure, this]
        · right; right
          have hn : ¬ suppliedResize opts > 1 := by omega
          refine ⟨?_, ?_⟩
          · by_cases h0 : suppliedResize opts = 0
            · right; exact ⟨h0, rfl⟩
            · left; omega
          simp [h3, h1, h2, h4, bind, Except.bind, pure, Except.pure, hn]
  | none =>
    right
    cases ho : lib.set_oversample opts.oversample with
    | some msg => left; exact ⟨msg, by simp [bind, Except.bind, pure, Except.pure]⟩
    | none =>
      rcases resizeOption_cases lib.set_scale_factor opts.scale 0 with ⟨m, h1⟩ | h1
      · left; exact ⟨m, by simp [h1, bind, Except.bind, pure, Except.pure]⟩
      rw [Nat.zero_add] at h1
      rcases resizeOption_cases lib.set_size opts.size
        (if opts.scale.isSome then 1 else 0) with ⟨m, h2⟩ | h2
      · left; exact ⟨m, by simp [h1, h2, bind, Except.bind, pure, Except.pure]⟩
      rcases resizeOption_cases lib.set_voxel_size opts.voxel
        ((if opts.scale.isSome then 1 else 0) + if opts.size.isSome then 1 else 0)
        with ⟨m, h4⟩ | h4
      · left; exact ⟨m, by simp [h1, h2, h4, bind, Except.bind, pure, Except.pure]⟩
      right
      have hc : ((if opts.scale.isSome then 1 else 0) + (if opts.size.isSome then 1 else 0)
          + if opts.voxel.isSome then 1 else 0) = suppliedResize opts := by
        simp [suppliedResize]
      rw [hc] at h4
      by_cases h0 : suppliedResize opts = 0
      · left
        refine ⟨h0, rfl, ?_⟩
        simp [h1, h2, h4, bind, Except.bind, pure, Except.pure, h0]
      · right
        by_cases h2c : 2 ≤ suppliedResize opts
        · left
          refine ⟨h2c, ?_⟩
          have : suppliedResize opts > 1 := h2c
          simp [h1, h2, h4, bind, Except.bind, pure, Except.pure, this, h0]
        · right
          have hn : ¬ suppliedResize opts > 1 := by omega
          refine ⟨by omega, ?_⟩
          simp [h1, h2, h4, bind, Except.bind, pure, Except.pure, hn, h0]

theorem out_of_bounds_value_cases {α : Type} [Zero α] (opts : Options α) :
    out_of_bounds_value opts = .error .fillAndNan ∨ ∃ v, out_of_bounds_value opts = .ok v := by
  unfold out_of_bounds_value
  cases opts.fill with
  | none => right; exact ⟨_, rfl⟩
  | some f =>
    cases opts.nan with
    | true => left; rfl
    | false => right; exact ⟨f, rfl⟩

theorem out_of_bounds_value_ok {α : Type} [Zero α] (opts : Options α)
    (h : opts.nan = false ∨ opts.fill = none) : ∃ v, out_of_bounds_value opts = .ok v := by
  unfold out_of_bounds_value
  rcases h with h | h
  · rw [h]
    cases opts.fill with
    | none => exact ⟨_, rfl⟩
    | some f => exact ⟨f, rfl⟩
  · rw [h]
    exact ⟨_, rfl⟩

theorem run_regrid_eq {α : Type} [Zero α] (lib : ResizeLibrary) (H : Header) (opts : Options α)
    (oob : Scalar α) (h : out_of_bounds_value opts = .ok oob) :
    run lib H .regrid opts = (run_regrid lib H opts oob).map Output.regrid := by
  simp only [run, h, bind, Except.bind, pure, Except.pure, Except.map, if_true]

theorem resizeOption_reached (setter : String → Option String) (arg : Option String) (c : Nat)
    (h : ∀ a, arg = some a → setter a = none) :
    resizeOption setter arg c = .ok (c + if arg.isSome then 1 else 0) := by
  unfold resizeOption
  cases arg with
  | none => simp
  | some a => simp [h a rfl]

theorem run_regrid_reached {α : Type} (lib : ResizeLibrary) (H : Header) (opts : Options α)
    (oob : Scalar α) (h : reachesCountChecks lib opts) :
    (2 ≤ suppliedResize opts → run_regrid lib H opts oob = .error .multipleResize) ∧
    (suppliedResize opts = 0 → opts.template = none →
      run_regrid lib H opts oob = .error .noRegridOption) ∧
    ((suppliedResize opts = 1 ∨ (suppliedResize opts = 0 ∧ opts.template.isSome)) →
      ∃ plan, run_regrid lib H opts oob = .ok plan) := by
  obtain ⟨_, ht, ho, h1, h2, h3⟩ := h
  have e1 := resizeOption_reached lib.set_scale_factor opts.scale 0 h1
  rw [Nat.zero_add] at e1
  have e2 := resizeOption_reached lib.set_size opts.size
    (if opts.scale.isSome then 1 else 0) h2
  have e3 := resizeOption_reached lib.set_voxel_size opts.voxel
    ((if opts.scale.isSome then 1 else 0) + if opts.size.isSome then 1 else 0) h3
  have hc : ((if opts.scale.isSome then 1 else 0) + (if opts.size.isSome then 1 else 0)
      + if opts.voxel.isSome then 1 else 0) = suppliedResize opts := by
    simp [suppliedResize]
  rw [hc] at e3
  refine ⟨?_, ?_, ?_⟩
  · intro h2c
    have hgt : suppliedResize opts > 1 := h2c
    have hne : suppliedResize opts ≠ 0 := by omega
    unfold run_regrid
    cases hT : opts.template with
    | none => simp [ho, e1, e2, e3, bind, Except.bind, pure, Except.pure, hgt, hne]
    | some t =>
      have : ¬ t.ndim < 3 := by have := ht t hT; omega
      simp [ho, e1, e2, e3, bind, Except.bind, pure, Except.pure, hgt, this]
  · intro h0 hT
    unfold run_regrid
    simp [hT, ho, e1, e2, e3, bind, Except.bind, pure, Except.pure, h0]
  · intro hs
    unfold run_regrid
    cases hT : opts.template with
    | none =>
      have h1s : suppliedResize opts = 1 := by
        rcases hs with hs | ⟨_, hs⟩
        · exact hs
        · rw [hT] at hs
          cases hs
      simp [ho, e1, e2, e3, bind, Except.bind, pure, Except.pure, h1s]
    | some t =>
      have : ¬ t.ndim < 3 := by have := ht t hT; omega
      have hle : ¬ 1 < suppliedResize opts := by
        rcases hs with hs | ⟨hs, _⟩ <;> omega
      simp [ho, e1, e2, e3, bind, Except.bind, pure, Except.pure, this, hle]

theorem run_regrid_outcomes {α : Type} (lib : ResizeLibrary) (H : Header) (opts : Options α)
    (oob : Scalar α) :
    (2 ≤ suppliedResize opts →
      ∃ e, run_regrid lib H opts oob = .error e ∧ e.isConfigurationError = true) ∧
    (suppliedResize opts = 0 → opts.template = none →
      ∃ e, run_regrid lib H opts oob = .error e ∧ e.isConfigurationError = true) ∧
    ((suppliedResize opts = 1 ∨ (suppliedResize opts = 0 ∧ opts.template.isSome)) →
      run_regrid lib H opts oob ≠ .error .multipleResize ∧
      run_regrid lib H opts oob ≠ .error .noRegridOption) := by
  rcases run_regrid_cases lib H opts oob with h | ⟨m, h⟩ | ⟨h0, hT, h⟩ | ⟨h2, h⟩ | ⟨h1, p, h⟩
  · rw [h]
    exact ⟨fun _ => ⟨_, rfl, rfl⟩, fun _ _ => ⟨_, rfl, rfl⟩, fun _ => ⟨by simp, by simp⟩⟩
  · rw [h]
    exact ⟨fun _ => ⟨_, rfl, rfl⟩, fun _ _ => ⟨_, rfl, rfl⟩, fun _ => ⟨by simp, by simp⟩⟩
  · rw [h]
    refine ⟨fun _ => ⟨_, rfl, rfl⟩, fun _ _ => ⟨_, rfl, rfl⟩, fun hs => ?_⟩
    exfalso
    rcases hs with hs | ⟨_, hs⟩
    · omega
    · rw [hT] at hs
      cases hs
  · rw [h]
    refine ⟨fun _ => ⟨_, rfl, rfl⟩, fun _ _ => ⟨_, rfl, rfl⟩, fun hs => ?_⟩
    exfalso
    rcases hs with hs | ⟨hs, _⟩ <;> omega
  · rw [h]
    refine ⟨fun h2 => ?_, fun h0 hT => ?_, fun _ => ⟨by simp, by simp⟩⟩
    · exfalso
      rcases h1 with hs | ⟨hs, _⟩ <;> omega
    · exfalso
      rcases h1 with hs | ⟨_, hs⟩
      · omega
      · rw [hT] at hs
        cases hs


/-! ## Lemmas on the `-as` and `-uniform` loops -/

theorem getD_of_getElem? {β : Type} {xs : List β} {i : Nat} {x d : β} (h : xs[i]? = some x) :
    xs.getD i d = x := by
  simp [List.getD, h]

theorem applyUniform_eq (do_crop : Bool) (nd : Nat) (val : Int) (b : Bounds)
    (h : nd ≤ b.length) :
    applyUniform do_crop nd val b = .ok (mapFirst nd (fun _ => uniformEntry do_crop val) b) := by
  unfold applyUniform
  apply forAxes_pointwise _ _ _ _ h
  intro a b' x _ _ hb _
  exact updAt_eq_ok hb rfl

theorem applyAs_eq (do_crop : Bool) (nd : Nat) (t : Header) (b : Bounds) (h : nd ≤ b.length) :
    applyAs do_crop nd t b = .ok (mapFirst nd (asEntry do_crop t) b) := by
  unfold applyAs
  apply forAxes_pointwise _ _ _ _ h
  intro a b' x _ _ hb _
  by_cases ha : a ≥ t.ndim
  · cases do_crop with
    | true =>
      simp only [ha, if_true, asEntry]
      exact updAt_eq_ok hb rfl
    | false =>
      simp only [ha, if_true, asEntry, Bool.false_eq_true, if_false]
      rw [set_same hb]
  · have hlt : a < t.size.length := by
      simp only [Header.ndim] at ha
      omega
    have hn : t.size[a]? = some (t.size[a]) := List.getElem?_eq_getElem hlt
    simp only [ha, if_false, asEntry]
    apply updAt_eq_ok hb
    have hd : t.size.getD a 0 = t.size[a] := getD_of_getElem? hn
    rw [hd]
    simp [getAt_eq_ok hn, bind, Except.bind, pure, Except.pure]

/-! ## Lemmas on the mask scan -/

theorem mapFirst_id {β : Type} (n : Nat) (xs : List β) : mapFirst n (fun _ x => x) xs = xs := by
  apply List.ext_getElem?
  intro i
  rw [getElem?_mapFirst]
  cases xs[i]? <;> simp

theorem mapFirst_comp {β : Type} (n : Nat) (g1 g2 : Nat → β → β) (xs : List β) :
    mapFirst n g2 (mapFirst n g1 xs) = mapFirst n (fun a x => g2 a (g1 a x)) xs := by
  apply List.ext_getElem?
  intro i
  rw [getElem?_mapFirst, getElem?_mapFirst, getElem?_mapFirst]
  cases xs[i]? with
  | none => rfl
  | some x =>
    by_cases h : i < n <;> simp [h]

theorem mapFirst_congr {β : Type} (n : Nat) (g1 g2 : Nat → β → β) (xs : List β)
    (h : ∀ a x, a < n → xs[a]? = some x → g1 a x = g2 a x) :
    mapFirst n g1 xs = mapFirst n g2 xs := by
  apply List.ext_getElem?
  intro i
  rw [getElem?_mapFirst, getElem?_mapFirst]
  cases hx : xs[i]? with
  | none => rfl
  | some x =>
    by_cases hi : i < n
    · simp [hi, h i x hi hx]
    · simp [hi]

theorem mem_voxels (size : List Int) : ∀ v : List Int, v ∈ voxels size ↔ inExtent size v := by
  unfold inExtent
  induction size with
  | nil =>
    intro v
    simp [voxels]
  | cons n rest ih =>
    intro v
    simp only [voxels, List.mem_flatMap, List.mem_range, List.mem_map]
    constructor
    · rintro ⟨i, hi, w, hw, rfl⟩
      refine List.Forall₂.cons ⟨by omega, by omega⟩ ((ih w).mp hw)
    · intro h
      cases h with
      | cons hx hrest =>
        rename_i x w
        refine ⟨x.toNat, by omega, w, (ih w).mpr hrest, ?_⟩
        congr 1
        omega

theorem inExtent_length {size v : List Int} (h : inExtent size v) : v.length = size.length :=
  List.Forall₂.length_eq h

theorem inExtent_getElem? {size v : List Int} (h : inExtent size v) {a : Nat} {x n : Int}
    (hx : v[a]? = some x) (hn : size[a]? = some n) : 0 ≤ x ∧ x < n := by
  unfold inExtent at h
  rcases List.forall₂_iff_get.mp h with ⟨_, hall⟩
  rcases List.getElem?_eq_some.mp hx with ⟨h1, e1⟩
  rcases List.getElem?_eq_some.mp hn with ⟨h2, e2⟩
  have := hall a h1 h2
  simp only [List.get_eq_getElem] at this
  rw [e1, e2] at this
  exact this

theorem call_eq (mask : Mask) (b : Bounds) (v : List Int) (hb : 3 ≤ b.length)
    (hv : 3 ≤ v.length) :
    BoundsCheck.call mask b v = .ok (mapFirst 3 (visitEntry mask v) b) := by
  unfold BoundsCheck.call
  by_cases hval : mask.value v = true
  · simp only [hval, if_true]
    apply forAxes_pointwise _ _ _ _ hb
    intro a b' x ha _ hb' _
    have hlt : a < v.length := by omega
    have hva : v[a]? = some (v[a]) := List.getElem?_eq_getElem hlt
    apply updAt_eq_ok hb'
    have hd : v.getD a 0 = v[a] := getD_of_getElem? hva
    simp only [visitEntry, hval, if_true, hd]
    simp [getAt_eq_ok hva, bind, Except.bind, pure, Except.pure]
  · simp only [hval]
    have : mapFirst 3 (visitEntry mask v) b = b := by
      have h1 : mapFirst 3 (visitEntry mask v) b = mapFirst 3 (fun _ x => x) b := by
        apply mapFirst_congr
        intro a x _ _
        simp [visitEntry, hval]
      rw [h1, mapFirst_id]
    rw [this]
    rfl

theorem scan_eq (mask : Mask) : ∀ (vs : List (List Int)) (b : Bounds), 3 ≤ b.length →
    (∀ v ∈ vs, 3 ≤ v.length) →
    vs.foldlM (BoundsCheck.call mask) b = .ok (mapFirst 3 (scanEntry mask vs) b) := by
  intro vs
  induction vs with
  | nil =>
    intro b _ _
    have h1 : mapFirst 3 (scanEntry mask []) b = mapFirst 3 (fun _ x => x) b := by
      apply mapFirst_congr
      intro a x _ _
      rfl
    rw [h1, mapFirst_id]
    rfl
  | cons v vs ih =>
    intro b hb hvs
    rw [List.foldlM_cons, call_eq mask b v hb (hvs v (List.mem_cons_self _ _))]
    show List.foldlM (BoundsCheck.call mask) (mapFirst 3 (visitEntry mask v) b) vs = _
    rw [ih _ (by rw [length_mapFirst]; exact hb) (fun w hw => hvs w (List.mem_cons_of_mem _ hw)),
      mapFirst_comp]
    rfl

theorem forAxes_error_of_prefix {σ : Type} (body : Nat → σ → Except Error σ) (s : σ) (e : Error)
    (k : Nat) (h : forAxes k body s = .error e) : ∀ m, forAxes (k + m) body s = .error e := by
  intro m
  induction m with
  | zero => exact h
  | succ m ih =>
    rw [← Nat.add_assoc, forAxes_succ, ih]
    rfl

/-- A counted loop whose first `k` iterations rewrite their entry and whose iteration `k`
raises `e` raises `e`. -/
theorem forAxes_pointwise_error {β : Type} (body : Nat → List β → Except Error (List β))
    (g : Nat → β → β) (xs : List β) (e : Error) (n k : Nat) (hk : k < n) (hn : n ≤ xs.length)
    (hbody : ∀ a b x, a < k → b.length = xs.length → b[a]? = some x → xs[a]? = some x →
        body a b = .ok (b.set a (g a x)))
    (hfail : ∀ b x, b.length = xs.length → b[k]? = some x → xs[k]? = some x →
        body k b = .error e) :
    forAxes n body xs = .error e := by
  have h1 : forAxes k body xs = .ok (mapFirst k g xs) :=
    forAxes_pointwise body g xs k (by omega) hbody
  have hx : xs[k]? = some (xs[k]) := List.getElem?_eq_getElem (by omega)
  have hm : (mapFirst k g xs)[k]? = some (xs[k]) := by
    rw [getElem?_mapFirst, hx]
    simp
  have h2 : forAxes (k + 1) body xs = .error e := by
    rw [forAxes_succ, h1]
    exact hfail _ _ (length_mapFirst k g xs) hm hx
  have h3 := forAxes_error_of_prefix body xs e (k + 1) h2 (n - (k + 1))
  have : k + 1 + (n - (k + 1)) = n := by omega
  rw [this] at h3
  exact h3

theorem seed_eq (H : Header) (b : Bounds) (hb : 3 ≤ b.length) (hH : 3 ≤ H.size.length) :
    seedBounds H b = .ok (mapFirst 3 (fun a _ => (H.size.getD a 0, 0)) b) := by
  unfold seedBounds
  apply forAxes_pointwise _ _ _ _ hb
  intro a b' x ha _ hb' _
  have hn : H.size[a]? = some (H.size[a]) := List.getElem?_eq_getElem (by omega)
  apply updAt_eq_ok hb'
  have hd : H.size.getD a 0 = H.size[a] := getD_of_getElem? hn
  rw [hd]
  simp [getAt_eq_ok hn, bind, Except.bind, pure, Except.pure]

theorem merge_eq (loc overall : Bounds) (h1 : 3 ≤ loc.length) (h2 : 3 ≤ overall.length) :
    BoundsCheck.merge loc overall =
      .ok (mapFirst 3 (fun a cur => (min (loc.getD a (0, 0)).1 cur.1,
        max (loc.getD a (0, 0)).2 cur.2)) overall) := by
  unfold BoundsCheck.merge
  apply forAxes_pointwise _ _ _ _ h2
  intro a b' x ha _ hb' _
  have hn : loc[a]? = some (loc[a]) := List.getElem?_eq_getElem (by omega)
  apply updAt_eq_ok hb'
  have hd : loc.getD a (0, 0) = loc[a] := getD_of_getElem? hn
  rw [hd]
  simp [getAt_eq_ok hn, bind, Except.bind, pure, Except.pure]

theorem threadedLoop_eq (mask : Mask) (b : Bounds) (hb : 3 ≤ b.length)
    (hm : 3 ≤ mask.size.length) :
    ThreadedLoop.run mask b =
      .ok (mapFirst 3 (fun a cur =>
        (min (scanEntry mask (voxels mask.size) a cur).1 cur.1,
         max (scanEntry mask (voxels mask.size) a cur).2 cur.2)) b) := by
  unfold ThreadedLoop.run
  have hvs : ∀ v ∈ voxels mask.size, 3 ≤ v.length := by
    intro v hv
    rw [inExtent_length ((mem_voxels _ v).mp hv)]
    exact hm
  rw [scan_eq mask _ b hb hvs]
  show BoundsCheck.merge (mapFirst 3 (scanEntry mask (voxels mask.size)) b) b = _
  rw [merge_eq _ _ (by rw [length_mapFirst]; exact hb) hb]
  congr 1
  apply mapFirst_congr
  intro a x ha hx
  have : (mapFirst 3 (scanEntry mask (voxels mask.size)) b)[a]? =
      some (scanEntry mask (voxels mask.size) a x) := by
    rw [getElem?_mapFirst, hx]
    simp [ha]
  rw [getD_of_getElem? this]

theorem dimensions_match_iff (s1 s2 : List Int) :
    dimensions_match s1 s2 0 3 = true ↔
      3 ≤ s1.length ∧ 3 ≤ s2.length ∧ ∀ a, a < 3 → s1[a]? = s2[a]? := by
  unfold dimensions_match
  simp only [Bool.and_eq_true, decide_eq_true_eq, List.drop_zero]
  constructor
  · rintro ⟨⟨h1, h2⟩, h3⟩
    refine ⟨h1, h2, fun a ha => ?_⟩
    have := congrArg (fun l => l[a]?) h3
    simp only [List.getElem?_take, ha, if_true] at this
    exact this
  · rintro ⟨h1, h2, h3⟩
    refine ⟨⟨h1, h2⟩, ?_⟩
    apply List.ext_getElem?
    intro i
    simp only [List.getElem?_take]
    by_cases hi : i < 3
    · simp [hi, h3 i hi]
    · simp [hi]

theorem scanned_eq (H : Header) (mask : Mask) (b : Bounds) (hb : 3 ≤ b.length)
    (hm : 3 ≤ mask.size.length) :
    ThreadedLoop.run mask (mapFirst 3 (fun a _ => (H.size.getD a 0, 0)) b) =
      .ok (mapFirst 3 (fun a _ => mergedEntry H mask a) b) := by
  rw [threadedLoop_eq mask _ (by rw [length_mapFirst]; exact hb) hm, mapFirst_comp]
  rfl

theorem margin_body_ok (mask : Mask) (hm : 3 ≤ mask.size.length) (a : Nat) (ha : a < 3)
    (b : Bounds) (x : Int × Int) (hb : b[a]? = some x) (hx : x.1 ≤ x.2) :
    updAt b a (marginStep mask a) = .ok (b.set a (marginEntry mask a x)) := by
  have hn : mask.size[a]? = some (mask.size[a]) := List.getElem?_eq_getElem (by omega)
  apply updAt_eq_ok hb
  have hd : mask.size.getD a 0 = mask.size[a] := getD_of_getElem? hn
  have hnot : ¬ x.1 > x.2 := by omega
  simp only [marginStep, marginEntry, hd, hnot, if_false]
  simp [getAt_eq_ok hn, bind, Except.bind, pure, Except.pure]

theorem margin_body_empty (mask : Mask) (a : Nat)
    (b : Bounds) (x : Int × Int) (hb : b[a]? = some x) (hx : x.1 > x.2) :
    updAt b a (marginStep mask a) = .error .emptyMask := by
  apply updAt_eq_error hb
  simp [marginStep, hx]

/-- With matching dimensions and a box that is non-empty on each of the three axes, the mask
block succeeds and writes the box with its margin on axes 0..2. -/
theorem maskBounds_ok (H : Header) (mask : Mask) (b : Bounds) (hb : 3 ≤ b.length)
    (hdim : dimensions_match H.size mask.size 0 3 = true)
    (hne : ∀ a, a < 3 → (mergedEntry H mask a).1 ≤ (mergedEntry H mask a).2) :
    maskBounds H mask b =
      .ok (mapFirst 3 (fun a _ => marginEntry mask a (mergedEntry H mask a)) b) := by
  obtain ⟨hH, hm, _⟩ := (dimensions_match_iff _ _).mp hdim
  simp only [maskBounds, check_dimensions, hdim, if_true, bind, Except.bind, seed_eq H b hb hH,
    scanned_eq H mask b hb hm, addMargin]
  have hlen : 3 ≤ (mapFirst 3 (fun a _ => mergedEntry H mask a) b).length := by
    rw [length_mapFirst]; exact hb
  rw [forAxes_pointwise _ (marginEntry mask) _ 3 hlen, mapFirst_comp]
  intro a b' x ha _ hb' hx
  have hxe : x = mergedEntry H mask a := by
    rw [getElem?_mapFirst] at hx
    have hba : b[a]? = some (b[a]) := List.getElem?_eq_getElem (by omega)
    rw [hba] at hx
    simp only [Option.map_some', ha, if_true, Option.some.injEq] at hx
    exact hx.symm
  exact margin_body_ok mask hm a ha b' x hb' (by rw [hxe]; exact hne a ha)

/-- With matching dimensions and a box that is empty on axis 0, the mask block raises the
empty-mask exception. -/
theorem maskBounds_empty (H : Header) (mask : Mask) (b : Bounds) (hb : 3 ≤ b.length)
    (hdim : dimensions_match H.size mask.size 0 3 = true)
    (h0 : (mergedEntry H mask 0).1 > (mergedEntry H mask 0).2) :
    maskBounds H mask b = .error .emptyMask := by
  obtain ⟨hH, hm, _⟩ := (dimensions_match_iff _ _).mp hdim
  simp only [maskBounds, check_dimensions, hdim, if_true, bind, Except.bind, seed_eq H b hb hH,
    scanned_eq H mask b hb hm, addMargin]
  have hlen : 3 ≤ (mapFirst 3 (fun a _ => mergedEntry H mask a) b).length := by
    rw [length_mapFirst]; exact hb
  apply forAxes_pointwise_error _ (marginEntry mask) _ _ 3 0 (by omega) hlen
  · intro a b' x ha
    omega
  · intro b' x _ hb' hx
    have hxe : x = mergedEntry H mask 0 := by
      rw [getElem?_mapFirst] at hx
      have hba : b[0]? = some (b[0]) := List.getElem?_eq_getElem (by omega)
      rw [hba] at hx
      simp only [Option.map_some', Nat.lt_irrefl, Option.some.injEq] at hx
      simpa using hx.symm
    exact margin_body_empty mask 0 b' x hb' (by rw [hxe]; exact h0)

theorem scanEntry_cons (mask : Mask) (v : List Int) (vs : List (List Int)) (a : Nat)
    (cur : Int × Int) :
    scanEntry mask (v :: vs) a cur = scanEntry mask vs a (visitEntry mask v a cur) := rfl

/-- The scan computes, on each axis, the minimum and maximum over the seed and the true
voxels visited. -/
theorem scanEntry_spec (mask : Mask) (a : Nat) : ∀ (vs : List (List Int)) (cur : Int × Int),
    (scanEntry mask vs a cur).1 ≤ cur.1 ∧ cur.2 ≤ (scanEntry mask vs a cur).2 ∧
    (∀ v ∈ vs, mask.value v = true →
      (scanEntry mask vs a cur).1 ≤ v.getD a 0 ∧ v.getD a 0 ≤ (scanEntry mask vs a cur).2) ∧
    ((scanEntry mask vs a cur).1 = cur.1 ∨
      ∃ v ∈ vs, mask.value v = true ∧ v.getD a 0 = (scanEntry mask vs a cur).1) ∧
    ((scanEntry mask vs a cur).2 = cur.2 ∨
      ∃ v ∈ vs, mask.value v = true ∧ v.getD a 0 = (scanEntry mask vs a cur).2) := by
  intro vs
  induction vs with
  | nil =>
    intro cur
    simp [scanEntry]
  | cons v vs ih =>
    intro cur
    rw [scanEntry_cons]
    obtain ⟨i1, i2, i3, i4, i5⟩ := ih (visitEntry mask v a cur)
    by_cases hval : mask.value v = true
    · have hv1 : (visitEntry mask v a cur).1 = min cur.1 (v.getD a 0) := by
        simp [visitEntry, hval]
      have hv2 : (visitEntry mask v a cur).2 = max cur.2 (v.getD a 0) := by
        simp [visitEntry, hval]
      rw [hv1] at i1 i4
      rw [hv2] at i2 i5
      refine ⟨le_trans i1 (min_le_left _ _), le_trans (le_max_left _ _) i2, ?_, ?_, ?_⟩
      · intro w hw hwv
        rcases List.mem_cons.mp hw with rfl | hw
        · exact ⟨le_trans i1 (min_le_right _ _), le_trans (le_max_right _ _) i2⟩
        · exact i3 w hw hwv
      · rcases i4 with h | ⟨w, hw, hwv, he⟩
        · rcases min_choice cur.1 (v.getD a 0) with hc | hc
          · left; rw [h, hc]
          · right; exact ⟨v, List.mem_cons_self _ _, hval, by rw [h, hc]⟩
        · right; exact ⟨w, List.mem_cons_of_mem _ hw, hwv, he⟩
      · rcases i5 with h | ⟨w, hw, hwv, he⟩
        · rcases max_choice cur.2 (v.getD a 0) with hc | hc
          · left; rw [h, hc]
          · right; exact ⟨v, List.mem_cons_self _ _, hval, by rw [h, hc]⟩
        · right; exact ⟨w, List.mem_cons_of_mem _ hw, hwv, he⟩
    · have hv : visitEntry mask v a cur = cur := by simp [visitEntry, hval]
      rw [hv] at i1 i2 i3 i4 i5 ⊢
      refine ⟨i1, i2, ?_, ?_, ?_⟩
      · intro w hw hwv
        rcases List.mem_cons.mp hw with rfl | hw
        · exact absurd hwv hval
        · exact i3 w hw hwv
      · rcases i4 with h | ⟨w, hw, hwv, he⟩
        · left; exact h
        · right; exact ⟨w, List.mem_cons_of_mem _ hw, hwv, he⟩
      · rcases i5 with h | ⟨w, hw, hwv, he⟩
        · left; exact h
        · right; exact ⟨w, List.mem_cons_of_mem _ hw, hwv, he⟩

theorem scanEntry_all_false (mask : Mask) (a : Nat) (vs : List (List Int)) (cur : Int × Int)
    (h : ∀ v ∈ vs, mask.value v = false) : scanEntry mask vs a cur = cur := by
  induction vs with
  | nil => rfl
  | cons v vs ih =>
    rw [scanEntry_cons]
    have hv : visitEntry mask v a cur = cur := by
      simp [visitEntry, h v (List.mem_cons_self _ _)]
    rw [hv]
    exact ih (fun w hw => h w (List.mem_cons_of_mem _ hw))

/-- With matching dimensions, the merged entry of a spatial axis is the bounding box of the
true voxels on that axis. -/
theorem mergedEntry_box (H : Header) (mask : Mask) (a : Nat) (mn mx : Int) (ha : a < 3)
    (hdim : dimensions_match H.size mask.size 0 3 = true)
    (hmin : mask.boxMin a mn) (hmax : mask.boxMax a mx) :
    mergedEntry H mask a = (mn, mx) := by
  obtain ⟨hH, hm, hsz⟩ := (dimensions_match_iff _ _).mp hdim
  have hn : mask.size[a]? = some (mask.size[a]) := List.getElem?_eq_getElem (by omega)
  have hN : H.size.getD a 0 = mask.size[a] := getD_of_getElem? (by rw [hsz a ha]; exact hn)
  obtain ⟨⟨v0, hv0, hv0a⟩, hleast⟩ := hmin
  obtain ⟨⟨v1, hv1, hv1a⟩, hgreatest⟩ := hmax
  have r0 := inExtent_getElem? hv0.1 hv0a hn
  have r1 := inExtent_getElem? hv1.1 hv1a hn
  obtain ⟨_, _, s3, s4, s5⟩ := scanEntry_spec mask a (voxels mask.size) (mask.size[a], 0)
  have m0 := s3 v0 ((mem_voxels _ _).mpr hv0.1) hv0.2
  have m1 := s3 v1 ((mem_voxels _ _).mpr hv1.1) hv1.2
  rw [getD_of_getElem? hv0a] at m0
  rw [getD_of_getElem? hv1a] at m1
  have hvox : ∀ v ∈ voxels mask.size, mask.value v = true →
      mn ≤ v.getD a 0 ∧ v.getD a 0 ≤ mx := by
    intro v hv hval
    have hext := (mem_voxels _ _).mp hv
    have hlt : a < v.length := by rw [inExtent_length hext]; omega
    have hva : v[a]? = some (v[a]) := List.getElem?_eq_getElem hlt
    rw [getD_of_getElem? hva]
    exact ⟨hleast v _ ⟨hext, hval⟩ hva, hgreatest v _ ⟨hext, hval⟩ hva⟩
  have e1 : (scanEntry mask (voxels mask.size) a (mask.size[a], 0)).1 = mn := by
    rcases s4 with h | ⟨v, hv, hval, he⟩
    · simp only at h
      omega
    · have := (hvox v hv hval).1
      omega
  have e2 : (scanEntry mask (voxels mask.size) a (mask.size[a], 0)).2 = mx := by
    rcases s5 with h | ⟨v, hv, hval, he⟩
    · simp only at h
      omega
    · have := (hvox v hv hval).2
      omega
  simp only [mergedEntry, hN, e1, e2]
  congr 1
  · exact min_eq_left (by omega)
  · exact max_eq_left (by omega)

/-- A mask without a true voxel leaves the seed `(size, 0)`. -/
theorem mergedEntry_all_false (H : Header) (mask : Mask) (a : Nat)
    (h : ∀ v, inExtent mask.size v → mask.value v = false) :
    mergedEntry H mask a = (H.size.getD a 0, 0) := by
  have := scanEntry_all_false mask a (voxels mask.size) (H.size.getD a 0, 0)
    (fun v hv => h v ((mem_voxels _ _).mp hv))
  simp only [mergedEntry]
  rw [this]
  simp

/-! ## Lemmas on composition of the crop / pad stages -/

theorem bind_eq_ok_iff {β γ : Type} (x : Except Error β) (f : β → Except Error γ) (c : γ) :
    (x >>= f) = .ok c ↔ ∃ a, x = .ok a ∧ f a = .ok c := by
  cases x with
  | error e => simp [bind, Except.bind]
  | ok a => simp [bind, Except.bind]

theorem bind_eq_error_iff {β γ : Type} (x : Except Error β) (f : β → Except Error γ)
    (e : Error) :
    (x >>= f) = .error e ↔ x = .error e ∨ ∃ a, x = .ok a ∧ f a = .error e := by
  cases x with
  | error e1 => simp [bind, Except.bind]
  | ok a => simp [bind, Except.bind]

theorem run_crop_pad_eq {α : Type} [Zero α] (lib : ResizeLibrary) (H : Header) (op : Operation)
    (opts : Options α) (oob : Scalar α) (hop : op ≠ .regrid)
    (h : out_of_bounds_value opts = .ok oob) :
    run lib H op opts = (run_crop_pad H (decide (op = .crop)) opts oob).map Output.crop_pad := by
  simp only [run, h, bind, Except.bind, pure, Except.pure, Except.map, hop, if_false]

theorem run_eq_ok_crop_pad {α : Type} [Zero α] (lib : ResizeLibrary) (H : Header)
    (op : Operation) (opts : Options α) (oob : Scalar α) (r : CropPad α) (hop : op ≠ .regrid)
    (h : out_of_bounds_value opts = .ok oob) :
    run lib H op opts = .ok (.crop_pad r) ↔
      run_crop_pad H (decide (op = .crop)) opts oob = .ok r := by
  rw [run_crop_pad_eq lib H op opts oob hop h]
  cases run_crop_pad H (decide (op = .crop)) opts oob with
  | error e => simp [Except.map]
  | ok r1 => simp [Except.map]

theorem run_eq_error_crop_pad {α : Type} [Zero α] (lib : ResizeLibrary) (H : Header)
    (op : Operation) (opts : Options α) (oob : Scalar α) (e : Error) (hop : op ≠ .regrid)
    (h : out_of_bounds_value opts = .ok oob) :
    run lib H op opts = .error e ↔
      run_crop_pad H (decide (op = .crop)) opts oob = .error e := by
  rw [run_crop_pad_eq lib H op opts oob hop h]
  cases run_crop_pad H (decide (op = .crop)) opts oob with
  | error e => simp [Except.map]
  | ok r1 => simp [Except.map]

/-- The crop / pad branch succeeds exactly when its five stages succeed in turn. -/
theorem run_crop_pad_ok_iff {α : Type} (H : Header) (c : Bool) (opts : Options α)
    (oob : Scalar α) (r : CropPad α) :
    run_crop_pad H c opts oob = .ok r ↔
      ∃ st1 st2 st3 st4,
        maskStage H c opts.mask (initialBounds H, 0) = .ok st1 ∧
        asStage c (if opts.nd then H.ndim else 3) opts.as_ st1 = .ok st2 ∧
        uniformStage c (if opts.nd then H.ndim else 3) opts.uniform st2 = .ok st3 ∧
        axisStage H c opts.axis st3 = .ok st4 ∧
        finish H (if opts.nd then H.ndim else 3) opts oob st4 = .ok r := by
  unfold run_crop_pad
  simp only [bind_eq_ok_iff]
  constructor
  · rintro ⟨st1, h1, st2, h2, st3, h3, st4, h4, h5⟩
    exact ⟨st1, st2, st3, st4, h1, h2, h3, h4, h5⟩
  · rintro ⟨st1, st2, st3, st4, h1, h2, h3, h4, h5⟩
    exact ⟨st1, h1, st2, h2, st3, h3, st4, h4, h5⟩

/-- The crop / pad branch fails with the error of its first failing stage. -/
theorem run_crop_pad_error_iff {α : Type} (H : Header) (c : Bool) (opts : Options α)
    (oob : Scalar α) (e : Error) :
    run_crop_pad H c opts oob = .error e ↔
      maskStage H c opts.mask (initialBounds H, 0) = .error e ∨
      ∃ st1, maskStage H c opts.mask (initialBounds H, 0) = .ok st1 ∧
        (asStage c (if opts.nd then H.ndim else 3) opts.as_ st1 = .error e ∨
        ∃ st2, asStage c (if opts.nd then H.ndim else 3) opts.as_ st1 = .ok st2 ∧
          (uniformStage c (if opts.nd then H.ndim else 3) opts.uniform st2 = .error e ∨
          ∃ st3, uniformStage c (if opts.nd then H.ndim else 3) opts.uniform st2 = .ok st3 ∧
            (axisStage H c opts.axis st3 = .error e ∨
            ∃ st4, axisStage H c opts.axis st3 = .ok st4 ∧
              finish H (if opts.nd then H.ndim else 3) opts oob st4 = .error e))) := by
  unfold run_crop_pad
  simp only [bind_eq_error_iff]

/-! ## Where errors come from, and what the stages preserve -/

theorem getAt_error {β : Type} {xs : List β} {i : Nat} {e : Error}
    (h : getAt xs i = .error e) : e = .indexOutOfRange := by
  unfold getAt at h
  cases hx : xs[i]? with
  | none => rw [hx] at h; cases h; rfl
  | some x => rw [hx] at h; cases h

theorem setAt_error {β : Type} {xs : List β} {i : Nat} {v : β} {e : Error}
    (h : setAt xs i v = .error e) : e = .indexOutOfRange := by
  unfold setAt at h
  by_cases hi : i < xs.length
  · rw [if_pos hi] at h; cases h
  · rw [if_neg hi] at h; cases h; rfl

theorem setAt_ok {β : Type} {xs ys : List β} {i : Nat} {v : β}
    (h : setAt xs i v = .ok ys) : i < xs.length ∧ ys = xs.set i v := by
  unfold setAt at h
  by_cases hi : i < xs.length
  · rw [if_pos hi] at h; cases h; exact ⟨hi, rfl⟩
  · rw [if_neg hi] at h; cases h

theorem updAt_error {β : Type} (P : Error → Prop) {xs : List β} {a : Nat}
    {f : β → Except Error β} {e : Error} (h0 : P .indexOutOfRange)
    (hf : ∀ x e, f x = .error e → P e) (h : updAt xs a f = .error e) : P e := by
  unfold updAt at h
  rcases (bind_eq_error_iff _ _ _).mp h with h1 | ⟨x, _, h2⟩
  · rw [getAt_error h1]; exact h0
  · rcases (bind_eq_error_iff _ _ _).mp h2 with h3 | ⟨y, _, h4⟩
    · exact hf x e h3
    · rw [setAt_error h4]; exact h0

theorem updAt_length {β : Type} {xs ys : List β} {a : Nat} {f : β → Except Error β}
    (h : updAt xs a f = .ok ys) : ys.length = xs.length := by
  unfold updAt at h
  rcases (bind_eq_ok_iff _ _ _).mp h with ⟨x, _, h2⟩
  rcases (bind_eq_ok_iff _ _ _).mp h2 with ⟨y, _, h4⟩
  rw [(setAt_ok h4).2, List.length_set]

theorem forAxes_error {σ : Type} (P : Error → Prop) (body : Nat → σ → Except Error σ)
    (hb : ∀ a s e, body a s = .error e → P e) :
    ∀ (n : Nat) (s : σ) (e : Error), forAxes n body s = .error e → P e := by
  intro n
  induction n with
  | zero =>
    intro s e h
    rw [forAxes_zero] at h
    cases h
  | succ n ih =>
    intro s e h
    rw [forAxes_succ] at h
    cases hx : forAxes n body s with
    | error e1 =>
      rw [hx] at h
      cases h
      exact ih s _ hx
    | ok s1 =>
      rw [hx] at h
      exact hb n s1 e h

theorem forAxes_invariant {σ : Type} (Q : σ → Prop) (body : Nat → σ → Except Error σ)
    (hb : ∀ a s s1, Q s → body a s = .ok s1 → Q s1) :
    ∀ (n : Nat) (s s1 : σ), Q s → forAxes n body s = .ok s1 → Q s1 := by
  intro n
  induction n with
  | zero =>
    intro s s1 hq h
    rw [forAxes_zero] at h
    cases h
    exact hq
  | succ n ih =>
    intro s s1 hq h
    rw [forAxes_succ] at h
    cases hx : forAxes n body s with
    | error e1 =>
      rw [hx] at h
      cases h
    | ok s2 =>
      rw [hx] at h
      exact hb n s2 s1 (ih s s2 hq hx) h

theorem foldlM_error {σ τ : Type} (P : Error → Prop) (f : σ → τ → Except Error σ)
    (hf : ∀ s x e, f s x = .error e → P e) :
    ∀ (xs : List τ) (s : σ) (e : Error), xs.foldlM f s = .error e → P e := by
  intro xs
  induction xs with
  | nil =>
    intro s e h
    cases h
  | cons x xs ih =>
    intro s e h
    rw [List.foldlM_cons] at h
    rcases (bind_eq_error_iff _ _ _).mp h with h1 | ⟨s1, _, h2⟩
    · exact hf s x e h1
    · exact ih s1 e h2

theorem foldlM_invariant {σ τ : Type} (Q : σ → Prop) (f : σ → τ → Except Error σ)
    (hf : ∀ s x s1, Q s → f s x = .ok s1 → Q s1) :
    ∀ (xs : List τ) (s s1 : σ), Q s → xs.foldlM f s = .ok s1 → Q s1 := by
  intro xs
  induction xs with
  | nil =>
    intro s s1 hq h
    cases h
    exact hq
  | cons x xs ih =>
    intro s s1 hq h
    rw [List.foldlM_cons] at h
    rcases (bind_eq_ok_iff _ _ _).mp h with ⟨s2, h1, h2⟩
    exact ih s2 s1 (hf s x s2 hq h1) h2

theorem forAxes_updAt_length {β : Type} (n k : Nat) (f : Nat → β → Except Error β)
    (xs ys : List β) (hx : xs.length = k)
    (h : forAxes n (fun axis b => updAt b axis (f axis)) xs = .ok ys) : ys.length = k :=
  forAxes_invariant (fun l => l.length = k) _
    (fun _ _ _ hq hb => (updAt_length hb).trans hq) n xs ys hx h

theorem forAxes_updAt_error {β : Type} (P : Error → Prop) (n : Nat)
    (f : Nat → β → Except Error β) (xs : List β) (e : Error) (h0 : P .indexOutOfRange)
    (hf : ∀ a x e, f a x = .error e → P e)
    (h : forAxes n (fun axis b => updAt b axis (f axis)) xs = .error e) : P e :=
  forAxes_error P _ (fun a _ _ hb => updAt_error P h0 (hf a) hb) n xs e h

theorem do_getAt_error {β γ : Type} {xs : List β} {i : Nat} {g : β → γ} {e : Error}
    (h : (do let n ← getAt xs i; pure (g n) : Except Error γ) = .error e) :
    e = .indexOutOfRange := by
  rcases (bind_eq_error_iff _ _ _).mp h with h1 | ⟨_, _, h2⟩
  · exact getAt_error h1
  · cases h2

theorem seedBounds_length {H : Header} {b b1 : Bounds} (h : seedBounds H b = .ok b1) :
    b1.length = b.length :=
  forAxes_updAt_length 3 b.length _ b b1 rfl h

theorem seedBounds_error {H : Header} {b : Bounds} {e : Error}
    (h : seedBounds H b = .error e) : e = .indexOutOfRange :=
  forAxes_updAt_error (fun e => e = .indexOutOfRange) 3 _ b e rfl
    (fun _ _ _ hf => do_getAt_error hf) h

theorem call_length {mask : Mask} {b b1 : Bounds} {v : List Int}
    (h : BoundsCheck.call mask b v = .ok b1) : b1.length = b.length := by
  unfold BoundsCheck.call at h
  by_cases hv : mask.value v = true
  · rw [if_pos hv] at h
    exact forAxes_updAt_length 3 b.length _ b b1 rfl h
  · rw [if_neg hv] at h
    cases h
    rfl

theorem call_error {mask : Mask} {b : Bounds} {v : List Int} {e : Error}
    (h : BoundsCheck.call mask b v = .error e) : e = .indexOutOfRange := by
  unfold BoundsCheck.call at h
  by_cases hv : mask.value v = true
  · rw [if_pos hv] at h
    exact forAxes_updAt_error (fun e => e = .indexOutOfRange) 3 _ b e rfl
      (fun _ _ _ hf => do_getAt_error hf) h
  · rw [if_neg hv] at h
    cases h

theorem threadedLoop_length {mask : Mask} {b b1 : Bounds}
    (h : ThreadedLoop.run mask b = .ok b1) : b1.length = b.length := by
  unfold ThreadedLoop.run at h
  rcases (bind_eq_ok_iff _ _ _).mp h with ⟨loc, _, h2⟩
  exact forAxes_updAt_length 3 b.length _ b b1 rfl h2

theorem threadedLoop_error {mask : Mask} {b : Bounds} {e : Error}
    (h : ThreadedLoop.run mask b = .error e) : e = .indexOutOfRange := by
  unfold ThreadedLoop.run at h
  rcases (bind_eq_error_iff _ _ _).mp h with h1 | ⟨loc, _, h2⟩
  · exact foldlM_error (fun e => e = .indexOutOfRange) _ (fun _ _ _ hc => call_error hc) _ _ _ h1
  · exact forAxes_updAt_error (fun e => e = .indexOutOfRange) 3 _ b e rfl
      (fun _ _ _ hf => do_getAt_error hf) h2

theorem marginStep_error {mask : Mask} {a : Nat} {x : Int × Int} {e : Error}
    (h : marginStep mask a x = .error e) : e = .emptyMask ∨ e = .indexOutOfRange := by
  unfold marginStep at h
  by_cases hx : x.1 > x.2
  · rw [if_pos hx] at h
    cases h
    left; rfl
  · rw [if_neg hx] at h
    right
    exact do_getAt_error h

theorem addMargin_length {mask : Mask} {b b1 : Bounds} (h : addMargin mask b = .ok b1) :
    b1.length = b.length :=
  forAxes_updAt_length 3 b.length _ b b1 rfl h

theorem addMargin_error {mask : Mask} {b : Bounds} {e : Error}
    (h : addMargin mask b = .error e) : e = .emptyMask ∨ e = .indexOutOfRange :=
  forAxes_updAt_error (fun e => e = .emptyMask ∨ e = .indexOutOfRange) 3 _ b e (Or.inr rfl)
    (fun _ _ _ hf => marginStep_error hf) h

theorem maskBounds_length {H : Header} {mask : Mask} {b b1 : Bounds}
    (h : maskBounds H mask b = .ok b1) : b1.length = b.length := by
  unfold maskBounds at h
  rcases (bind_eq_ok_iff _ _ _).mp h with ⟨_, _, h1⟩
  rcases (bind_eq_ok_iff _ _ _).mp h1 with ⟨s1, hs1, h2⟩
  rcases (bind_eq_ok_iff _ _ _).mp h2 with ⟨s2, hs2, h3⟩
  rw [addMargin_length h3, threadedLoop_length hs2, seedBounds_length hs1]

theorem maskBounds_error {H : Header} {mask : Mask} {b : Bounds} {e : Error}
    (h : maskBounds H mask b = .error e) :
    e = .dimensionMismatch ∨ e = .emptyMask ∨ e = .indexOutOfRange := by
  unfold maskBounds at h
  rcases (bind_eq_error_iff _ _ _).mp h with h0 | ⟨_, _, h1⟩
  · left
    unfold check_dimensions at h0
    by_cases hd : dimensions_match H.size mask.size 0 3 = true
    · rw [if_pos hd] at h0; cases h0
    · rw [if_neg hd] at h0; cases h0; rfl
  · right
    rcases (bind_eq_error_iff _ _ _).mp h1 with hs | ⟨s1, _, h2⟩
    · right; exact seedBounds_error hs
    · rcases (bind_eq_error_iff _ _ _).mp h2 with hs | ⟨s2, _, h3⟩
      · right; exact threadedLoop_error hs
      · exact addMargin_error h3

theorem maskStage_ok {H : Header} {c : Bool} {mask : Option Mask} {st st1 : Bounds × Nat}
    (h : maskStage H c mask st = .ok st1) :
    st1.1.length = st.1.length ∧ st1.2 = st.2 + (if mask.isSome then 1 else 0) := by
  unfold maskStage at h
  cases mask with
  | none =>
    cases h
    exact ⟨rfl, rfl⟩
  | some m =>
    cases c with
    | false => cases h
    | true =>
      simp only [Bool.not_true, Bool.false_eq_true, if_false] at h
      rcases (bind_eq_ok_iff _ _ _).mp h with ⟨b, hb, h2⟩
      cases h2
      exact ⟨maskBounds_length hb, rfl⟩

theorem maskStage_error {H : Header} {c : Bool} {mask : Option Mask} {st : Bounds × Nat}
    {e : Error} (h : maskStage H c mask st = .error e) :
    e = .padWithMask ∨ e = .dimensionMismatch ∨ e = .emptyMask ∨ e = .indexOutOfRange := by
  unfold maskStage at h
  cases mask with
  | none => cases h
  | some m =>
    cases c with
    | false =>
      cases h
      left; rfl
    | true =>
      simp only [Bool.not_true, Bool.false_eq_true, if_false] at h
      right
      rcases (bind_eq_error_iff _ _ _).mp h with h1 | ⟨_, _, h2⟩
      · exact maskBounds_error h1
      · cases h2

theorem applyAs_length {c : Bool} {nd : Nat} {t : Header} {b b1 : Bounds}
    (h : applyAs c nd t b = .ok b1) : b1.length = b.length := by
  refine forAxes_invariant (fun l => l.length = b.length) _ ?_ nd b b1 rfl h
  intro a s s1 hq hb
  by_cases ha : a ≥ t.ndim
  · simp only [ha, if_true] at hb
    cases c with
    | true =>
      simp only [if_true] at hb
      exact (updAt_length hb).trans hq
    | false =>
      simp only [Bool.false_eq_true, if_false] at hb
      cases hb
      exact hq
  · simp only [ha, if_false] at hb
    exact (updAt_length hb).trans hq

theorem applyAs_error {c : Bool} {nd : Nat} {t : Header} {b : Bounds} {e : Error}
    (h : applyAs c nd t b = .error e) : e = .indexOutOfRange := by
  refine forAxes_error (fun e => e = .indexOutOfRange) _ ?_ nd b e h
  intro a s e1 hb
  by_cases ha : a ≥ t.ndim
  · simp only [ha, if_true] at hb
    cases c with
    | true =>
      simp only [if_true] at hb
      exact updAt_error (fun e => e = .indexOutOfRange) rfl (fun _ _ hf => by cases hf) hb
    | false =>
      simp only [Bool.false_eq_true, if_false] at hb
      cases hb
  · simp only [ha, if_false] at hb
    exact updAt_error (fun e => e = .indexOutOfRange) rfl (fun _ _ hf => do_getAt_error hf) hb

theorem asStage_ok {c : Bool} {nd : Nat} {as_ : Option Header} {st st1 : Bounds × Nat}
    (h : asStage c nd as_ st = .ok st1) :
    st1.1.length = st.1.length ∧ st1.2 = st.2 + (if as_.isSome then 1 else 0) := by
  unfold asStage at h
  cases as_ with
  | none =>
    cases h
    exact ⟨rfl, rfl⟩
  | some t =>
    simp only [] at h
    by_cases h0 : st.2 ≠ 0
    · rw [if_pos h0] at h
      cases h
    · rw [if_neg h0] at h
      rcases (bind_eq_ok_iff _ _ _).mp h with ⟨b, hb, h2⟩
      cases h2
      exact ⟨applyAs_length hb, rfl⟩

theorem asStage_error {c : Bool} {nd : Nat} {as_ : Option Header} {st : Bounds × Nat}
    {e : Error} (h : asStage c nd as_ st = .error e) :
    e = .maskAndAs ∨ e = .indexOutOfRange := by
  unfold asStage at h
  cases as_ with
  | none => cases h
  | some t =>
    simp only [] at h
    by_cases h0 : st.2 ≠ 0
    · rw [if_pos h0] at h
      cases h
      left; rfl
    · rw [if_neg h0] at h
      right
      rcases (bind_eq_error_iff _ _ _).mp h with h1 | ⟨_, _, h2⟩
      · exact applyAs_error h1
      · cases h2

theorem uniformStage_ok {c : Bool} {nd : Nat} {uniform : Option Int} {st st1 : Bounds × Nat}
    (h : uniformStage c nd uniform st = .ok st1) :
    st1.1.length = st.1.length ∧ st1.2 = st.2 + (if uniform.isSome then 1 else 0) := by
  unfold uniformStage at h
  cases uniform with
  | none =>
    cases h
    exact ⟨rfl, rfl⟩
  | some val =>
    rcases (bind_eq_ok_iff _ _ _).mp h with ⟨b, hb, h2⟩
    cases h2
    exact ⟨forAxes_updAt_length nd st.1.length _ st.1 b rfl hb, rfl⟩

theorem uniformStage_error {c : Bool} {nd : Nat} {uniform : Option Int} {st : Bounds × Nat}
    {e : Error} (h : uniformStage c nd uniform st = .error e) : e = .indexOutOfRange := by
  unfold uniformStage at h
  cases uniform with
  | none => cases h
  | some val =>
    rcases (bind_eq_error_iff _ _ _).mp h with h1 | ⟨_, _, h2⟩
    · exact forAxes_updAt_error (fun e => e = .indexOutOfRange) nd _ st.1 e rfl
        (fun _ _ _ hf => by cases hf) h1
    · cases h2

/-! ## Lemmas on the `-axis` loop and the final block -/

theorem stoi_error {s : List Char} {e : Error} (h : stoi s = .error e) :
    e = .stoiInvalidArgument ∨ e = .stoiOutOfRange := by
  unfold stoi at h
  simp only [] at h
  by_cases h1 : List.takeWhile isdigit (takeSign (List.dropWhile isspace s)).2 = []
  · rw [if_pos h1] at h
    cases h; left; rfl
  · rw [if_neg h1] at h
    by_cases h2 : (if (takeSign (List.dropWhile isspace s)).1 = true then
          -(digitsValue (List.takeWhile isdigit (takeSign (List.dropWhile isspace s)).2) : Int)
        else (digitsValue (List.takeWhile isdigit (takeSign (List.dropWhile isspace s)).2) : Int))
          < -2147483648 ∨
        2147483647 < (if (takeSign (List.dropWhile isspace s)).1 = true then
          -(digitsValue (List.takeWhile isdigit (takeSign (List.dropWhile isspace s)).2) : Int)
        else (digitsValue (List.takeWhile isdigit (takeSign (List.dropWhile isspace s)).2) : Int))
    · rw [if_pos h2] at h
      cases h; right; rfl
    · rw [if_neg h2] at h
      cases h

theorem axisSpecBounds_error {c : Bool} {n : Int} {a : Nat} {spec : String} {e : Error}
    (h : axisSpecBounds c n a spec = .error e) : e.isAxisError = true := by
  unfold axisSpecBounds at h
  simp only [] at h
  split at h
  · split at h
    · cases h
    · cases h; rfl
  · rcases (bind_eq_error_iff _ _ _).mp h with h1 | ⟨lo, _, h2⟩
    · rcases stoi_error h1 with rfl | rfl <;> rfl
    · split at h2
      · cases h2
      · rcases (bind_eq_error_iff _ _ _).mp h2 with h3 | ⟨hi, _, h4⟩
        · rcases stoi_error h3 with rfl | rfl <;> rfl
        · cases h4

/-- One iteration of the `-axis` loop succeeds exactly when the axis exists, the
specification parses and the resulting pair is not empty; it then overwrites the entry of
that axis with the pair and counts the option. -/
theorem applyAxis_ok_iff (H : Header) (c : Bool) (st st1 : Bounds × Nat) (p : Nat × String) :
    applyAxis H c st p = .ok st1 ↔
      ∃ n v, H.size[p.1]? = some n ∧ axisSpecBounds c n p.1 p.2 = .ok v ∧ v.1 ≤ v.2 ∧
        p.1 < st.1.length ∧ st1 = (st.1.set p.1 v, st.2 + 1) := by
  unfold applyAxis
  simp only []
  by_cases ha : p.1 ≥ H.ndim
  · simp only [ha, if_true]
    constructor
    · intro h; cases h
    · rintro ⟨n, v, hn, _⟩
      rcases List.getElem?_eq_some.mp hn with ⟨hl, _⟩
      simp only [Header.ndim] at ha
      omega
  · simp only [ha, if_false]
    constructor
    · intro h
      rcases (bind_eq_ok_iff _ _ _).mp h with ⟨n, hn, h1⟩
      rcases (bind_eq_ok_iff _ _ _).mp h1 with ⟨v, hv, h2⟩
      rcases (bind_eq_ok_iff _ _ _).mp h2 with ⟨b, hb, h3⟩
      by_cases hlt : v.2 < v.1
      · rw [if_pos hlt] at h3
        cases h3
      · rw [if_neg hlt] at h3
        cases h3
        obtain ⟨hl, rfl⟩ := setAt_ok hb
        exact ⟨n, v, getAt_ok_iff.mp hn, hv, by omega, hl, rfl⟩
    · rintro ⟨n, v, hn, hv, hle, hl, rfl⟩
      have hlt : ¬ v.2 < v.1 := by omega
      simp only [getAt_eq_ok hn, hv, setAt_eq_ok v hl, bind, Except.bind, hlt, if_false]
      rfl

theorem applyAxis_error {H : Header} {c : Bool} {st : Bounds × Nat} {p : Nat × String}
    {e : Error} (h : applyAxis H c st p = .error e) : e.isAxisError = true := by
  unfold applyAxis at h
  simp only [] at h
  by_cases ha : p.1 ≥ H.ndim
  · rw [if_pos ha] at h
    cases h
    rfl
  · rw [if_neg ha] at h
    rcases (bind_eq_error_iff _ _ _).mp h with h1 | ⟨n, _, h2⟩
    · rw [getAt_error h1]; rfl
    · rcases (bind_eq_error_iff _ _ _).mp h2 with h3 | ⟨v, _, h4⟩
      · exact axisSpecBounds_error h3
      · rcases (bind_eq_error_iff _ _ _).mp h4 with h5 | ⟨b, _, h6⟩
        · rw [setAt_error h5]; rfl
        · by_cases hlt : v.2 < v.1
          · rw [if_pos hlt] at h6
            cases h6
            rfl
          · rw [if_neg hlt] at h6
            cases h6

theorem axisStage_error {H : Header} {c : Bool} {axis : List (Nat × String)}
    {st : Bounds × Nat} {e : Error} (h : axisStage H c axis st = .error e) :
    e.isAxisError = true :=
  foldlM_error (fun e => e.isAxisError = true) _ (fun _ _ _ hf => applyAxis_error hf) axis st e h

/-- After the `-axis` loop, an axis named by a specification holds the pair computed from
its last specification, the operation mode and its own extent; every other axis is
untouched.  The option count grows by the number of specifications. -/
theorem axisStage_ok (H : Header) (c : Bool) : ∀ (axis : List (Nat × String))
    (st st1 : Bounds × Nat), axisStage H c axis st = .ok st1 →
    st1.1.length = st.1.length ∧ st1.2 = st.2 + axis.length ∧
    ∀ a, (lastSpec axis a = none → st1.1[a]? = st.1[a]?) ∧
      (∀ spec, lastSpec axis a = some spec →
        ∃ n v, H.size[a]? = some n ∧ axisSpecBounds c n a spec = .ok v ∧ v.1 ≤ v.2 ∧
          st1.1[a]? = some v) := by
  intro axis
  induction axis with
  | nil =>
    intro st st1 h
    cases h
    refine ⟨rfl, rfl, fun a => ⟨fun _ => rfl, fun spec hs => ?_⟩⟩
    simp [lastSpec] at hs
  | cons p rest ih =>
    intro st st1 h
    unfold axisStage at h
    rw [List.foldlM_cons] at h
    rcases (bind_eq_ok_iff _ _ _).mp h with ⟨st2, h1, h2⟩
    obtain ⟨n, v, hn, hv, hle, hl, rfl⟩ := (applyAxis_ok_iff H c st st2 p).mp h1
    obtain ⟨i1, i2, i3⟩ := ih _ st1 h2
    refine ⟨by rw [i1, List.length_set], by rw [i2, List.length_cons]; omega, fun a => ?_⟩
    obtain ⟨j1, j2⟩ := i3 a
    cases hr : lastSpec rest a with
    | some s2 =>
      refine ⟨fun hnone => ?_, fun spec hs => ?_⟩
      · simp [lastSpec, hr] at hnone
      · simp only [lastSpec, hr, Option.some.injEq] at hs
        subst hs
        exact j2 _ hr
    | none =>
      have e1 := j1 hr
      by_cases hpa : p.1 = a
      · refine ⟨fun hnone => ?_, fun spec hs => ?_⟩
        · simp [lastSpec, hr, hpa] at hnone
        · simp only [lastSpec, hr, hpa, if_true, Option.some.injEq] at hs
          subst hs
          subst hpa
          refine ⟨n, v, hn, hv, hle, ?_⟩
          rw [e1]
          exact List.getElem?_set_self hl
      · refine ⟨fun _ => ?_, fun spec hs => ?_⟩
        · rw [e1]
          exact List.getElem?_set_ne hpa
        · simp [lastSpec, hr, hpa] at hs

theorem countChanged_error {H : Header} {nd : Nat} {b : Bounds} {size : List Int} {e : Error}
    (h : countChanged H nd b size = .error e) : e = .indexOutOfRange := by
  refine forAxes_error (fun e => e = .indexOutOfRange) _ ?_ nd 0 e h
  intro a s e1 hb
  rcases (bind_eq_error_iff _ _ _).mp hb with h1 | ⟨_, _, h2⟩
  · exact getAt_error h1
  · rcases (bind_eq_error_iff _ _ _).mp h2 with h3 | ⟨_, _, h4⟩
    · exact getAt_error h3
    · rcases (bind_eq_error_iff _ _ _).mp h4 with h5 | ⟨_, _, h6⟩
      · exact getAt_error h5
      · cases h6

theorem countChanged_total (H : Header) (b : Bounds) (size : List Int) :
    ∀ nd : Nat, nd ≤ b.length → nd ≤ H.size.length → nd ≤ size.length →
      ∃ k, countChanged H nd b size = .ok k := by
  intro nd
  induction nd with
  | zero =>
    intro _ _ _
    exact ⟨0, forAxes_zero _ _⟩
  | succ n ih =>
    intro h1 h2 h3
    obtain ⟨k, hk⟩ := ih (by omega) (by omega) (by omega)
    unfold countChanged at hk ⊢
    rw [forAxes_succ, hk]
    have e1 : b[n]? = some (b[n]) := List.getElem?_eq_getElem (by omega)
    have e2 : H.size[n]? = some (H.size[n]) := List.getElem?_eq_getElem (by omega)
    have e3 : size[n]? = some (size[n]) := List.getElem?_eq_getElem (by omega)
    simp only [Except.bind, getAt_eq_ok e1, getAt_eq_ok e2, getAt_eq_ok e3, bind, pure,
      Except.pure]
    exact ⟨_, rfl⟩

/-- The change count is zero when every considered axis keeps offset 0 and its extent. -/
theorem countChanged_zero (H : Header) (b : Bounds) (size : List Int) :
    ∀ nd k : Nat, countChanged H nd b size = .ok k →
      (∀ a x n s, a < nd → b[a]? = some x → H.size[a]? = some n → size[a]? = some s →
        x.1 = 0 ∧ n = s) → k = 0 := by
  intro nd
  induction nd with
  | zero =>
    intro k h _
    unfold countChanged at h
    rw [forAxes_zero] at h
    cases h
    rfl
  | succ n ih =>
    intro k h hall
    unfold countChanged at h
    rw [forAxes_succ] at h
    cases hx : forAxes n (fun axis changed_axes => do
        let b ← getAt b axis
        let n ← getAt H.size axis
        let sz ← getAt size axis
        pure (if b.1 ≠ 0 ∨ n ≠ sz then changed_axes + 1 else changed_axes)) 0 with
    | error e1 =>
      rw [hx] at h
      cases h
    | ok k1 =>
      rw [hx] at h
      have hk1 : k1 = 0 := ih k1 hx (fun a x m s ha => hall a x m s (by omega))
      subst hk1
      simp only [Except.bind] at h
      rcases (bind_eq_ok_iff _ _ _).mp h with ⟨x, hx1, h1⟩
      rcases (bind_eq_ok_iff _ _ _).mp h1 with ⟨m, hm, h2⟩
      rcases (bind_eq_ok_iff _ _ _).mp h2 with ⟨s, hs, h3⟩
      obtain ⟨z1, z2⟩ := hall n x m s (by omega) (getAt_ok_iff.mp hx1) (getAt_ok_iff.mp hm)
        (getAt_ok_iff.mp hs)
      have hnot : ¬ (x.1 ≠ 0 ∨ m ≠ s) := by
        rintro (h | h)
        · exact h z1
        · exact h z2
      rw [if_neg hnot] at h3
      cases h3
      rfl

theorem finish_ok_iff {α : Type} (H : Header) (nd : Nat) (opts : Options α) (oob : Scalar α)
    (st : Bounds × Nat) (r : CropPad α) :
    finish H nd opts oob st = .ok r ↔
      st.2 ≠ 0 ∧ ∃ k, countChanged H nd st.1 (st.1.map (fun b => b.2 - b.1 + 1)) = .ok k ∧
        r = { bounds := st.1
              from_ := st.1.map (fun b => b.1)
              size := st.1.map (fun b => b.2 - b.1 + 1)
              changed_axes := k
              warn_no_axes_changed := decide (k = 0)
              out_of_bounds_value := oob
              datatype := DataType.from_command_line opts DataType.Float32 } := by
  unfold finish
  by_cases h0 : st.2 = 0
  · simp [h0]
  · simp only [h0, if_false, ne_eq, not_false_eq_true, true_and]
    constructor
    · intro h
      rcases (bind_eq_ok_iff _ _ _).mp h with ⟨k, hk, h1⟩
      cases h1
      exact ⟨k, hk, rfl⟩
    · rintro ⟨k, hk, rfl⟩
      exact (bind_eq_ok_iff _ _ _).mpr ⟨k, hk, rfl⟩

theorem finish_error {α : Type} {H : Header} {nd : Nat} {opts : Options α} {oob : Scalar α}
    {st : Bounds × Nat} {e : Error} (h : finish H nd opts oob st = .error e) :
    (e = .noCropPadOption ∧ st.2 = 0) ∨ e = .indexOutOfRange := by
  unfold finish at h
  by_cases h0 : st.2 = 0
  · rw [if_pos h0] at h
    cases h
    left; exact ⟨rfl, h0⟩
  · rw [if_neg h0] at h
    right
    rcases (bind_eq_error_iff _ _ _).mp h with h1 | ⟨_, _, h2⟩
    · exact countChanged_error h1
    · cases h2

/-! ## Lemmas for the claims on the option count and the mask -/

theorem maskStage_none (H : Header) (c : Bool) (st : Bounds × Nat) :
    maskStage H c none st = .ok st := rfl

theorem asStage_none (c : Bool) (nd : Nat) (st : Bounds × Nat) :
    asStage c nd none st = .ok st := rfl

theorem uniformStage_none (c : Bool) (nd : Nat) (st : Bounds × Nat) :
    uniformStage c nd none st = .ok st := rfl

theorem axisStage_nil (H : Header) (c : Bool) (st : Bounds × Nat) :
    axisStage H c [] st = .ok st := rfl

theorem length_initialBounds (H : Header) : (initialBounds H).length = H.ndim := by
  simp [initialBounds, Header.ndim]

theorem getElem?_initialBounds (H : Header) (a : Nat) :
    (initialBounds H)[a]? = (H.size[a]?).map (fun n => (0, n - 1)) := by
  simp [initialBounds]

/-- The mask with a true voxel has a non-empty merged box on every axis. -/
theorem mergedEntry_nonempty (H : Header) (mask : Mask) (a : Nat) (v : List Int)
    (hv : mask.holds v) : (mergedEntry H mask a).1 ≤ (mergedEntry H mask a).2 := by
  obtain ⟨_, _, s3, _, _⟩ := scanEntry_spec mask a (voxels mask.size) (H.size.getD a 0, 0)
  have := s3 v ((mem_voxels _ _).mpr hv.1) hv.2
  simp only [mergedEntry]
  exact le_trans (min_le_left _ _) (le_trans (le_trans this.1 this.2) (le_max_left _ _))

theorem maskBounds_mismatch (H : Header) (mask : Mask) (b : Bounds)
    (hdim : dimensions_match H.size mask.size 0 3 = false) :
    maskBounds H mask b = .error .dimensionMismatch := by
  simp [maskBounds, check_dimensions, hdim, bind, Except.bind]

/-- A crop with a mask that has a true voxel never raises the empty-mask exception in the
mask block. -/
theorem maskStage_not_empty (H : Header) (mask : Mask) (v : List Int) (hv : mask.holds v) :
    maskStage H true (some mask) (initialBounds H, 0) ≠ .error .emptyMask := by
  intro h
  cases hdim : dimensions_match H.size mask.size 0 3 with
  | false =>
    simp [maskStage, maskBounds_mismatch H mask _ hdim, bind, Except.bind] at h
  | true =>
    obtain ⟨hH, _, _⟩ := (dimensions_match_iff _ _).mp hdim
    have hb : 3 ≤ (initialBounds H).length := by rw [length_initialBounds]; exact hH
    have := maskBounds_ok H mask (initialBounds H) hb hdim
      (fun a _ => mergedEntry_nonempty H mask a v hv)
    simp [maskStage, this, bind, Except.bind, pure, Except.pure] at h

/-- The option count after the four bound sources. -/
theorem stage_counts {H : Header} {c : Bool} {nd : Nat} {α : Type} {opts : Options α}
    {st1 st2 st3 st4 : Bounds × Nat}
    (h1 : maskStage H c opts.mask (initialBounds H, 0) = .ok st1)
    (h2 : asStage c nd opts.as_ st1 = .ok st2)
    (h3 : uniformStage c nd opts.uniform st2 = .ok st3)
    (h4 : axisStage H c opts.axis st3 = .ok st4) :
    st4.1.length = H.ndim ∧
    st4.2 = (if opts.mask.isSome then 1 else 0) + (if opts.as_.isSome then 1 else 0) +
      (if opts.uniform.isSome then 1 else 0) + opts.axis.length := by
  obtain ⟨a1, a2⟩ := maskStage_ok h1
  obtain ⟨b1, b2⟩ := asStage_ok h2
  obtain ⟨c1, c2⟩ := uniformStage_ok h3
  obtain ⟨d1, d2, _⟩ := axisStage_ok H c _ _ _ h4
  constructor
  · rw [d1, c1, b1, a1]
    exact length_initialBounds H
  · rw [d2, c2, b2, a2]
    simp

theorem nd_le_ndim {α : Type} (H : Header) (opts : Options α) (h : 3 ≤ H.ndim) :
    (if opts.nd then H.ndim else 3) ≤ H.ndim := by
  cases opts.nd with
  | true => simp
  | false => simpa using h

/-- When the four bound sources succeed with at least one option counted, on an image with at
least 3 axes, the branch succeeds and reports the resolved bounds with their offsets and
sizes. -/
theorem run_crop_pad_of_stages {α : Type} (H : Header) (c : Bool) (opts : Options α)
    (oob : Scalar α) (st1 st2 st3 st4 : Bounds × Nat) (hH : 3 ≤ H.ndim)
    (h1 : maskStage H c opts.mask (initialBounds H, 0) = .ok st1)
    (h2 : asStage c (if opts.nd then H.ndim else 3) opts.as_ st1 = .ok st2)
    (h3 : uniformStage c (if opts.nd then H.ndim else 3) opts.uniform st2 = .ok st3)
    (h4 : axisStage H c opts.axis st3 = .ok st4) (hc : st4.2 ≠ 0) :
    ∃ r, run_crop_pad H c opts oob = .ok r ∧ r.bounds = st4.1 ∧
      r.from_ = st4.1.map (fun b => b.1) ∧ r.size = st4.1.map (fun b => b.2 - b.1 + 1) ∧
      r.out_of_bounds_value = oob := by
  have hlen := (stage_counts h1 h2 h3 h4).1
  have hnd := nd_le_ndim H opts hH
  obtain ⟨k, hk⟩ := countChanged_total H st4.1 (st4.1.map (fun b => b.2 - b.1 + 1))
    (if opts.nd then H.ndim else 3) (by rw [hlen]; exact hnd) hnd
    (by rw [List.length_map, hlen]; exact hnd)
  refine ⟨_, (run_crop_pad_ok_iff H c opts oob _).mpr ⟨st1, st2, st3, st4, h1, h2, h3, h4,
    (finish_ok_iff H _ opts oob st4 _).mpr ⟨hc, k, hk, rfl⟩⟩, rfl, rfl, rfl, rfl⟩

theorem margin_box (mask : Mask) (a : Nat) (mn mx N : Int) (hN : mask.size.getD a 0 = N)
    (h0 : 0 ≤ mn) (h1 : mx < N) :
    marginEntry mask a (mn, mx) = (max 0 (mn - 1), min (N - 1) (mx + 1)) := by
  simp only [marginEntry, hN]
  congr 1
  · by_cases h : mn = 0
    · subst h
      simp
    · rw [if_pos h, max_eq_right (by omega)]
  · by_cases h : mx < N - 1
    · rw [if_pos h, min_eq_right (by omega)]
    · rw [if_neg h, min_eq_left (by omega)]
      omega

/-! ## Lemmas on the two forms of the `-axis` specification -/

theorem toLower_eq_e {c : Char} (h : c.toLower = 'e') :
    isspace c = false ∧ isdigit c = false ∧ c ≠ '-' ∧ c ≠ '+' := by
  have key : (65 ≤ c.toNat ∧ c.toNat ≤ 90) ∨ c.toNat = 101 := by
    by_cases hu : c.toNat ≥ 65 ∧ c.toNat ≤ 90
    · left; exact hu
    · right
      have : c.toLower = c := by
        simp only [Char.toLower]
        rw [if_neg hu]
      rw [this] at h
      rw [h]
      decide
  refine ⟨?_, ?_, ?_, ?_⟩
  · simp only [isspace, Bool.or_eq_false_iff, Bool.and_eq_false_iff, decide_eq_false_iff_not]
    omega
  · simp only [isdigit, Bool.and_eq_false_iff, decide_eq_false_iff_not]
    omega
  · rintro rfl
    revert key
    decide
  · rintro rfl
    revert key
    decide

/-- A token that reads "end" in some letter case is not a number for `std::stoi`. -/
theorem stoi_of_end {t : List Char} (h : lowercase t = "end".toList) :
    stoi t = .error .stoiInvalidArgument := by
  cases t with
  | nil => cases h
  | cons c rest =>
    have hc : c.toLower = 'e' := by
      simp only [lowercase, List.map_cons] at h
      exact (List.cons.inj h).1
    obtain ⟨h1, h2, h3, h4⟩ := toLower_eq_e hc
    simp [stoi, List.dropWhile, h1, takeSign, h3, h4, List.takeWhile, h2]

/-- Storing a value of the range of `int` in an `int` keeps it. -/
theorem asInt32_eq_self {x : Int} (h1 : -2147483648 ≤ x) (h2 : x ≤ 2147483647) :
    asInt32 x = x := by
  unfold asInt32
  omega

/-- The pair assigned by the delta form `dl,du` in crop mode (the negation of `du` being
representable). -/
theorem axisSpecBounds_delta (N : Int) (a : Nat) (spec : String) (dl du : Int)
    (h1 : find_first_of spec.toList ':' = none) (hp : parse_ints spec.toList = some [dl, du])
    (hdu1 : -2147483647 ≤ du) (hdu2 : du ≤ 2147483647) :
    axisSpecBounds true N a spec = .ok (dl, N - 1 - du) := by
  simp only [axisSpecBounds, h1, hp, if_true]
  rw [asInt32_eq_self (by omega) (by omega)]
  congr 2

/-- The pair assigned by the absolute form `start:stop`, in either mode. -/
theorem axisSpecBounds_range (c : Bool) (N : Int) (a : Nat) (spec : String) (k : Nat)
    (lo hi : Int) (hk : find_first_of spec.toList ':' = some k)
    (hlo : stoi (strip (spec.toList.take k)) = .ok lo)
    (hhi : stoi (strip (spec.toList.drop (k + 1))) = .ok hi) :
    axisSpecBounds c N a spec = .ok (lo, hi) := by
  have hne : lowercase (strip (spec.toList.drop (k + 1))) ≠ "end".toList := by
    intro he
    rw [stoi_of_end he] at hhi
    cases hhi
  simp only [axisSpecBounds, hk, hlo, bind, Except.bind, hne, if_false, hhi]
  rfl

/-- A run that ends in the crop / pad branch: the operation is not `regrid`, the
out-of-bounds value was accepted and the branch returned the result. -/
theorem run_ok_crop_pad_inv {α : Type} [Zero α] {lib : ResizeLibrary} {H : Header}
    {op : Operation} {opts : Options α} {r : CropPad α}
    (h : run lib H op opts = .ok (.crop_pad r)) :
    op ≠ .regrid ∧ ∃ oob, out_of_bounds_value opts = .ok oob ∧
      run_crop_pad H (decide (op = .crop)) opts oob = .ok r := by
  rcases out_of_bounds_value_cases opts with hb | ⟨oob, hb⟩
  · simp [run, hb, bind, Except.bind] at h
  · by_cases hop : op = .regrid
    · subst hop
      rw [run_regrid_eq lib H opts oob hb] at h
      cases hx : run_regrid lib H opts oob with
      | error e => rw [hx] at h; cases h
      | ok p => rw [hx] at h; cases h
    · exact ⟨hop, oob, hb, (run_eq_ok_crop_pad lib H op opts oob r hop hb).mp h⟩

/-! ## Lemmas on the uniform margin and on the voxel transfer -/

theorem mask_none_of_isSome {α : Type} {opts : Options α} (h : opts.mask.isSome = false) :
    opts.mask = none := by
  cases hm : opts.mask with
  | none => rfl
  | some m => rw [hm] at h; cases h

/-- With `-uniform` as the only bound source, on an image with at least 3 axes, the branch
succeeds and the resolved bounds are the source extent moved by the margin on every
considered axis. -/
theorem run_crop_pad_uniform_only {α : Type} (H : Header) (c : Bool) (opts : Options α)
    (oob : Scalar α) (val : Int) (hH : 3 ≤ H.ndim) (hm : opts.mask.isSome = false)
    (ha : opts.as_ = none) (hu : opts.uniform = some val) (hx : opts.axis = []) :
    ∃ r, run_crop_pad H c opts oob = .ok r ∧
      r.bounds = mapFirst (if opts.nd then H.ndim else 3) (fun _ => uniformEntry c val)
        (initialBounds H) ∧
      r.from_ = r.bounds.map (fun b => b.1) ∧ r.size = r.bounds.map (fun b => b.2 - b.1 + 1) ∧
      r.out_of_bounds_value = oob := by
  have hnd := nd_le_ndim H opts hH
  have h1 := maskStage_none H c (initialBounds H, 0)
  have h2 := asStage_none c (if opts.nd then H.ndim else 3) (initialBounds H, 0)
  have h3 : uniformStage c (if opts.nd then H.ndim else 3) (some val) (initialBounds H, 0) =
      .ok (mapFirst (if opts.nd then H.ndim else 3) (fun _ => uniformEntry c val)
        (initialBounds H), 0 + 1) := by
    have hu1 := applyUniform_eq c (if opts.nd then H.ndim else 3) val (initialBounds H)
      (by rw [length_initialBounds]; exact hnd)
    simp only [uniformStage, bind, Except.bind, hu1]
    rfl
  have h4 := axisStage_nil H c (mapFirst (if opts.nd then H.ndim else 3)
    (fun _ => uniformEntry c val) (initialBounds H), 0 + 1)
  rw [← mask_none_of_isSome hm] at h1
  rw [← ha] at h2
  rw [← hu] at h3
  rw [← hx] at h4
  obtain ⟨r, hr, hb, hf, hs, ho⟩ := run_crop_pad_of_stages H c opts oob _ _ _ _ hH h1 h2 h3 h4
    (by simp)
  exact ⟨r, hr, hb, by rw [hf, hb], by rw [hs, hb], ho⟩

theorem is_out_of_bounds_iff (size pos : List Int) :
    is_out_of_bounds size pos = true ↔
      ∃ (a : Nat) (p n : Int), pos[a]? = some p ∧ size[a]? = some n ∧ (p < 0 ∨ n ≤ p) := by
  unfold is_out_of_bounds
  rw [List.any_eq_true]
  constructor
  · rintro ⟨x, hx, hid⟩
    obtain ⟨a, ha⟩ := List.mem_iff_getElem?.mp hx
    rw [List.getElem?_zipWith] at ha
    cases hp : pos[a]? with
    | none => simp [hp] at ha
    | some p =>
      cases hn : size[a]? with
      | none => simp [hp, hn] at ha
      | some n =>
        simp only [hp, hn, Option.some.injEq] at ha
        subst ha
        exact ⟨a, p, n, hp, hn, of_decide_eq_true hid⟩
  · rintro ⟨a, p, n, hp, hn, hout⟩
    refine ⟨true, List.mem_iff_getElem?.mpr ⟨a, ?_⟩, rfl⟩
    rw [List.getElem?_zipWith, hp, hn]
    simp only [Option.some.injEq]
    exact decide_eq_true hout

/-- The voxel written at output index `idx`: the out-of-bounds value when the mapped source
index `idx + from` leaves the source extent on some axis, the source voxel at the mapped
index otherwise. -/
theorem output_value_spec {α : Type} (input : Image α) (r : CropPad α) (idx : List Int) :
    ((∃ (a : Nat) (i o n : Int), idx[a]? = some i ∧ r.from_[a]? = some o ∧
        input.header.size[a]? = some n ∧
        (i + o < 0 ∨ n ≤ i + o)) →
      output_value input r idx = r.out_of_bounds_value) ∧
    ((∀ (a : Nat) (i o n : Int), idx[a]? = some i → r.from_[a]? = some o →
        input.header.size[a]? = some n →
        0 ≤ i + o ∧ i + o < n) →
      output_value input r idx = input.value (List.zipWith (· + ·) idx r.from_)) := by
  unfold output_value Adapter.Regrid.value
  simp only []
  constructor
  · rintro ⟨a, i, o, n, hi, ho, hn, hout⟩
    have : is_out_of_bounds input.header.size (List.zipWith (· + ·) idx r.from_) = true := by
      rw [is_out_of_bounds_iff]
      refine ⟨a, i + o, n, ?_, hn, hout⟩
      rw [List.getElem?_zipWith, hi, ho]
    rw [if_pos this]
  · intro hall
    have : ¬ is_out_of_bounds input.header.size (List.zipWith (· + ·) idx r.from_) = true := by
      rw [is_out_of_bounds_iff]
      rintro ⟨a, p, n, hp, hn, hout⟩
      rw [List.getElem?_zipWith] at hp
      cases hi : idx[a]? with
      | none => simp [hi] at hp
      | some i =>
        cases ho : r.from_[a]? with
        | none => simp [hi, ho] at hp
        | some o =>
          simp only [hi, ho, Option.some.injEq] at hp
          have := hall a i o n hi ho hn
          omega
    rw [if_neg this]

/-! ## Lemmas on the general options -/

theorem run_regrid_oob {α : Type} {lib : ResizeLibrary} {H : Header} {opts : Options α}
    {oob : Scalar α} {p : RegridPlan α} (h : run_regrid lib H opts oob = .ok p) :
    p.out_of_bounds_value = oob := by
  unfold run_regrid at h
  simp only [] at h
  cases ho : lib.set_oversample opts.oversample with
  | some msg =>
    rw [ho] at h
    cases hT : opts.template with
    | none => rw [hT] at h; cases h
    | some t =>
      rw [hT] at h
      simp only [] at h
      split at h <;> cases h
  | none =>
    rw [ho] at h
    rcases resizeOption_cases lib.set_scale_factor opts.scale 0 with ⟨m, h1⟩ | h1
    · rw [h1] at h
      cases hT : opts.template with
      | none => rw [hT] at h; cases h
      | some t =>
        rw [hT] at h
        simp only [] at h
        split at h <;> cases h
    rw [h1] at h
    rcases resizeOption_cases lib.set_size opts.size
      (0 + if opts.scale.isSome then 1 else 0) with ⟨m, h2⟩ | h2
    · simp only [bind, Except.bind, pure, Except.pure, h2] at h
      cases hT : opts.template with
      | none => rw [hT] at h; cases h
      | some t =>
        rw [hT] at h
        simp only [] at h
        split at h <;> cases h
    rcases resizeOption_cases lib.set_voxel_size opts.voxel
      (0 + (if opts.scale.isSome then 1 else 0) + if opts.size.isSome then 1 else 0)
      with ⟨m, h4⟩ | h4
    · simp only [bind, Except.bind, pure, Except.pure, h2, h4] at h
      cases hT : opts.template with
      | none => rw [hT] at h; cases h
      | some t =>
        rw [hT] at h
        simp only [] at h
        split at h <;> cases h
    simp only [bind, Except.bind, pure, Except.pure, h2, h4] at h
    cases hT : opts.template with
    | none =>
      rw [hT] at h
      simp only [] at h
      split_ifs at h <;> (cases h; try rfl)
    | some t =>
      rw [hT] at h
      simp only [] at h
      split_ifs at h <;> (cases h; try rfl)

theorem run_ok_regrid_inv {α : Type} [Zero α] {lib : ResizeLibrary} {H : Header}
    {op : Operation} {opts : Options α} {p : RegridPlan α}
    (h : run lib H op opts = .ok (.regrid p)) :
    ∃ oob, out_of_bounds_value opts = .ok oob ∧ run_regrid lib H opts oob = .ok p := by
  rcases out_of_bounds_value_cases opts with hb | ⟨oob, hb⟩
  · simp [run, hb, bind, Except.bind] at h
  · by_cases hop : op = .regrid
    · subst hop
      rw [run_regrid_eq lib H opts oob hb] at h
      cases hx : run_regrid lib H opts oob with
      | error e => rw [hx] at h; cases h
      | ok q =>
        rw [hx] at h
        simp only [Except.map, Except.ok.injEq, Output.regrid.injEq] at h
        exact ⟨oob, hb, by rw [hx, h]⟩
    · rw [run_crop_pad_eq lib H op opts oob hop hb] at h
      cases hx : run_crop_pad H (decide (op = .crop)) opts oob with
      | error e => rw [hx] at h; cases h
      | ok q => rw [hx] at h; cases h

theorem run_crop_pad_oob {α : Type} {H : Header} {c : Bool} {opts : Options α}
    {oob : Scalar α} {r : CropPad α} (h : run_crop_pad H c opts oob = .ok r) :
    r.out_of_bounds_value = oob ∧
      r.datatype = DataType.from_command_line opts DataType.Float32 := by
  obtain ⟨st1, st2, st3, st4, _, _, _, _, h5⟩ := (run_crop_pad_ok_iff H c opts oob r).mp h
  obtain ⟨_, k, _, rfl⟩ := (finish_ok_iff H _ opts oob st4 r).mp h5
  exact ⟨rfl, rfl⟩

theorem run_fill_and_nan {α : Type} [Zero α] (lib : ResizeLibrary) (H : Header)
    (op : Operation) (opts : Options α) (hn : opts.nan = true) (hf : opts.fill.isSome = true) :
    run lib H op opts = .error .fillAndNan := by
  cases hfill : opts.fill with
  | none => rw [hfill] at hf; cases hf
  | some f => simp [run, out_of_bounds_value, hn, hfill, Scalar.neSelf, bind, Except.bind]

/-! ## Closed forms of the `-as` and `-uniform` stages -/

theorem asStage_eq (c : Bool) (nd : Nat) (as_ : Option Header) (st : Bounds × Nat)
    (hnd : nd ≤ st.1.length) (h0 : st.2 = 0) :
    asStage c nd as_ st = .ok (asBounds c nd as_ st.1, st.2 + if as_.isSome then 1 else 0) := by
  cases as_ with
  | none => rfl
  | some t =>
    have hne : ¬ st.2 ≠ 0 := by simp [h0]
    simp only [asStage, hne, if_false, applyAs_eq c nd t st.1 hnd, bind, Except.bind, asBounds]
    rfl

theorem uniformStage_eq (c : Bool) (nd : Nat) (uniform : Option Int) (st : Bounds × Nat)
    (hnd : nd ≤ st.1.length) :
    uniformStage c nd uniform st =
      .ok (uniformBounds c nd uniform st.1, st.2 + if uniform.isSome then 1 else 0) := by
  cases uniform with
  | none => rfl
  | some val =>
    simp only [uniformStage, applyUniform_eq c nd val st.1 hnd, bind, Except.bind,
      uniformBounds]
    rfl

theorem length_asBounds (c : Bool) (nd : Nat) (as_ : Option Header) (b : Bounds) :
    (asBounds c nd as_ b).length = b.length := by
  cases as_ with
  | none => rfl
  | some t => exact length_mapFirst _ _ _

theorem length_uniformBounds (c : Bool) (nd : Nat) (uniform : Option Int) (b : Bounds) :
    (uniformBounds c nd uniform b).length = b.length := by
  cases uniform with
  | none => rfl
  | some v => exact length_mapFirst _ _ _

/-- Without `-mask` and `-axis`, with `-as` or `-uniform` supplied, on an image with at least
3 axes, the branch succeeds and the resolved bounds are the source extent after the `-as` and
then the `-uniform` rewriting of the considered axes. -/
theorem run_crop_pad_as_uniform {α : Type} (H : Header) (c : Bool) (opts : Options α)
    (oob : Scalar α) (hH : 3 ≤ H.ndim) (hm : opts.mask.isSome = false) (hx : opts.axis = [])
    (hs : opts.as_.isSome = true ∨ opts.uniform.isSome = true) :
    ∃ r, run_crop_pad H c opts oob = .ok r ∧
      r.bounds = uniformBounds c (if opts.nd then H.ndim else 3) opts.uniform
        (asBounds c (if opts.nd then H.ndim else 3) opts.as_ (initialBounds H)) ∧
      r.from_ = r.bounds.map (fun b => b.1) ∧ r.size = r.bounds.map (fun b => b.2 - b.1 + 1) ∧
      r.out_of_bounds_value = oob := by
  have hnd := nd_le_ndim H opts hH
  have h1 := maskStage_none H c (initialBounds H, 0)
  have h2 := asStage_eq c (if opts.nd then H.ndim else 3) opts.as_ (initialBounds H, 0)
    (by rw [length_initialBounds]; exact hnd) rfl
  have h3 := uniformStage_eq c (if opts.nd then H.ndim else 3) opts.uniform
    (asBounds c (if opts.nd then H.ndim else 3) opts.as_ (initialBounds H),
      0 + if opts.as_.isSome then 1 else 0)
    (by rw [length_asBounds, length_initialBounds]; exact hnd)
  have h4 := axisStage_nil H c
    (uniformBounds c (if opts.nd then H.ndim else 3) opts.uniform
      (asBounds c (if opts.nd then H.ndim else 3) opts.as_ (initialBounds H)),
      (0 + if opts.as_.isSome then 1 else 0) + if opts.uniform.isSome then 1 else 0)
  rw [← mask_none_of_isSome hm] at h1
  rw [← hx] at h4
  have hc : ((0 + if opts.as_.isSome then 1 else 0) + if opts.uniform.isSome then 1 else 0)
      ≠ 0 := by
    rcases hs with hs | hs <;> rw [hs] <;> simp
  obtain ⟨r, hr, hb, hf, hsz, ho⟩ := run_crop_pad_of_stages H c opts oob _ _ _ _ hH h1 h2 h3 h4
    hc
  exact ⟨r, hr, hb, by rw [hf, hb], by rw [hsz, hb], ho⟩

/-! ## Lemmas on the final bounds of an axis named by `-axis` -/

/-- In a successful crop / pad run, an axis named by a specification ends with the non-empty
pair computed from its last specification. -/
theorem run_bounds_of_lastSpec {α : Type} [Zero α] {lib : ResizeLibrary} {H : Header}
    {op : Operation} {opts : Options α} {r : CropPad α} {a : Nat} {spec : String}
    (hrun : run lib H op opts = .ok (.crop_pad r)) (hs : lastSpec opts.axis a = some spec) :
    ∃ n v, H.size[a]? = some n ∧ axisSpecBounds (decide (op = .crop)) n a spec = .ok v ∧
      v.1 ≤ v.2 ∧ r.bounds[a]? = some v := by
  obtain ⟨_, oob, _, hcp⟩ := run_ok_crop_pad_inv hrun
  obtain ⟨st1, st2, st3, st4, _, _, _, h4, h5⟩ := (run_crop_pad_ok_iff H _ opts oob r).mp hcp
  obtain ⟨_, k, _, rfl⟩ := (finish_ok_iff H _ opts oob st4 r).mp h5
  obtain ⟨_, _, hall⟩ := axisStage_ok H _ _ _ _ h4
  exact (hall a).2 spec hs

/-- The pair assigned by the absolute form whose second token reads "end" in some letter
case. -/
theorem axisSpecBounds_end (c : Bool) (N : Int) (a : Nat) (spec : String) (k : Nat) (lo : Int)
    (hk : find_first_of spec.toList ':' = some k)
    (hlo : stoi (strip (spec.toList.take k)) = .ok lo)
    (hend : lowercase (strip (spec.toList.drop (k + 1))) = "end".toList) :
    axisSpecBounds c N a spec = .ok (lo, N - 1) := by
  simp only [axisSpecBounds, hk, hlo, bind, Except.bind, hend, if_true]
  rfl

/-! ## Frame lemmas: what the loops leave untouched -/

/-- A counted loop of entry rewrites on a long enough vector raises only what the rewriting
function raises. -/
theorem forAxes_updAt_error_lt {β : Type} (P : Error → Prop) (f : Nat → β → Except Error β)
    (xs : List β) : ∀ (n : Nat) (e : Error), n ≤ xs.length →
      (∀ a x e, a < n → f a x = .error e → P e) →
      forAxes n (fun axis b => updAt b axis (f axis)) xs = .error e → P e := by
  intro n
  induction n with
  | zero =>
    intro e _ _ h
    rw [forAxes_zero] at h
    cases h
  | succ n ih =>
    intro e hn hf h
    rw [forAxes_succ] at h
    cases hx : forAxes n (fun axis b => updAt b axis (f axis)) xs with
    | error e1 =>
      rw [hx] at h
      cases h
      exact ih _ (by omega) (fun a x e ha => hf a x e (by omega)) hx
    | ok s1 =>
      rw [hx] at h
      have hl : s1.length = xs.length := forAxes_updAt_length n xs.length _ xs s1 rfl hx
      have hlt : n < s1.length := by omega
      have hget : s1[n]? = some (s1[n]) := List.getElem?_eq_getElem hlt
      cases hfx : f n (s1[n]) with
      | error e2 =>
        have := updAt_eq_error hget hfx
        simp only [Except.bind] at h
        rw [this] at h
        cases h
        exact hf n _ _ (by omega) hfx
      | ok y =>
        have := updAt_eq_ok hget hfx
        simp only [Except.bind] at h
        rw [this] at h
        cases h

theorem maskBounds_error_strict {H : Header} {mask : Mask} {b : Bounds} {e : Error}
    (hb : b.length = H.ndim) (h : maskBounds H mask b = .error e) :
    e = .dimensionMismatch ∨ e = .emptyMask := by
  cases hdim : dimensions_match H.size mask.size 0 3 with
  | false =>
    rw [maskBounds_mismatch H mask b hdim] at h
    cases h
    left; rfl
  | true =>
    obtain ⟨hH, hm, _⟩ := (dimensions_match_iff _ _).mp hdim
    have hb3 : 3 ≤ b.length := by rw [hb]; exact hH
    simp only [maskBounds, check_dimensions, hdim, if_true, bind, Except.bind, seed_eq H b hb3 hH,
      scanned_eq H mask b hb3 hm, addMargin] at h
    right
    refine forAxes_updAt_error_lt (fun e => e = .emptyMask) (marginStep mask) _ 3 e
      (by rw [length_mapFirst]; exact hb3) ?_ h
    intro a x e1 ha hf
    unfold marginStep at hf
    by_cases hx : x.1 > x.2
    · rw [if_pos hx] at hf
      cases hf
      rfl
    · rw [if_neg hx] at hf
      have hn : mask.size[a]? = some (mask.size[a]) := List.getElem?_eq_getElem (by omega)
      simp [getAt_eq_ok hn, bind, Except.bind, pure, Except.pure] at hf

theorem maskStage_error_strict {H : Header} {c : Bool} {mask : Option Mask}
    {st : Bounds × Nat} {e : Error} (hb : st.1.length = H.ndim)
    (h : maskStage H c mask st = .error e) :
    e = .padWithMask ∨ e = .dimensionMismatch ∨ e = .emptyMask := by
  unfold maskStage at h
  cases mask with
  | none => cases h
  | some m =>
    cases c with
    | false =>
      cases h
      left; rfl
    | true =>
      simp only [Bool.not_true, Bool.false_eq_true, if_false] at h
      right
      rcases (bind_eq_error_iff _ _ _).mp h with h1 | ⟨_, _, h2⟩
      · exact maskBounds_error_strict hb h1
      · cases h2

theorem asStage_error_strict {c : Bool} {nd : Nat} {as_ : Option Header} {st : Bounds × Nat}
    {e : Error} (hnd : nd ≤ st.1.length) (h : asStage c nd as_ st = .error e) :
    e = .maskAndAs ∧ as_.isSome = true ∧ st.2 ≠ 0 := by
  cases as_ with
  | none => cases h
  | some t =>
    by_cases h0 : st.2 = 0
    · rw [asStage_eq c nd (some t) st hnd h0] at h
      cases h
    · simp only [asStage, ne_eq, h0, not_false_eq_true, if_true] at h
      cases h
      exact ⟨rfl, rfl, h0⟩

theorem axisSpecBounds_error_strict {c : Bool} {n : Int} {a : Nat} {spec : String} {e : Error}
    (h : axisSpecBounds c n a spec = .error e) :
    e = .badDeltaSpec a spec ∨ e = .stoiInvalidArgument ∨ e = .stoiOutOfRange := by
  unfold axisSpecBounds at h
  simp only [] at h
  split at h
  · split at h
    · cases h
    · cases h; left; rfl
  · right
    rcases (bind_eq_error_iff _ _ _).mp h with h1 | ⟨lo, _, h2⟩
    · exact stoi_error h1
    · split at h2
      · cases h2
      · rcases (bind_eq_error_iff _ _ _).mp h2 with h3 | ⟨hi, _, h4⟩
        · exact stoi_error h3
        · cases h4

/-- The errors one `-axis` specification can raise on its own. -/
theorem axisPair_error {H : Header} {c : Bool} {p : Nat × String} {e : Error}
    (h : axisPair H c p = .error e) :
    e = .axisTooLarge p.1 H.ndim ∨ e = .badDeltaSpec p.1 p.2 ∨ e = .stoiInvalidArgument ∨
      e = .stoiOutOfRange ∨ ∃ lo hi, e = .axisEmpty p.1 lo hi := by
  unfold axisPair at h
  by_cases ha : p.1 ≥ H.ndim
  · rw [if_pos ha] at h
    cases h
    left; rfl
  · rw [if_neg ha] at h
    have hlt : p.1 < H.size.length := by simp only [Header.ndim] at ha; omega
    have hn : H.size[p.1]? = some (H.size[p.1]) := List.getElem?_eq_getElem hlt
    simp only [getAt_eq_ok hn, bind, Except.bind] at h
    cases hv : axisSpecBounds c (H.size[p.1]) p.1 p.2 with
    | error e1 =>
      rw [hv] at h
      cases h
      rcases axisSpecBounds_error_strict hv with h1 | h1 | h1
      · right; left; exact h1
      · right; right; left; exact h1
      · right; right; right; left; exact h1
    | ok v =>
      rw [hv] at h
      simp only [] at h
      by_cases hlt : v.2 < v.1
      · rw [if_pos hlt] at h
        cases h
        right; right; right; right
        exact ⟨_, _, rfl⟩
      · rw [if_neg hlt] at h
        cases h

/-- On a bounds vector with one entry per axis, an iteration of the `-axis` loop is the
outcome of its specification followed by the overwriting of one entry. -/
theorem applyAxis_eq (H : Header) (c : Bool) (st : Bounds × Nat) (p : Nat × String)
    (hb : st.1.length = H.ndim) :
    applyAxis H c st p = (axisPair H c p).map (fun v => (st.1.set p.1 v, st.2 + 1)) := by
  unfold applyAxis axisPair
  simp only []
  by_cases ha : p.1 ≥ H.ndim
  · simp only [ha, if_true, Except.map]
  · simp only [ha, if_false]
    have hlt : p.1 < H.size.length := by simp only [Header.ndim] at ha; omega
    have hn : H.size[p.1]? = some (H.size[p.1]) := List.getElem?_eq_getElem hlt
    simp only [getAt_eq_ok hn, bind, Except.bind]
    cases hv : axisSpecBounds c (H.size[p.1]) p.1 p.2 with
    | error e1 => rfl
    | ok v =>
      simp only []
      have hl : p.1 < st.1.length := by simp only [Header.ndim] at hb; omega
      rw [setAt_eq_ok v hl]
      simp only []
      by_cases hlt : v.2 < v.1
      · simp only [hlt, if_true, Except.map]
      · simp only [hlt, if_false, Except.map, pure, Except.pure]

/-! ## The `-axis` loop as a list of independent outcomes -/

theorem length_setAll (ws : List (Nat × (Int × Int))) : ∀ b : Bounds,
    (setAll b ws).length = b.length := by
  induction ws with
  | nil => intro b; rfl
  | cons w ws ih =>
    intro b
    simp only [setAll, List.foldl_cons] at ih ⊢
    rw [ih, List.length_set]

/-- On a bounds vector with one entry per axis, the `-axis` loop raises the first error among
the outcomes of its specifications, or performs their assignments in order and counts them. -/
theorem axisStage_eq (H : Header) (c : Bool) : ∀ (specs : List (Nat × String))
    (st : Bounds × Nat), st.1.length = H.ndim →
    axisStage H c specs st =
      (axisPairs H c specs).map (fun ws => (setAll st.1 ws, st.2 + specs.length)) := by
  intro specs
  induction specs with
  | nil =>
    intro st _
    rfl
  | cons p rest ih =>
    intro st hb
    unfold axisStage
    rw [List.foldlM_cons, applyAxis_eq H c st p hb]
    cases hp : axisPair H c p with
    | error e =>
      simp only [axisPairs, hp, Except.map, bind, Except.bind]
    | ok v =>
      have ih1 := ih (st.1.set p.1 v, st.2 + 1) (by rw [List.length_set]; exact hb)
      unfold axisStage at ih1
      simp only [Except.map, bind, Except.bind, ih1, axisPairs, hp]
      cases axisPairs H c rest with
      | error e => rfl
      | ok ws =>
        simp only [Except.map, setAll, List.foldl_cons, List.length_cons]
        congr 2
        omega

theorem axisPairs_error {H : Header} {c : Bool} : ∀ {specs : List (Nat × String)} {e : Error},
    axisPairs H c specs = .error e → ∃ p ∈ specs, axisPair H c p = .error e := by
  intro specs
  induction specs with
  | nil =>
    intro e h
    cases h
  | cons p rest ih =>
    intro e h
    simp only [axisPairs] at h
    cases hp : axisPair H c p with
    | error e1 =>
      rw [hp] at h
      cases h
      exact ⟨p, List.mem_cons_self _ _, hp⟩
    | ok v =>
      rw [hp] at h
      simp only [] at h
      cases hr : axisPairs H c rest with
      | error e2 =>
        rw [hr] at h
        cases h
        obtain ⟨q, hq, hqe⟩ := ih hr
        exact ⟨q, List.mem_cons_of_mem _ hq, hqe⟩
      | ok ws =>
        rw [hr] at h
        cases h

theorem axisPairs_ok {H : Header} {c : Bool} : ∀ {specs : List (Nat × String)}
    {ws : List (Nat × (Int × Int))}, axisPairs H c specs = .ok ws →
    ∀ p ∈ specs, ∃ v, axisPair H c p = .ok v := by
  intro specs
  induction specs with
  | nil =>
    intro ws _ p hp
    cases hp
  | cons q rest ih =>
    intro ws h p hp
    simp only [axisPairs] at h
    cases hq : axisPair H c q with
    | error e1 =>
      rw [hq] at h
      cases h
    | ok v =>
      rw [hq] at h
      simp only [] at h
      cases hr : axisPairs H c rest with
      | error e2 =>
        rw [hr] at h
        cases h
      | ok ws1 =>
        rcases List.mem_cons.mp hp with rfl | hp
        · exact ⟨v, hq⟩
        · exact ih hr p hp

/-- On an image with at least 3 axes the crop / pad branch never fails on an out-of-range
index. -/
theorem run_crop_pad_in_range {α : Type} (H : Header) (c : Bool) (opts : Options α)
    (oob : Scalar α) (hH : 3 ≤ H.ndim) :
    run_crop_pad H c opts oob ≠ .error .indexOutOfRange := by
  intro h
  have hnd := nd_le_ndim H opts hH
  rcases (run_crop_pad_error_iff H c opts oob _).mp h with
    h | ⟨st1, h1, h | ⟨st2, h2, h | ⟨st3, h3, h | ⟨st4, h4, h⟩⟩⟩⟩
  · rcases maskStage_error_strict (length_initialBounds H) h with h | h | h <;> cases h
  · have l1 : st1.1.length = H.ndim := by
      rw [(maskStage_ok h1).1]; exact length_initialBounds H
    have := (asStage_error_strict (by rw [l1]; exact hnd) h).1
    cases this
  · have l2 : st2.1.length = H.ndim := by
      rw [(asStage_ok h2).1, (maskStage_ok h1).1]; exact length_initialBounds H
    rw [uniformStage_eq c _ opts.uniform st2 (by rw [l2]; exact hnd)] at h
    cases h
  · have l3 : st3.1.length = H.ndim := by
      rw [(uniformStage_ok h3).1, (asStage_ok h2).1, (maskStage_ok h1).1]
      exact length_initialBounds H
    rw [axisStage_eq H c opts.axis st3 l3] at h
    cases hp : axisPairs H c opts.axis with
    | ok ws => rw [hp] at h; cases h
    | error e =>
      rw [hp] at h
      simp only [Except.map] at h
      cases h
      obtain ⟨p, _, hpe⟩ := axisPairs_error hp
      rcases axisPair_error hpe with h | h | h | h | ⟨_, _, h⟩ <;> cases h
  · have l4 := (stage_counts h1 h2 h3 h4).1
    rcases finish_error h with ⟨h, _⟩ | _
    · cases h
    · obtain ⟨k, hk⟩ := countChanged_total H st4.1 (st4.1.map (fun b => b.2 - b.1 + 1))
        (if opts.nd then H.ndim else 3) (by rw [l4]; exact hnd) hnd
        (by rw [List.length_map, l4]; exact hnd)
      unfold finish at h
      by_cases h0 : st4.2 = 0
      · rw [if_pos h0] at h
        cases h
      · rw [if_neg h0] at h
        simp only [hk, bind, Except.bind] at h
        cases h

theorem asStage_after_count (c : Bool) (nd : Nat) (t : Header) (st : Bounds × Nat)
    (h : st.2 ≠ 0) : asStage c nd (some t) st = .error .maskAndAs := by
  simp only [asStage, h, ne_eq, not_false_eq_true, if_true]

theorem run_regrid_in_range {α : Type} (lib : ResizeLibrary) (H : Header) (opts : Options α)
    (oob : Scalar α) : run_regrid lib H opts oob ≠ .error .indexOutOfRange := by
  intro h
  rcases run_regrid_cases lib H opts oob with h1 | ⟨m, h1⟩ | ⟨_, _, h1⟩ | ⟨_, h1⟩ | ⟨_, p, h1⟩ <;>
    (rw [h1] at h; cases h)

/-! ## Overwritten `-axis` specifications -/

theorem axisPairs_cons_ok (H : Header) (c : Bool) (p : Nat × String) (rest : List (Nat × String))
    (v : Int × Int) (hp : axisPair H c p = .ok v) :
    axisPairs H c (p :: rest) = (axisPairs H c rest).map (fun ws => (p.1, v) :: ws) := by
  simp only [axisPairs, hp]
  cases axisPairs H c rest <;> rfl

theorem axisPairs_append (H : Header) (c : Bool) : ∀ (l1 l2 : List (Nat × String)),
    axisPairs H c (l1 ++ l2) =
      (axisPairs H c l1).bind (fun w1 => (axisPairs H c l2).map (fun w2 => w1 ++ w2)) := by
  intro l1
  induction l1 with
  | nil =>
    intro l2
    simp only [List.nil_append, axisPairs, Except.bind]
    cases axisPairs H c l2 <;> rfl
  | cons p rest ih =>
    intro l2
    rw [List.cons_append]
    cases hp : axisPair H c p with
    | error e =>
      simp only [axisPairs, hp]
      rfl
    | ok v =>
      rw [axisPairs_cons_ok H c p _ v hp, axisPairs_cons_ok H c p _ v hp, ih l2]
      cases axisPairs H c rest with
      | error e => rfl
      | ok w1 =>
        simp only [Except.bind, Except.map]
        cases axisPairs H c l2 <;> rfl

/-- The outcomes of a list containing the specification `p` split around the pair of `p`. -/
theorem axisPairs_split {H : Header} {c : Bool} {l1 l2 : List (Nat × String)}
    {p : Nat × String} {wr : List (Nat × (Int × Int))}
    (h : axisPairs H c (l1 ++ p :: l2) = .ok wr) :
    ∃ w1 v w2, wr = w1 ++ (p.1, v) :: w2 := by
  rw [axisPairs_append] at h
  cases h1 : axisPairs H c l1 with
  | error e => rw [h1] at h; cases h
  | ok w1 =>
    rw [h1] at h
    simp only [Except.bind, axisPairs] at h
    cases hp : axisPair H c p with
    | error e => rw [hp] at h; cases h
    | ok v =>
      rw [hp] at h
      simp only [] at h
      cases h2 : axisPairs H c l2 with
      | error e => rw [h2] at h; cases h
      | ok w2 =>
        rw [h2] at h
        cases h
        exact ⟨w1, v, w2, rfl⟩

theorem setAll_append (b : Bounds) (w1 w2 : List (Nat × (Int × Int))) :
    setAll b (w1 ++ w2) = setAll (setAll b w1) w2 := by
  simp only [setAll, List.foldl_append]

/-- An assignment to axis `a` that is followed by another assignment to axis `a` leaves no
trace. -/
theorem setAll_overwritten (a : Nat) (v1 v2 : Int × Int) :
    ∀ (wm : List (Nat × (Int × Int))) (b : Bounds),
      setAll (b.set a v1) (wm ++ [(a, v2)]) = setAll b (wm ++ [(a, v2)]) := by
  intro wm
  induction wm with
  | nil =>
    intro b
    simp only [List.nil_append, setAll, List.foldl_cons, List.foldl_nil]
    exact List.set_set v1 v2 b a
  | cons w wm ih =>
    intro b
    simp only [List.cons_append, setAll, List.foldl_cons] at ih ⊢
    by_cases hw : w.1 = a
    · rw [hw, List.set_set]
    · have : (b.set a v1).set w.1 w.2 = (b.set w.1 w.2).set a v1 :=
        List.set_comm v1 w.2 b (fun h => hw h.symm)
      rw [this]
      exact ih (b.set w.1 w.2)

/-- Removing from the `-axis` list a valid specification that a later one for the same axis
overwrites changes nothing but the option count, which is one less. -/
theorem axisStage_drop_overwritten (H : Header) (c : Bool) (before mid after : List (Nat × String))
    (a : Nat) (s1 s2 : String) (v1 : Int × Int) (st : Bounds × Nat)
    (hb : st.1.length = H.ndim) (h1 : axisPair H c (a, s1) = .ok v1) :
    axisStage H c (before ++ (a, s1) :: (mid ++ (a, s2) :: after)) st =
      (axisStage H c (before ++ (mid ++ (a, s2) :: after)) st).map
        (fun s => (s.1, s.2 + 1)) := by
  rw [axisStage_eq H c _ st hb, axisStage_eq H c _ st hb, axisPairs_append, axisPairs_append,
    axisPairs_cons_ok H c (a, s1) _ v1 h1]
  cases hbef : axisPairs H c before with
  | error e => rfl
  | ok wb =>
    simp only [Except.bind]
    cases hr : axisPairs H c (mid ++ (a, s2) :: after) with
    | error e => rfl
    | ok wr =>
      obtain ⟨wm, v2, wa, rfl⟩ := axisPairs_split hr
      simp only [Except.map, List.length_append, List.length_cons]
      congr 2
      · rw [setAll_append, setAll_append]
        have e1 : setAll (setAll st.1 wb) ((a, v1) :: (wm ++ (a, v2) :: wa)) =
            setAll (setAll ((setAll st.1 wb).set a v1) (wm ++ [(a, v2)])) wa := by
          rw [← setAll_append]
          simp [setAll]
        have e2 : setAll (setAll st.1 wb) (wm ++ (a, v2) :: wa) =
            setAll (setAll (setAll st.1 wb) (wm ++ [(a, v2)])) wa := by
          rw [← setAll_append]
          simp [setAll]
        rw [e1, e2, setAll_overwritten]

theorem finish_congr {α : Type} (H : Header) (nd : Nat) (o1 o2 : Options α) (oob : Scalar α)
    (b : Bounds) (n1 n2 : Nat) (hd : o1.datatype = o2.datatype) (h1 : n1 ≠ 0) (h2 : n2 ≠ 0) :
    finish H nd o1 oob (b, n1) = finish H nd o2 oob (b, n2) := by
  simp only [finish, h1, h2, if_false, DataType.from_command_line, hd]

/-- Two crop / pad invocations that differ only in that the second lacks a valid `-axis`
specification which a later one for the same axis overwrites have the same outcome. -/
theorem run_crop_pad_drop_overwritten {α : Type} (H : Header) (c : Bool) (o1 o2 : Options α)
    (oob : Scalar α) (before mid after : List (Nat × String)) (a : Nat) (s1 s2 : String)
    (v1 : Int × Int) (hv : axisPair H c (a, s1) = .ok v1)
    (hmask : o1.mask = o2.mask) (has : o1.as_ = o2.as_) (hu : o1.uniform = o2.uniform)
    (hnd : o1.nd = o2.nd) (hd : o1.datatype = o2.datatype)
    (hx1 : o1.axis = before ++ (a, s1) :: (mid ++ (a, s2) :: after))
    (hx2 : o2.axis = before ++ (mid ++ (a, s2) :: after)) :
    run_crop_pad H c o1 oob = run_crop_pad H c o2 oob := by
  unfold run_crop_pad
  simp only [hmask, has, hu, hnd, hx1, hx2]
  cases h1 : maskStage H c o2.mask (initialBounds H, 0) with
  | error e => rfl
  | ok st1 =>
    simp only [bind, Except.bind]
    cases h2 : asStage c (if o2.nd then H.ndim else 3) o2.as_ st1 with
    | error e => rfl
    | ok st2 =>
      simp only []
      cases h3 : uniformStage c (if o2.nd then H.ndim else 3) o2.uniform st2 with
      | error e => rfl
      | ok st3 =>
        simp only []
        have l3 : st3.1.length = H.ndim := by
          rw [(uniformStage_ok h3).1, (asStage_ok h2).1, (maskStage_ok h1).1]
          exact length_initialBounds H
        rw [axisStage_drop_overwritten H c before mid after a s1 s2 v1 st3 l3 hv]
        cases h4 : axisStage H c (before ++ (mid ++ (a, s2) :: after)) st3 with
        | error e => rfl
        | ok st4 =>
          simp only [Except.map]
          have hc : st4.2 ≠ 0 := by
            rw [(axisStage_ok H c _ _ _ h4).2.1]
            simp only [List.length_append, List.length_cons]
            omega
          exact finish_congr H _ o1 o2 oob st4.1 (st4.2 + 1) st4.2 hd (by omega) hc

/-- A successful crop / pad branch has found every `-axis` specification valid on its own. -/
theorem run_crop_pad_ok_axisPair {α : Type} {H : Header} {c : Bool} {opts : Options α}
    {oob : Scalar α} {r : CropPad α} (h : run_crop_pad H c opts oob = .ok r) :
    ∀ p ∈ opts.axis, ∃ v, axisPair H c p = .ok v := by
  obtain ⟨st1, st2, st3, st4, h1, h2, h3, h4, _⟩ := (run_crop_pad_ok_iff H c opts oob r).mp h
  have l3 : st3.1.length = H.ndim := by
    rw [(uniformStage_ok h3).1, (asStage_ok h2).1, (maskStage_ok h1).1]
    exact length_initialBounds H
  rw [axisStage_eq H c opts.axis st3 l3] at h4
  cases hp : axisPairs H c opts.axis with
  | error e => rw [hp] at h4; cases h4
  | ok ws => exact axisPairs_ok hp

/-! ## The empty check of the mask block on any of the three axes -/

/-- With matching dimensions, a box that is non-empty on the axes before `k` and empty on
axis `k < 3` makes the mask block raise the empty-mask exception. -/
theorem maskBounds_empty_at (H : Header) (mask : Mask) (b : Bounds) (hb : 3 ≤ b.length)
    (hdim : dimensions_match H.size mask.size 0 3 = true) (k : Nat) (hk : k < 3)
    (hpre : ∀ a, a < k → (mergedEntry H mask a).1 ≤ (mergedEntry H mask a).2)
    (h0 : (mergedEntry H mask k).1 > (mergedEntry H mask k).2) :
    maskBounds H mask b = .error .emptyMask := by
  obtain ⟨hH, hm, _⟩ := (dimensions_match_iff _ _).mp hdim
  simp only [maskBounds, check_dimensions, hdim, if_true, bind, Except.bind, seed_eq H b hb hH,
    scanned_eq H mask b hb hm, addMargin]
  have hlen : 3 ≤ (mapFirst 3 (fun a _ => mergedEntry H mask a) b).length := by
    rw [length_mapFirst]; exact hb
  have hent : ∀ a x, a < 3 → (mapFirst 3 (fun a _ => mergedEntry H mask a) b)[a]? = some x →
      x = mergedEntry H mask a := by
    intro a x ha hx
    rw [getElem?_mapFirst] at hx
    have hba : b[a]? = some (b[a]) := List.getElem?_eq_getElem (by omega)
    rw [hba] at hx
    simp only [Option.map_some', ha, if_true, Option.some.injEq] at hx
    exact hx.symm
  apply forAxes_pointwise_error _ (marginEntry mask) _ _ 3 k hk hlen
  · intro a b' x ha _ hb' hx
    have hxe := hent a x (by omega) hx
    exact margin_body_ok mask hm a (by omega) b' x hb' (by rw [hxe]; exact hpre a ha)
  · intro b' x _ hb' hx
    have hxe := hent k x hk hx
    exact margin_body_empty mask k b' x hb' (by rw [hxe]; exact h0)

/-- With matching dimensions, a box that is empty on one of the three axes makes the mask
block raise the empty-mask exception. -/
theorem maskBounds_empty_of_exists (H : Header) (mask : Mask) (b : Bounds) (hb : 3 ≤ b.length)
    (hdim : dimensions_match H.size mask.size 0 3 = true)
    (h : ∃ a, a < 3 ∧ (mergedEntry H mask a).1 > (mergedEntry H mask a).2) :
    maskBounds H mask b = .error .emptyMask := by
  by_cases h0 : (mergedEntry H mask 0).1 > (mergedEntry H mask 0).2
  · exact maskBounds_empty_at H mask b hb hdim 0 (by omega) (fun a ha => by omega) h0
  · by_cases h1 : (mergedEntry H mask 1).1 > (mergedEntry H mask 1).2
    · refine maskBounds_empty_at H mask b hb hdim 1 (by omega) (fun a ha => ?_) h1
      have : a = 0 := by omega
      subst this
      omega
    · obtain ⟨a, ha, hgt⟩ := h
      have h2 : (mergedEntry H mask 2).1 > (mergedEntry H mask 2).2 := by
        have : a = 0 ∨ a = 1 ∨ a = 2 := by omega
        rcases this with rfl | rfl | rfl
        · exact absurd hgt h0
        · exact absurd hgt h1
        · exact hgt
      refine maskBounds_empty_at H mask b hb hdim 2 (by omega) (fun a ha => ?_) h2
      have : a = 0 ∨ a = 1 := by omega
      rcases this with rfl | rfl <;> omega

/-- The box found by the scan is not empty on an axis whose extent is not positive. -/
theorem mergedEntry_nonpositive (H : Header) (mask : Mask) (a : Nat) (n : Int)
    (hn : H.size[a]? = some n) (h0 : n ≤ 0) :
    (mergedEntry H mask a).1 ≤ (mergedEntry H mask a).2 := by
  have hd : H.size.getD a 0 = n := by simp [List.getD, hn]
  simp only [mergedEntry, hd]
  exact le_trans (min_le_right _ _) (le_trans h0 (le_max_right _ _))

/-- An exception of the out-of-bounds value is the exception of `run`. -/
theorem run_oob_error {α : Type} [Zero α] (lib : ResizeLibrary) (H : Header) (op : Operation)
    (opts : Options α) (e : Error) (h : out_of_bounds_value opts = .error e) :
    run lib H op opts = .error e := by
  simp [run, h, bind, Except.bind]

/-- A crop with a mask and a reference image, once the mask block has succeeded, raises the
"either a mask or a template image" exception. -/
theorem run_crop_mask_as {α : Type} [Zero α] (lib : ResizeLibrary) (H : Header)
    (op : Operation) (opts : Options α) (mask : Mask) (t : Header) (oob : Scalar α)
    (hop : op ≠ .regrid) (hoob : out_of_bounds_value opts = .ok oob)
    (hmask : opts.mask = some mask) (has : opts.as_ = some t) (st1 : Bounds × Nat)
    (h1 : maskStage H (decide (op = .crop)) opts.mask (initialBounds H, 0) = .ok st1) :
    run lib H op opts = .error .maskAndAs := by
  rw [run_eq_error_crop_pad lib H op opts oob _ hop hoob, run_crop_pad_error_iff]
  right
  refine ⟨st1, h1, Or.inl ?_⟩
  rw [has]
  apply asStage_after_count
  rw [(maskStage_ok h1).2, hmask]
  simp

/-! ## The `-uniform` option in the arithmetic of `ssize_t` -/

/-- Storing an integer in a `ssize_t` keeps it exactly when it is representable. -/
theorem asInt64_eq_self_iff (x : Int) : asInt64 x = x ↔ inRange64 x := by
  unfold asInt64 inRange64
  omega

theorem asInt64_add_asInt64 (a b : Int) : asInt64 (a + asInt64 b) = asInt64 (a + b) := by
  unfold asInt64
  omega

/-- The `-uniform` loop in the arithmetic of `ssize_t` succeeds and writes `uniformEntry64`
on every considered axis. -/
theorem applyUniform64_eq (do_crop : Bool) (nd : Nat) (val : Int) (b : Bounds)
    (h : nd ≤ b.length) :
    applyUniform64 do_crop nd val b =
      .ok (mapFirst nd (fun _ => uniformEntry64 do_crop val) b) := by
  unfold applyUniform64
  apply forAxes_pointwise _ _ _ _ h
  intro a b' x _ _ hb _
  apply updAt_eq_ok hb
  cases do_crop <;>
    simp only [uniformEntry64, if_true, Bool.false_eq_true, if_false, asInt64_add_asInt64] <;> rfl

/-- The two versions of the `-uniform` loop agree when no result leaves the range of
`ssize_t`. -/
theorem applyUniform64_eq_applyUniform (do_crop : Bool) (nd : Nat) (val : Int) (b : Bounds)
    (h : nd ≤ b.length)
    (hr : ∀ (a : Nat) (cur : Int × Int), a < nd → b[a]? = some cur →
      inRange64 (uniformEntry do_crop val cur).1 ∧ inRange64 (uniformEntry do_crop val cur).2) :
    applyUniform64 do_crop nd val b = applyUniform do_crop nd val b := by
  rw [applyUniform64_eq do_crop nd val b h, applyUniform_eq do_crop nd val b h]
  congr 1
  apply List.ext_getElem?
  intro a
  rw [getElem?_mapFirst, getElem?_mapFirst]
  cases hb : b[a]? with
  | none => rfl
  | some cur =>
    by_cases ha : a < nd
    · obtain ⟨h1, h2⟩ := hr a cur ha hb
      simp only [Option.map_some', ha, if_true, Option.some.injEq]
      simp only [uniformEntry] at h1 h2
      simp only [uniformEntry64, uniformEntry]
      rw [(asInt64_eq_self_iff _).mpr h1, (asInt64_eq_self_iff _).mpr h2]
    · simp only [Option.map_some', ha, if_false]

theorem digitChar_spec : ∀ d : Nat, d < 10 →
    isdigit (Nat.digitChar d) = true ∧ (Nat.digitChar d).toNat - 48 = d := by
  decide

theorem digitsValue_append_singleton (L : List Char) (c : Char) :
    digitsValue (L ++ [c]) = 10 * digitsValue L + (c.toNat - 48) := by
  simp [digitsValue, List.foldl_append]

/-- The digits that `Nat.toDigitsCore` puts in front of its accumulator: a non-empty run of
decimal digits whose value is the number. -/
theorem toDigitsCore_spec : ∀ (fuel n : Nat) (ds : List Char), n < fuel →
    ∃ L : List Char, Nat.toDigitsCore 10 fuel n ds = L ++ ds ∧ L ≠ [] ∧
      (∀ c ∈ L, isdigit c = true) ∧ digitsValue L = n := by
  intro fuel
  induction fuel with
  | zero => intro n ds h; omega
  | succ f ih =>
    intro n ds hn
    have hd := digitChar_spec (n % 10) (Nat.mod_lt _ (by decide))
    by_cases h0 : n / 10 = 0
    · refine ⟨[Nat.digitChar (n % 10)], ?_, by simp, ?_, ?_⟩
      · simp [Nat.toDigitsCore, h0]
      · intro c hc
        simp only [List.mem_singleton] at hc
        rw [hc]
        exact hd.1
      · have := digitsValue_append_singleton [] (Nat.digitChar (n % 10))
        simp only [List.nil_append] at this
        rw [this, hd.2]
        simp only [digitsValue, List.foldl_nil]
        omega
    · obtain ⟨L, hL, _, hdig, hval⟩ := ih (n / 10) (Nat.digitChar (n % 10) :: ds) (by omega)
      refine ⟨L ++ [Nat.digitChar (n % 10)], ?_, by simp, ?_, ?_⟩
      · simp [Nat.toDigitsCore, h0, hL]
      · intro c hc
        rcases List.mem_append.mp hc with h | h
        · exact hdig c h
        · simp only [List.mem_singleton] at h
          rw [h]
          exact hd.1
      · rw [digitsValue_append_singleton, hval, hd.2]
        omega

/-- The decimal text of an integer: an optional minus sign and a non-empty run of digits
whose value is the magnitude. -/
theorem toString_int_spec (z : Int) :
    ∃ L : List Char, L ≠ [] ∧ (∀ c ∈ L, isdigit c = true) ∧
      ((0 ≤ z ∧ (toString z).toList = L ∧ (digitsValue L : Int) = z) ∨
       (z < 0 ∧ (toString z).toList = '-' :: L ∧ -(digitsValue L : Int) = z)) := by
  cases z with
  | ofNat m =>
    obtain ⟨L, hL, hne, hdig, hval⟩ := toDigitsCore_spec (m + 1) m [] (by omega)
    refine ⟨L, hne, hdig, Or.inl ⟨Int.ofNat_nonneg m, ?_, ?_⟩⟩
    · have : (toString (Int.ofNat m)).toList = Nat.toDigitsCore 10 (m + 1) m [] := rfl
      rw [this, hL, List.append_nil]
    · rw [hval]
      rfl
  | negSucc m =>
    obtain ⟨L, hL, hne, hdig, hval⟩ := toDigitsCore_spec (m + 1 + 1) (m + 1) [] (by omega)
    refine ⟨L, hne, hdig, Or.inr ⟨Int.negSucc_lt_zero m, ?_, ?_⟩⟩
    · have : (toString (Int.negSucc m)).toList =
          '-' :: Nat.toDigitsCore 10 (m + 1 + 1) (m + 1) [] := rfl
      rw [this, hL, List.append_nil]
    · rw [hval, Int.negSucc_eq]
      push_cast
      ring

theorem isdigit_facts {c : Char} (h : isdigit c = true) :
    c ≠ ':' ∧ c ≠ ',' ∧ c ≠ '-' ∧ c ≠ '+' ∧ isspace c = false ∧ isStripSpace c = false ∧
      c.toLower ≠ 'e' := by
  refine ⟨?_, ?_, ?_, ?_, ?_, ?_, ?_⟩
  · rintro rfl; revert h; decide
  · rintro rfl; revert h; decide
  · rintro rfl; revert h; decide
  · rintro rfl; revert h; decide
  · simp only [isdigit, Bool.and_eq_true, decide_eq_true_eq] at h
    simp only [isspace, Bool.or_eq_false_iff, Bool.and_eq_false_iff, decide_eq_false_iff_not]
    omega
  · simp only [isdigit, Bool.and_eq_true, decide_eq_true_eq] at h
    simp only [isStripSpace, Bool.or_eq_false_iff, decide_eq_false_iff_not]
    omega
  · intro he
    rw [(toLower_eq_e he).2.1] at h
    cases h

/-- Every character of the decimal text of an integer is a digit or the minus sign. -/
theorem toString_int_chars (z : Int) :
    (toString z).toList ≠ [] ∧ ∀ c ∈ (toString z).toList, isdigit c = true ∨ c = '-' := by
  obtain ⟨L, hne, hdig, ⟨_, hS, _⟩ | ⟨_, hS, _⟩⟩ := toString_int_spec z
  · rw [hS]
    exact ⟨hne, fun c hc => Or.inl (hdig c hc)⟩
  · rw [hS]
    refine ⟨by simp, fun c hc => ?_⟩
    rcases List.mem_cons.mp hc with h | h
    · exact Or.inr h
    · exact Or.inl (hdig c h)

theorem dropWhile_of_head {p : Char → Bool} {S : List Char}
    (h : ∀ c ∈ S, p c = false) : S.dropWhile p = S := by
  cases S with
  | nil => rfl
  | cons c r => simp [List.dropWhile, h c (List.mem_cons_self _ _)]

theorem strip_of_no_space {S : List Char} (h : ∀ c ∈ S, isStripSpace c = false) :
    strip S = S := by
  unfold strip
  rw [dropWhile_of_head h, dropWhile_of_head (fun c hc => h c (List.mem_reverse.mp hc)),
    List.reverse_reverse]

theorem strip_toString_int (z : Int) : strip (toString z).toList = (toString z).toList := by
  apply strip_of_no_space
  intro c hc
  rcases (toString_int_chars z).2 c hc with h | rfl
  · exact (isdigit_facts h).2.2.2.2.2.1
  · decide

theorem takeWhile_of_all {p : Char → Bool} {L : List Char} (h : ∀ c ∈ L, p c = true) :
    L.takeWhile p = L := by
  induction L with
  | nil => rfl
  | cons c r ih =>
    rw [List.takeWhile_cons, h c (List.mem_cons_self _ _)]
    simp only [if_true]
    rw [ih (fun x hx => h x (List.mem_cons_of_mem _ hx))]

/-- The function `std::stoi` reads the decimal text of an integer of the range of `int` as
that integer and rejects the text of any other integer as out of range. -/
theorem stoi_toString (z : Int) :
    stoi (toString z).toList =
      if z < -2147483648 ∨ 2147483647 < z then .error .stoiOutOfRange else .ok z := by
  obtain ⟨L, hne, hdig, ⟨_, hS, hv⟩ | ⟨_, hS, hv⟩⟩ := toString_int_spec z
  · rw [hS]
    cases L with
    | nil => exact absurd rfl hne
    | cons c r =>
      have hc := isdigit_facts (hdig c (List.mem_cons_self _ _))
      have htw := takeWhile_of_all hdig
      simp only [stoi, List.dropWhile, hc.2.2.2.2.1, takeSign, hc.2.2.1, hc.2.2.2.1, if_false,
        htw, Bool.false_eq_true, hv]
      simp
  · rw [hS]
    have hm : isspace '-' = false := by decide
    have htw := takeWhile_of_all hdig
    simp only [stoi, List.dropWhile, hm, takeSign, if_true, htw, hne, if_false, hv]

/-- The list parser reads the decimal text of an integer of the range of `int` as that
integer. -/
theorem parseIntToken_toString (z : Int) (h1 : -2147483648 ≤ z) (h2 : z ≤ 2147483647) :
    parseIntToken (toString z).toList = some z := by
  have hr : ¬ (z < -2147483648 ∨ 2147483647 < z) := by omega
  unfold parseIntToken
  rw [strip_toString_int]
  obtain ⟨L, hne, hdig, ⟨_, hS, hv⟩ | ⟨_, hS, hv⟩⟩ := toString_int_spec z
  · rw [hS]
    cases L with
    | nil => exact absurd rfl hne
    | cons c r =>
      have hc := isdigit_facts (hdig c (List.mem_cons_self _ _))
      have hall : (c :: r).all isdigit = true := List.all_eq_true.mpr hdig
      simp only [takeSign, hc.2.2.1, hc.2.2.2.1, if_false, hall, Bool.false_eq_true, hv, hr]
      simp
  · rw [hS]
    have hall : L.all isdigit = true := List.all_eq_true.mpr hdig
    simp only [takeSign, if_true, hall, hne, hv, hr]
    simp

theorem lowercase_toString_ne_end (z : Int) :
    lowercase (toString z).toList ≠ "end".toList := by
  intro h
  obtain ⟨hne, hch⟩ := toString_int_chars z
  cases hS : (toString z).toList with
  | nil => exact hne hS
  | cons c r =>
    rw [hS] at h hch
    have hc : c.toLower = 'e' := by
      simp only [lowercase, List.map_cons] at h
      exact (List.cons.inj h).1
    rcases hch c (List.mem_cons_self _ _) with hd | rfl
    · exact (isdigit_facts hd).2.2.2.2.2.2 hc
    · revert hc
      decide

theorem find_first_of_none {S : List Char} {c : Char} (h : ∀ x ∈ S, x ≠ c) :
    find_first_of S c = none := by
  induction S with
  | nil => rfl
  | cons x r ih =>
    simp only [find_first_of, h x (List.mem_cons_self _ _), if_false,
      ih (fun y hy => h y (List.mem_cons_of_mem _ hy)), Option.map_none']

theorem find_first_of_append {S T : List Char} {c : Char} (h : ∀ x ∈ S, x ≠ c) :
    find_first_of (S ++ c :: T) c = some S.length := by
  induction S with
  | nil => simp [find_first_of]
  | cons x r ih =>
    have ih1 := ih (fun y hy => h y (List.mem_cons_of_mem _ hy))
    rw [List.cons_append, find_first_of, if_neg (h x (List.mem_cons_self _ _)), ih1]
    rfl

theorem splitComma_of_no_comma {S : List Char} (h : ∀ x ∈ S, x ≠ ',') :
    splitComma S = [S] := by
  induction S with
  | nil => rfl
  | cons x r ih =>
    simp only [splitComma, h x (List.mem_cons_self _ _), if_false,
      ih (fun y hy => h y (List.mem_cons_of_mem _ hy))]

theorem splitComma_append {S T : List Char} (h : ∀ x ∈ S, x ≠ ',') :
    splitComma (S ++ ',' :: T) = S :: splitComma T := by
  induction S with
  | nil => simp [splitComma]
  | cons x r ih =>
    have ih1 := ih (fun y hy => h y (List.mem_cons_of_mem _ hy))
    rw [List.cons_append, splitComma, if_neg (h x (List.mem_cons_self _ _)), ih1]

theorem toString_int_no_sep (z : Int) :
    (∀ x ∈ (toString z).toList, x ≠ ':') ∧ (∀ x ∈ (toString z).toList, x ≠ ',') := by
  constructor
  · intro x hx
    rcases (toString_int_chars z).2 x hx with h | rfl
    · exact (isdigit_facts h).1
    · decide
  · intro x hx
    rcases (toString_int_chars z).2 x hx with h | rfl
    · exact (isdigit_facts h).2.1
    · decide

theorem toList_deltaSpec (dl du : Int) :
    (deltaSpec dl du).toList = (toString dl).toList ++ ',' :: (toString du).toList := by
  simp [deltaSpec]

theorem toList_rangeSpec (lo hi : Int) :
    (rangeSpec lo hi).toList = (toString lo).toList ++ ':' :: (toString hi).toList := by
  simp [rangeSpec]

/-- The decimal delta specification has no colon and is read as its two integers. -/
theorem parse_deltaSpec (dl du : Int) (h1 : -2147483648 ≤ dl) (h2 : dl ≤ 2147483647)
    (h3 : -2147483648 ≤ du) (h4 : du ≤ 2147483647) :
    find_first_of (deltaSpec dl du).toList ':' = none ∧
    parse_ints (deltaSpec dl du).toList = some [dl, du] := by
  rw [toList_deltaSpec]
  constructor
  · apply find_first_of_none
    intro x hx
    rcases List.mem_append.mp hx with h | h
    · exact (toString_int_no_sep dl).1 x h
    · rcases List.mem_cons.mp h with rfl | h
      · decide
      · exact (toString_int_no_sep du).1 x h
  · unfold parse_ints
    rw [splitComma_append (toString_int_no_sep dl).2,
      splitComma_of_no_comma (toString_int_no_sep du).2, List.mapM_cons, List.mapM_cons,
      List.mapM_nil, parseIntToken_toString dl h1 h2, parseIntToken_toString du h3 h4]
    rfl

/-- The decimal absolute specification splits at its colon into the texts of its two
integers. -/
theorem split_rangeSpec (lo hi : Int) :
    find_first_of (rangeSpec lo hi).toList ':' = some (toString lo).toList.length ∧
    strip ((rangeSpec lo hi).toList.take (toString lo).toList.length) = (toString lo).toList ∧
    strip ((rangeSpec lo hi).toList.drop ((toString lo).toList.length + 1)) =
      (toString hi).toList := by
  rw [toList_rangeSpec]
  refine ⟨find_first_of_append (toString_int_no_sep lo).1, ?_, ?_⟩
  · rw [List.take_left, strip_toString_int]
  · have : (toString lo).toList ++ ':' :: (toString hi).toList =
        ((toString lo).toList ++ [':']) ++ (toString hi).toList := by simp
    rw [this]
    have hl : ((toString lo).toList ++ [':']).length = (toString lo).toList.length + 1 := by
      simp
    rw [← hl, List.drop_left, strip_toString_int]

/-- The crop-mode delta specification `dl,du` in decimal is assigned `(dl, N - 1 - du)`. -/
theorem axisSpecBounds_deltaSpec (N : Int) (a : Nat) (dl du : Int)
    (h1 : -2147483648 ≤ dl) (h2 : dl ≤ 2147483647)
    (h3 : -2147483647 ≤ du) (h4 : du ≤ 2147483647) :
    axisSpecBounds true N a (deltaSpec dl du) = .ok (dl, N - 1 - du) := by
  obtain ⟨hf, hp⟩ := parse_deltaSpec dl du h1 h2 (by omega) h4
  exact axisSpecBounds_delta N a _ dl du hf hp h3 h4

/-- The absolute specification `lo:hi` in decimal is assigned `(lo, hi)` when both integers
are of the range of `int`. -/
theorem axisSpecBounds_rangeSpec (c : Bool) (N : Int) (a : Nat) (lo hi : Int)
    (h1 : -2147483648 ≤ lo) (h2 : lo ≤ 2147483647)
    (h3 : -2147483648 ≤ hi) (h4 : hi ≤ 2147483647) :
    axisSpecBounds c N a (rangeSpec lo hi) = .ok (lo, hi) := by
  obtain ⟨hk, ht, hd⟩ := split_rangeSpec lo hi
  refine axisSpecBounds_range c N a _ _ lo hi hk ?_ ?_
  · rw [ht, stoi_toString, if_neg (by omega)]
  · rw [hd, stoi_toString, if_neg (by omega)]

/-- The absolute specification `lo:hi` in decimal is rejected by `std::stoi` when `hi` is
outside the range of `int`. -/
theorem axisSpecBounds_rangeSpec_out_of_range (c : Bool) (N : Int) (a : Nat) (lo hi : Int)
    (h1 : -2147483648 ≤ lo) (h2 : lo ≤ 2147483647)
    (h3 : hi < -2147483648 ∨ 2147483647 < hi) :
    axisSpecBounds c N a (rangeSpec lo hi) = .error .stoiOutOfRange := by
  obtain ⟨hk, ht, hd⟩ := split_rangeSpec lo hi
  have hlo : stoi (strip ((rangeSpec lo hi).toList.take (toString lo).toList.length)) =
      .ok lo := by
    rw [ht, stoi_toString, if_neg (by omega)]
  have hhi : stoi (strip ((rangeSpec lo hi).toList.drop ((toString lo).toList.length + 1))) =
      .error .stoiOutOfRange := by
    rw [hd, stoi_toString, if_pos h3]
  have hne : lowercase (strip ((rangeSpec lo hi).toList.drop
      ((toString lo).toList.length + 1))) ≠ "end".toList := by
    rw [hd]
    exact lowercase_toString_ne_end hi
  simp only [axisSpecBounds, hk, hlo, bind, Except.bind, hne, if_false, hhi]

/-- Two specifications that are assigned the same pair on an axis have the same outcome in
the loop iteration and in the whole crop run. -/
theorem run_crop_axis_congr {α : Type} [Zero α] (lib : ResizeLibrary) (H : Header)
    (opts : Options α) (a : Nat) (N : Int) (s1 s2 : String) (v : Int × Int)
    (before after : List (Nat × String))
    (e1 : axisSpecBounds true N a s1 = .ok v) (e2 : axisSpecBounds true N a s2 = .ok v)
    (hN : H.size[a]? = some N) :
    (∀ st, applyAxis H true st (a, s1) = applyAxis H true st (a, s2)) ∧
    run lib H .crop { opts with axis := before ++ (a, s1) :: after } =
      run lib H .crop { opts with axis := before ++ (a, s2) :: after } := by
  have key : ∀ st, applyAxis H true st (a, s1) = applyAxis H true st (a, s2) := by
    intro st
    simp only [applyAxis, getAt_eq_ok hN, bind, Except.bind, e1, e2]
  refine ⟨key, ?_⟩
  have hax : ∀ st, axisStage H true (before ++ (a, s1) :: after) st =
      axisStage H true (before ++ (a, s2) :: after) st := by
    intro st
    simp only [axisStage, List.foldlM_append, List.foldlM_cons, key]
  have hrc : ∀ oob, run_crop_pad H true { opts with axis := before ++ (a, s1) :: after } oob =
      run_crop_pad H true { opts with axis := before ++ (a, s2) :: after } oob := by
    intro oob
    simp only [run_crop_pad, hax, finish, DataType.from_command_line]
  have hdec : decide (Operation.crop = Operation.crop) = true := by decide
  have hne : ¬ (Operation.crop = Operation.regrid) := by decide
  simp only [run, out_of_bounds_value, hne, if_false, decide_True, hrc]

/-- C4: in a regrid invocation, supplying two or more of scale, voxel, size (with or without a
template) fails with a configuration error, and so does supplying none of them and no
template; when nothing earlier raises, the errors are exactly the "only a single method" and
the "please use either" exceptions.  With exactly one of them, or with only a template, the
run fails with neither of these two exceptions. -/
theorem C4_regrid_resize_sources_exclusive {α : Type} [Zero α] (lib : ResizeLibrary)
    (H : Header) (opts : Options α) :
    (2 ≤ suppliedResize opts →
      (∃ e, run lib H .regrid opts = .error e ∧ e.isConfigurationError = true) ∧
      (reachesCountChecks lib opts → run lib H .regrid opts = .error .multipleResize)) ∧
    (suppliedResize opts = 0 → opts.template = none →
      (∃ e, run lib H .regrid opts = .error e ∧ e.isConfigurationError = true) ∧
      (reachesCountChecks lib opts → run lib H .regrid opts = .error .noRegridOption)) ∧
    ((suppliedResize opts = 1 ∨ (suppliedResize opts = 0 ∧ opts.template.isSome)) →
      run lib H .regrid opts ≠ .error .multipleResize ∧
      run lib H .regrid opts ≠ .error .noRegridOption ∧
      (reachesCountChecks lib opts → ∃ plan, run lib H .regrid opts = .ok (.regrid plan))) := by
  rcases out_of_bounds_value_cases opts with hb | ⟨oob, hb⟩
  · have hrun : run lib H .regrid opts = .error .fillAndNan := by
      simp [run, hb, bind, Except.bind]
    have hnot : ¬ reachesCountChecks lib opts := by
      intro hr
      rcases out_of_bounds_value_ok opts hr.1 with ⟨v, hv⟩
      rw [hb] at hv
      cases hv
    rw [hrun]
    exact ⟨fun _ => ⟨⟨_, rfl, rfl⟩, fun hr => absurd hr hnot⟩,
      fun _ _ => ⟨⟨_, rfl, rfl⟩, fun hr => absurd hr hnot⟩,
      fun _ => ⟨by simp, by simp, fun hr => absurd hr hnot⟩⟩
  · rw [run_regrid_eq lib H opts oob hb]
    obtain ⟨o1, o2, o3⟩ := run_regrid_outcomes lib H opts oob
    have hreach := run_regrid_reached lib H opts oob
    refine ⟨fun h2 => ⟨?_, fun hr => ?_⟩, fun h0 hT => ⟨?_, fun hr => ?_⟩, fun hs => ⟨?_, ?_, fun hr => ?_⟩⟩
    · obtain ⟨e, he, hc⟩ := o1 h2
      exact ⟨e, by rw [he]; rfl, hc⟩
    · rw [(hreach hr).1 h2]; rfl
    · obtain ⟨e, he, hc⟩ := o2 h0 hT
      exact ⟨e, by rw [he]; rfl, hc⟩
    · rw [(hreach hr).2.1 h0 hT]; rfl
    · intro hcon
      apply (o3 hs).1
      cases hx : run_regrid lib H opts oob with
      | ok p => rw [hx] at hcon; cases hcon
      | error e => rw [hx] at hcon; simp only [Except.map] at hcon; cases hcon; rfl
    · intro hcon
      apply (o3 hs).2
      cases hx : run_regrid lib H opts oob with
      | ok p => rw [hx] at hcon; cases hcon
      | error e => rw [hx] at hcon; simp only [Except.map] at hcon; cases hcon; rfl
    · obtain ⟨p, hp⟩ := (hreach hr).2.2 hs
      exact ⟨p, by rw [hp]; rfl⟩

/-- C4 (instances): `-scale` with `-voxel` raises the "only a single method" exception, no
option at all raises the "please use either" exception, and `-scale` alone passes
validation. -/
theorem C4_regrid_resize_sources_exclusive_witness :
    (2 ≤ suppliedResize { Options.none Int with scale := some "2", voxel := some "1.5" } ∧
      run ResizeLibrary.total { size := [4, 4, 4], datatype := .Int16 } .regrid
        { Options.none Int with scale := some "2", voxel := some "1.5" }
        = .error .multipleResize) ∧
    (suppliedResize (Options.none Int) = 0 ∧
      run ResizeLibrary.total { size := [4, 4, 4], datatype := .Int16 } .regrid
        (Options.none Int) = .error .noRegridOption) ∧
    (suppliedResize { Options.none Int with scale := some "2" } = 1 ∧
      run ResizeLibrary.total { size := [4, 4, 4], datatype := .Int16 } .regrid
        { Options.none Int with scale := some "2" } ≠ .error .multipleResize) :=
  ⟨⟨by decide,
    ((C4_regrid_resize_sources_exclusive ResizeLibrary.total
      { size := [4, 4, 4], datatype := .Int16 }
      { Options.none Int with scale := some "2", voxel := some "1.5" }).1 (by decide)).2
      ⟨Or.inl rfl, fun _ h => (by cases h), rfl, fun _ _ => rfl, fun _ _ => rfl, fun _ _ => rfl⟩⟩,
   ⟨by decide,
    ((C4_regrid_resize_sources_exclusive ResizeLibrary.total
      { size := [4, 4, 4], datatype := .Int16 } (Options.none Int)).2.1 (by decide) rfl).2
      ⟨Or.inl rfl, fun _ h => (by cases h), rfl, fun _ _ => rfl, fun _ _ => rfl, fun _ _ => rfl⟩⟩,
   ⟨by decide,
    ((C4_regrid_resize_sources_exclusive ResizeLibrary.total
      { size := [4, 4, 4], datatype := .Int16 }
      { Options.none Int with scale := some "2" }).2.2 (Or.inl (by decide))).1⟩⟩

/-- C1 (the code at the failing input): cropping a 4x4x4 image with `-uniform 3` and no
`-axis` option leaves every axis with bounds `(3, 0)`, upper below lower; `run` raises nothing
and hands the sizes `-2, -2, -2` to the output. -/
theorem C1_uniform_crop_empty_axis_not_rejected :
    run ResizeLibrary.total { size := [4, 4, 4], datatype := .Float32 } .crop
        { Options.none Int with uniform := some 3 } =
      .ok (.crop_pad
        { bounds := [(3, 0), (3, 0), (3, 0)]
          from_ := [3, 3, 3]
          size := [-2, -2, -2]
          changed_axes := 3
          warn_no_axes_changed := false
          out_of_bounds_value := .num 0
          datatype := .Float32 }) := by
  decide

/-- C10: on every considered axis that the reference image has, the `-as` loop succeeds,
keeps the lower bound and sets the upper bound to the minimum (crop) or the maximum (pad) of
the current upper bound and the reference extent minus one. -/
theorem C10_as_upper_bound (do_crop : Bool) (nd : Nat) (template_header : Header) (b : Bounds)
    (a : Nat) (lo hi n : Int) (hnd : nd ≤ b.length) (ha : a < nd)
    (hb : b[a]? = some (lo, hi)) (hn : template_header.size[a]? = some n) :
    ∃ b1, applyAs do_crop nd template_header b = .ok b1 ∧
      b1[a]? = some (lo, if do_crop then min hi (n - 1) else max hi (n - 1)) := by
  refine ⟨_, applyAs_eq do_crop nd template_header b hnd, ?_⟩
  rw [getElem?_mapFirst, hb]
  have hlt : ¬ a ≥ template_header.ndim := by
    rcases List.getElem?_eq_some.mp hn with ⟨hl, _⟩
    simp only [Header.ndim]
    omega
  simp only [Option.map_some', ha, if_true, asEntry, hlt, if_false, getD_of_getElem? hn]

/-- C10 (instance): cropping bounds `(0, 9)` against a reference of extent 5 gives `(0, 4)`. -/
theorem C10_as_upper_bound_witness :
    (3 ≤ [((0 : Int), (9 : Int)), (0, 7), (0, 5)].length ∧ 0 < 3 ∧
      [((0 : Int), (9 : Int)), (0, 7), (0, 5)][0]? = some (0, 9) ∧
      ({ size := [5, 9, 3], datatype := .Bit } : Header).size[0]? = some 5) ∧
    ∃ b1, applyAs true 3 { size := [5, 9, 3], datatype := .Bit } [(0, 9), (0, 7), (0, 5)]
        = .ok b1 ∧
      b1[0]? = some (0, if true then min 9 (5 - 1) else max 9 (5 - 1)) :=
  ⟨⟨by decide, by decide, rfl, rfl⟩,
   C10_as_upper_bound true 3 { size := [5, 9, 3], datatype := .Bit } [(0, 9), (0, 7), (0, 5)]
     0 0 9 5 (by decide) (by decide) rfl rfl⟩

/-- C7: a crop or pad invocation with none of `-mask`, `-as`, `-uniform`, `-axis` raises the
"no crop or pad option supplied" exception, and an invocation with at least one of them
never raises that exception. -/
theorem C7_no_bound_source_is_rejected {α : Type} [Zero α] (lib : ResizeLibrary) (H : Header)
    (op : Operation) (opts : Options α) (oob : Scalar α) (hop : op ≠ .regrid)
    (hoob : out_of_bounds_value opts = .ok oob) :
    (opts.mask.isSome = false ∧ opts.as_ = none ∧ opts.uniform = none ∧ opts.axis = [] →
      run lib H op opts = .error .noCropPadOption ∧
      Error.noCropPadOption.isConfigurationError = true) ∧
    (opts.mask.isSome = true ∨ opts.as_.isSome = true ∨ opts.uniform.isSome = true ∨
        opts.axis ≠ [] →
      run lib H op opts ≠ .error .noCropPadOption) := by
  constructor
  · rintro ⟨hm, ha, hu, hx⟩
    refine ⟨?_, rfl⟩
    rw [run_eq_error_crop_pad lib H op opts oob _ hop hoob, run_crop_pad_error_iff]
    have hm1 : opts.mask = none := by
      cases hmm : opts.mask with
      | none => rfl
      | some m => rw [hmm] at hm; cases hm
    rw [hm1, ha, hu, hx]
    right
    refine ⟨_, maskStage_none _ _ _, Or.inr ⟨_, asStage_none _ _ _, Or.inr
      ⟨_, uniformStage_none _ _ _, Or.inr ⟨_, axisStage_nil _ _ _, ?_⟩⟩⟩⟩
    simp [finish]
  · intro hsome hrun
    rw [run_eq_error_crop_pad lib H op opts oob _ hop hoob, run_crop_pad_error_iff] at hrun
    rcases hrun with h | ⟨st1, h1, h | ⟨st2, h2, h | ⟨st3, h3, h | ⟨st4, h4, h⟩⟩⟩⟩
    · rcases maskStage_error h with h | h | h | h <;> cases h
    · rcases asStage_error h with h | h <;> cases h
    · cases uniformStage_error h
    · have := axisStage_error h
      cases this
    · rcases finish_error h with ⟨_, h0⟩ | h
      · have hc := (stage_counts h1 h2 h3 h4).2
        rw [h0] at hc
        rcases hsome with hs | hs | hs | hs
        · rw [hs] at hc; simp only [if_true] at hc; omega
        · rw [hs] at hc; simp only [if_true] at hc; omega
        · rw [hs] at hc; simp only [if_true] at hc; omega
        · have : opts.axis.length ≠ 0 := fun hl => hs (List.length_eq_zero.mp hl)
          omega
      · cases h

/-- C7 (instances): a pad with no option is rejected, a pad with `-uniform 1` is not. -/
theorem C7_no_bound_source_is_rejected_witness :
    (Operation.pad ≠ .regrid ∧ out_of_bounds_value (Options.none Int) = .ok (.num 0) ∧
      run ResizeLibrary.total { size := [4, 4, 4], datatype := .Int16 } .pad
        (Options.none Int) = .error .noCropPadOption) ∧
    run ResizeLibrary.total { size := [4, 4, 4], datatype := .Int16 } .pad
        { Options.none Int with uniform := some 1 } ≠ .error .noCropPadOption :=
  ⟨⟨by decide, rfl,
    ((C7_no_bound_source_is_rejected ResizeLibrary.total { size := [4, 4, 4], datatype := .Int16 }
      .pad (Options.none Int) (.num 0) (by decide) rfl).1 ⟨rfl, rfl, rfl, rfl⟩).1⟩,
   (C7_no_bound_source_is_rejected ResizeLibrary.total { size := [4, 4, 4], datatype := .Int16 }
      .pad { Options.none Int with uniform := some 1 } (.num 0) (by decide) rfl).2
      (Or.inr (Or.inr (Or.inl rfl)))⟩

/-- C8: in a crop with a mask whose voxels are all false (the mask sharing the first three
extents of the input, extents being at least 1), `run` raises the empty-mask exception; with
a mask that has a true voxel it never raises that exception. -/
theorem C8_empty_mask_error {α : Type} [Zero α] (lib : ResizeLibrary) (H : Header)
    (opts : Options α) (oob : Scalar α) (mask : Mask)
    (hoob : out_of_bounds_value opts = .ok oob) (hmask : opts.mask = some mask) :
    ((∀ v, inExtent mask.size v → mask.value v = false) →
      dimensions_match H.size mask.size 0 3 = true → (∀ n ∈ H.size, 1 ≤ n) →
      run lib H .crop opts = .error .emptyMask) ∧
    ((∃ v, mask.holds v) → run lib H .crop opts ≠ .error .emptyMask) := by
  have hop : Operation.crop ≠ .regrid := by decide
  have hdec : decide (Operation.crop = Operation.crop) = true := by decide
  constructor
  · intro hall hdim hpos
    rw [run_eq_error_crop_pad lib H .crop opts oob _ hop hoob, run_crop_pad_error_iff, hdec, hmask]
    left
    obtain ⟨hH, _, _⟩ := (dimensions_match_iff _ _).mp hdim
    have hb : 3 ≤ (initialBounds H).length := by rw [length_initialBounds]; exact hH
    have h0 : H.size[0]? = some (H.size[0]) := List.getElem?_eq_getElem (by omega)
    have hN : 1 ≤ H.size[0] := hpos _ (List.getElem_mem _)
    have hgt : (mergedEntry H mask 0).1 > (mergedEntry H mask 0).2 := by
      rw [mergedEntry_all_false H mask 0 hall, getD_of_getElem? h0]
      show (0 : Int) < H.size[0]
      omega
    simp [maskStage, maskBounds_empty H mask _ hb hdim hgt, bind, Except.bind]
  · rintro ⟨v, hv⟩ hrun
    rw [run_eq_error_crop_pad lib H .crop opts oob _ hop hoob, run_crop_pad_error_iff, hdec,
      hmask] at hrun
    rcases hrun with h | ⟨st1, h1, h | ⟨st2, h2, h | ⟨st3, h3, h | ⟨st4, h4, h⟩⟩⟩⟩
    · exact maskStage_not_empty H mask v hv h
    · rcases asStage_error h with h | h <;> cases h
    · cases uniformStage_error h
    · have := axisStage_error h
      cases this
    · rcases finish_error h with ⟨h, _⟩ | h <;> cases h

/-- C8 (instances): a 2x2x2 crop with an all-false mask raises the empty-mask exception; with
a mask true at voxel (1, 0, 1) it does not. -/
theorem C8_empty_mask_error_witness :
    ((∀ v, inExtent [2, 2, 2] v → (fun _ : List Int => false) v = false) ∧
      dimensions_match [2, 2, 2] [2, 2, 2] 0 3 = true ∧ (∀ n ∈ [(2 : Int), 2, 2], 1 ≤ n) ∧
      run ResizeLibrary.total { size := [2, 2, 2], datatype := .Int16 } .crop
        { Options.none Int with mask := some { size := [2, 2, 2], value := fun _ => false } }
        = .error .emptyMask) ∧
    ((∃ v, Mask.holds { size := [2, 2, 2], value := fun v => decide (v = [1, 0, 1]) } v) ∧
      run ResizeLibrary.total { size := [2, 2, 2], datatype := .Int16 } .crop
        { Options.none Int with
          mask := some { size := [2, 2, 2], value := fun v => decide (v = [1, 0, 1]) } }
        ≠ .error .emptyMask) :=
  ⟨⟨fun _ _ => rfl, by decide, by decide,
    (C8_empty_mask_error ResizeLibrary.total { size := [2, 2, 2], datatype := .Int16 }
      { Options.none Int with mask := some { size := [2, 2, 2], value := fun _ => false } }
      (.num 0) { size := [2, 2, 2], value := fun _ => false } rfl rfl).1
      (fun _ _ => rfl) (by decide) (by decide)⟩,
   ⟨⟨[1, 0, 1], (mem_voxels [2, 2, 2] [1, 0, 1]).mp (by decide), by decide⟩,
    (C8_empty_mask_error ResizeLibrary.total { size := [2, 2, 2], datatype := .Int16 }
      { Options.none Int with
        mask := some { size := [2, 2, 2], value := fun v => decide (v = [1, 0, 1]) } }
      (.num 0) { size := [2, 2, 2], value := fun v => decide (v = [1, 0, 1]) } rfl rfl).2
      ⟨[1, 0, 1], (mem_voxels [2, 2, 2] [1, 0, 1]).mp (by decide), by decide⟩⟩⟩

/-- C2: in a crop whose only bound source is a mask sharing the first three extents of the
input, `run` succeeds and, on each spatial axis `a`, resolves the bounds
`(max 0 (mn - 1), min (N - 1) (mx + 1))`, where `mn` and `mx` are the smallest and largest
index on axis `a` of a true voxel among all voxels of the mask (all volumes included) and `N`
is the extent of the input on that axis. -/
theorem C2_mask_bounds_with_margin {α : Type} [Zero α] (lib : ResizeLibrary) (H : Header)
    (opts : Options α) (oob : Scalar α) (mask : Mask) (a : Nat) (mn mx N : Int)
    (hoob : out_of_bounds_value opts = .ok oob) (hmask : opts.mask = some mask)
    (has : opts.as_ = none) (huni : opts.uniform = none) (haxis : opts.axis = [])
    (hdim : dimensions_match H.size mask.size 0 3 = true) (ha : a < 3)
    (hN : H.size[a]? = some N) (hmin : mask.boxMin a mn) (hmax : mask.boxMax a mx) :
    ∃ r, run lib H .crop opts = .ok (.crop_pad r) ∧
      r.bounds[a]? = some (max 0 (mn - 1), min (N - 1) (mx + 1)) := by
  have hop : Operation.crop ≠ .regrid := by decide
  have hdec : decide (Operation.crop = Operation.crop) = true := by decide
  obtain ⟨hH, hm, hsz⟩ := (dimensions_match_iff _ _).mp hdim
  have hb : 3 ≤ (initialBounds H).length := by rw [length_initialBounds]; exact hH
  obtain ⟨⟨v0, hv0, hv0a⟩, _⟩ := id hmin
  obtain ⟨⟨v1, hv1, hv1a⟩, _⟩ := id hmax
  have hmb := maskBounds_ok H mask (initialBounds H) hb hdim
    (fun a _ => mergedEntry_nonempty H mask a v0 hv0)
  have h1 : maskStage H true opts.mask (initialBounds H, 0) =
      .ok (mapFirst 3 (fun a _ => marginEntry mask a (mergedEntry H mask a)) (initialBounds H),
        0 + 1) := by
    simp [hmask, maskStage, hmb, bind, Except.bind, pure, Except.pure]
  have h2 := asStage_none true (if opts.nd then H.ndim else 3)
    (mapFirst 3 (fun a _ => marginEntry mask a (mergedEntry H mask a)) (initialBounds H), 0 + 1)
  have h3 := uniformStage_none true (if opts.nd then H.ndim else 3)
    (mapFirst 3 (fun a _ => marginEntry mask a (mergedEntry H mask a)) (initialBounds H), 0 + 1)
  have h4 := axisStage_nil H true
    (mapFirst 3 (fun a _ => marginEntry mask a (mergedEntry H mask a)) (initialBounds H), 0 + 1)
  rw [← has] at h2
  rw [← huni] at h3
  rw [← haxis] at h4
  obtain ⟨r, hr, hbd, _⟩ := run_crop_pad_of_stages H true opts oob _ _ _ _ hH h1 h2 h3 h4
    (by simp)
  refine ⟨r, (run_eq_ok_crop_pad lib H .crop opts oob r hop hoob).mpr (by rw [hdec]; exact hr), ?_⟩
  rw [hbd]
  simp only []
  have hmN : mask.size[a]? = some N := by rw [← hsz a ha]; exact hN
  have r0 := inExtent_getElem? hv0.1 hv0a hmN
  have r1 := inExtent_getElem? hv1.1 hv1a hmN
  rw [getElem?_mapFirst, getElem?_initialBounds, hN, mergedEntry_box H mask a mn mx ha hdim hmin
    hmax, margin_box mask a mn mx N (getD_of_getElem? hmN) r0.1 r1.2]
  simp [ha]

/-- C2 (instance): a 6x3x3 image cropped by `sampleMask`, whose true voxels span indices 2..3
on axis 0, gets the bounds `(1, 4)` on axis 0. -/
theorem C2_mask_bounds_with_margin_witness :
    (dimensions_match [6, 3, 3] sampleMask.size 0 3 = true ∧ sampleMask.boxMin 0 2 ∧
      sampleMask.boxMax 0 3) ∧
    ∃ r, run ResizeLibrary.total { size := [6, 3, 3], datatype := .Int16 } .crop
        { Options.none Int with mask := some sampleMask } = .ok (.crop_pad r) ∧
      r.bounds[0]? = some (max 0 (2 - 1), min (6 - 1) (3 + 1)) := by
  have hmin : sampleMask.boxMin 0 2 := by
    refine ⟨⟨[2, 1, 2, 0], ⟨(mem_voxels _ _).mp (by decide), by decide⟩, rfl⟩, ?_⟩
    intro v x hv hx
    have hval : v = [2, 1, 2, 0] ∨ v = [3, 1, 0, 1] := of_decide_eq_true hv.2
    rcases hval with rfl | rfl
    · cases hx; decide
    · cases hx; decide
  have hmax : sampleMask.boxMax 0 3 := by
    refine ⟨⟨[3, 1, 0, 1], ⟨(mem_voxels _ _).mp (by decide), by decide⟩, rfl⟩, ?_⟩
    intro v x hv hx
    have hval : v = [2, 1, 2, 0] ∨ v = [3, 1, 0, 1] := of_decide_eq_true hv.2
    rcases hval with rfl | rfl
    · cases hx; decide
    · cases hx; decide
  exact ⟨⟨by decide, hmin, hmax⟩,
    C2_mask_bounds_with_margin ResizeLibrary.total { size := [6, 3, 3], datatype := .Int16 }
      { Options.none Int with mask := some sampleMask } (.num 0) sampleMask 0 2 3 6 rfl rfl rfl
      rfl rfl (by decide) (by decide) rfl hmin hmax⟩


/-- C3 (counterexample): on an axis of extent 10, with `dl = 0` and `du = -2147483647`, the
crop-mode delta specification "0,-2147483647" is assigned the bounds `(0, 2147483656)` and
the crop succeeds, while the absolute specification "0:2147483656" is rejected by `std::stoi`
as out of range: one resolves and the other fails. -/
theorem C3_absolute_spec_out_of_int_range :
    deltaSpec 0 (-2147483647) = "0,-2147483647" ∧
    rangeSpec 0 (10 - 1 - (-2147483647)) = "0:2147483656" ∧
    axisSpecBounds true 10 0 "0,-2147483647" = .ok (0, 2147483656) ∧
    axisSpecBounds true 10 0 "0:2147483656" = .error .stoiOutOfRange ∧
    run ResizeLibrary.total { size := [10, 8, 6], datatype := .Int16 } .crop
        { Options.none Int with axis := [(0, "0,-2147483647")] } =
      .ok (.crop_pad
        { bounds := [(0, 2147483656), (0, 7), (0, 5)]
          from_ := [0, 0, 0]
          size := [2147483657, 8, 6]
          changed_axes := 1
          warn_no_axes_changed := false
          out_of_bounds_value := .num 0
          datatype := .Float32 }) ∧
    run ResizeLibrary.total { size := [10, 8, 6], datatype := .Int16 } .crop
        { Options.none Int with axis := [(0, "0:2147483656")] } =
      .error .stoiOutOfRange := by
  decide

/-- C3 (amended): on an axis of extent `N`, for integers `dl` and `du` of the range of `int`
(`du` other than -2147483648), the crop-mode delta specification `dl,du` written in decimal
is assigned the bounds `(dl, N - 1 - du)`; when `N - 1 - du` is of the range of `int` the
absolute specification `dl:(N - 1 - du)` is assigned the identical bounds, and the loop
iteration and the whole run have the same outcome for both (the same bounds, or the same
failure when the pair is empty); when `N - 1 - du` is outside the range of `int` the absolute
specification is rejected by `std::stoi` as out of range. -/
theorem C3_delta_and_absolute_specs_agree_in_int_range {α : Type} [Zero α]
    (lib : ResizeLibrary) (H : Header) (opts : Options α) (a : Nat) (N dl du : Int)
    (before after : List (Nat × String))
    (hdl : -2147483648 ≤ dl ∧ dl ≤ 2147483647) (hdu : -2147483647 ≤ du ∧ du ≤ 2147483647) :
    axisSpecBounds true N a (deltaSpec dl du) = .ok (dl, N - 1 - du) ∧
    (-2147483648 ≤ N - 1 - du ∧ N - 1 - du ≤ 2147483647 →
      axisSpecBounds true N a (rangeSpec dl (N - 1 - du)) = .ok (dl, N - 1 - du) ∧
      (H.size[a]? = some N →
        (∀ st, applyAxis H true st (a, deltaSpec dl du) =
          applyAxis H true st (a, rangeSpec dl (N - 1 - du))) ∧
        run lib H .crop { opts with axis := before ++ (a, deltaSpec dl du) :: after } =
          run lib H .crop
            { opts with axis := before ++ (a, rangeSpec dl (N - 1 - du)) :: after })) ∧
    (N - 1 - du < -2147483648 ∨ 2147483647 < N - 1 - du →
      axisSpecBounds true N a (rangeSpec dl (N - 1 - du)) = .error .stoiOutOfRange) := by
  have e1 := axisSpecBounds_deltaSpec N a dl du hdl.1 hdl.2 hdu.1 hdu.2
  refine ⟨e1, ?_, ?_⟩
  · intro hr
    have e2 := axisSpecBounds_rangeSpec true N a dl (N - 1 - du) hdl.1 hdl.2 hr.1 hr.2
    exact ⟨e2, fun hN => run_crop_axis_congr lib H opts a N _ _ _ before after e1 e2 hN⟩
  · intro hr
    exact axisSpecBounds_rangeSpec_out_of_range true N a dl (N - 1 - du) hdl.1 hdl.2 hr

/-- C3 (amended, instance): on an axis of extent 10, the crop specifications "2,3" and "2:6"
are both assigned the bounds `(2, 6)` and give the same run. -/
theorem C3_delta_and_absolute_specs_agree_in_int_range_witness :
    (deltaSpec 2 3 = "2,3" ∧ rangeSpec 2 (10 - 1 - 3) = "2:6") ∧
    axisSpecBounds true 10 0 (deltaSpec 2 3) = .ok (2, 10 - 1 - 3) ∧
    axisSpecBounds true 10 0 (rangeSpec 2 (10 - 1 - 3)) = .ok (2, 10 - 1 - 3) ∧
    run ResizeLibrary.total { size := [10, 8, 6], datatype := .Int16 } .crop
        { Options.none Int with axis := [] ++ (0, deltaSpec 2 3) :: [] } =
      run ResizeLibrary.total { size := [10, 8, 6], datatype := .Int16 } .crop
        { Options.none Int with axis := [] ++ (0, rangeSpec 2 (10 - 1 - 3)) :: [] } :=
  have h := C3_delta_and_absolute_specs_agree_in_int_range ResizeLibrary.total
    { size := [10, 8, 6], datatype := .Int16 } (Options.none Int) 0 10 2 3 [] []
    (by decide) (by decide)
  ⟨⟨by decide, by decide⟩, h.1, (h.2.1 (by decide)).1, ((h.2.1 (by decide)).2 rfl).2⟩

/-- C9: when a crop or pad run succeeds, the final bounds of an axis named by a `-axis`
specification are the pair computed from its (last) specification, the operation mode and
the extent of that axis alone; hence any other successful run of the same operation on the
same image with the same `-axis` options, whatever its `-mask`, `-as`, `-uniform` (and other)
options, ends with the same bounds on that axis. -/
theorem C9_axis_spec_overrides_other_sources {α : Type} [Zero α] (lib : ResizeLibrary)
    (H : Header) (op : Operation) (opts : Options α) (r : CropPad α) (a : Nat) (spec : String)
    (hrun : run lib H op opts = .ok (.crop_pad r)) (hs : lastSpec opts.axis a = some spec) :
    (∃ n v, H.size[a]? = some n ∧ axisSpecBounds (decide (op = .crop)) n a spec = .ok v ∧
      r.bounds[a]? = some v) ∧
    ∀ (opts2 : Options α) (r2 : CropPad α), opts2.axis = opts.axis →
      run lib H op opts2 = .ok (.crop_pad r2) → r2.bounds[a]? = r.bounds[a]? := by
  have main : ∀ (o : Options α) (q : CropPad α), run lib H op o = .ok (.crop_pad q) →
      lastSpec o.axis a = some spec →
      ∃ n v, H.size[a]? = some n ∧ axisSpecBounds (decide (op = .crop)) n a spec = .ok v ∧
        q.bounds[a]? = some v := by
    intro o q hq hl
    obtain ⟨_, oob, _, hcp⟩ := run_ok_crop_pad_inv hq
    obtain ⟨st1, st2, st3, st4, _, _, _, h4, h5⟩ := (run_crop_pad_ok_iff H _ o oob q).mp hcp
    obtain ⟨_, k, _, rfl⟩ := (finish_ok_iff H _ o oob st4 q).mp h5
    obtain ⟨_, _, hall⟩ := axisStage_ok H _ _ _ _ h4
    obtain ⟨n, v, hn, hv, _, hb⟩ := (hall a).2 spec hl
    exact ⟨n, v, hn, hv, hb⟩
  refine ⟨main opts r hrun hs, fun opts2 r2 hax h2 => ?_⟩
  obtain ⟨n, v, hn, hv, hb⟩ := main opts r hrun hs
  obtain ⟨n2, v2, hn2, hv2, hb2⟩ := main opts2 r2 h2 (by rw [hax]; exact hs)
  rw [hn] at hn2
  cases hn2
  rw [hv] at hv2
  cases hv2
  rw [hb, hb2]

/-- C9 (instance): cropping a 10x8x6 image with `-axis 0 2:6`, alone or together with
`-uniform 1`, leaves the bounds `(2, 6)` on axis 0. -/
theorem C9_axis_spec_overrides_other_sources_witness :
    (run ResizeLibrary.total { size := [10, 8, 6], datatype := .Int16 } .crop
        { Options.none Int with axis := [(0, "2:6")] } =
      .ok (.crop_pad
        { bounds := [(2, 6), (0, 7), (0, 5)]
          from_ := [2, 0, 0]
          size := [5, 8, 6]
          changed_axes := 1
          warn_no_axes_changed := false
          out_of_bounds_value := .num 0
          datatype := .Float32 }) ∧
      lastSpec [(0, "2:6")] 0 = some "2:6" ∧
      run ResizeLibrary.total { size := [10, 8, 6], datatype := .Int16 } .crop
        { Options.none Int with axis := [(0, "2:6")], uniform := some 1 } =
      .ok (.crop_pad
        { bounds := [(2, 6), (1, 6), (1, 4)]
          from_ := [2, 1, 1]
          size := [5, 6, 4]
          changed_axes := 3
          warn_no_axes_changed := false
          out_of_bounds_value := .num 0
          datatype := .Float32 })) ∧
    [((2 : Int), (6 : Int)), (1, 6), (1, 4)][0]? = [((2 : Int), (6 : Int)), (0, 7), (0, 5)][0]? :=
  ⟨⟨by decide, by decide, by decide⟩,
   (C9_axis_spec_overrides_other_sources ResizeLibrary.total
      { size := [10, 8, 6], datatype := .Int16 } .crop
      { Options.none Int with axis := [(0, "2:6")] }
      { bounds := [(2, 6), (0, 7), (0, 5)]
        from_ := [2, 0, 0]
        size := [5, 8, 6]
        changed_axes := 1
        warn_no_axes_changed := false
        out_of_bounds_value := .num 0
        datatype := .Float32 } 0 "2:6" (by decide) (by decide)).2
      { Options.none Int with axis := [(0, "2:6")], uniform := some 1 }
      { bounds := [(2, 6), (1, 6), (1, 4)]
        from_ := [2, 1, 1]
        size := [5, 6, 4]
        changed_axes := 3
        warn_no_axes_changed := false
        out_of_bounds_value := .num 0
        datatype := .Float32 } rfl (by decide)⟩

/-- C5: padding an image (of at least 3 axes) with `-uniform 3` and `-fill f` as the only
options succeeds with out-of-bounds value `f`, offset `from = -3` and size `N + 6` on every
considered axis; under the crop / pad mapping (output index `i` maps to source index
`i + from`), every output voxel whose mapped index leaves the source extent on some axis
equals `f` and every other output voxel equals the source voxel at the mapped index. -/
theorem C5_pad_uniform_fill {α : Type} [Zero α] (lib : ResizeLibrary) (H : Header)
    (opts : Options α) (f : Scalar α) (input : Image α) (hin : input.header = H)
    (hH : 3 ≤ H.ndim) (hnan : opts.nan = false) (hfill : opts.fill = some f)
    (hm : opts.mask.isSome = false) (ha : opts.as_ = none) (hu : opts.uniform = some 3)
    (hx : opts.axis = []) :
    ∃ r, run lib H .pad opts = .ok (.crop_pad r) ∧ r.out_of_bounds_value = f ∧
      (∀ (a : Nat) (N : Int), a < (if opts.nd then H.ndim else 3) → H.size[a]? = some N →
        r.from_[a]? = some (-3) ∧ r.size[a]? = some (N + 6)) ∧
      ∀ idx : List Int,
        ((∃ (a : Nat) (i o n : Int), idx[a]? = some i ∧ r.from_[a]? = some o ∧
            H.size[a]? = some n ∧ (i + o < 0 ∨ n ≤ i + o)) →
          output_value input r idx = f) ∧
        ((∀ (a : Nat) (i o n : Int), idx[a]? = some i → r.from_[a]? = some o →
            H.size[a]? = some n → 0 ≤ i + o ∧ i + o < n) →
          output_value input r idx = input.value (List.zipWith (· + ·) idx r.from_)) := by
  have hop : Operation.pad ≠ .regrid := by decide
  have hdec : decide (Operation.pad = Operation.crop) = false := by decide
  have hoob : out_of_bounds_value opts = .ok f := by
    simp [out_of_bounds_value, hnan, hfill, Scalar.neSelf]
  obtain ⟨r, hr, hb, hf, hs, ho⟩ := run_crop_pad_uniform_only H false opts f 3 hH hm ha hu hx
  refine ⟨r, (run_eq_ok_crop_pad lib H .pad opts f r hop hoob).mpr (by rw [hdec]; exact hr), ho,
    ?_, ?_⟩
  · intro a N hlt hN
    have hba : r.bounds[a]? = some (0 + -3, N - 1 + 3) := by
      rw [hb, getElem?_mapFirst, getElem?_initialBounds, hN]
      simp [hlt, uniformEntry]
    constructor
    · rw [hf, List.getElem?_map, hba]
      simp
    · rw [hs, List.getElem?_map, hba]
      simp only [Option.map_some', Option.some.injEq]
      omega
  · intro idx
    have := output_value_spec input r idx
    rw [hin, ho] at this
    exact this

/-- C5 (instance): a 4x4x4 image padded with `-uniform 3 -fill -1` has offset -3 and size 10
on axis 0, and the output voxel (0, 5, 5), mapped to source index (-3, 2, 2), equals -1. -/
theorem C5_pad_uniform_fill_witness :
    (3 ≤ ({ size := [4, 4, 4], datatype := .Int16 } : Header).ndim) ∧
    ∃ r, run ResizeLibrary.total { size := [4, 4, 4], datatype := .Int16 } .pad
        { Options.none Int with uniform := some 3, fill := some (.num (-1)) }
          = .ok (.crop_pad r) ∧
      r.out_of_bounds_value = .num (-1) ∧
      (r.from_[0]? = some (-3) ∧ r.size[0]? = some (4 + 6)) ∧
      output_value
        { header := { size := [4, 4, 4], datatype := .Int16 },
          value := fun _ => Scalar.num (7 : Int) }
        r [0, 5, 5] = .num (-1) := by
  obtain ⟨r, h1, h2, h3, h4⟩ := C5_pad_uniform_fill ResizeLibrary.total
    { size := [4, 4, 4], datatype := .Int16 }
    { Options.none Int with uniform := some 3, fill := some (.num (-1)) } (.num (-1))
    { header := { size := [4, 4, 4], datatype := .Int16 },
      value := fun _ => Scalar.num (7 : Int) }
    rfl (by decide) rfl rfl rfl rfl rfl rfl
  have h30 := h3 0 4 (by decide) rfl
  refine ⟨by decide, r, h1, h2, h30, (h4 [0, 5, 5]).1 ⟨0, 0, -3, 4, rfl, h30.1, rfl, ?_⟩⟩
  decide

/-- C6: whenever a crop or pad run resolves bounds equal to the source extent on every axis,
the transfer offset is 0 and the output size is the source size on every axis, no axis is
counted as changed, the "no axes were changed" advisory is emitted and every output voxel is
the source voxel at the same index; `-uniform 0` alone (on an image with at least 3 axes) is
such a run. -/
theorem C6_identity_bounds {α : Type} [Zero α] (lib : ResizeLibrary) (H : Header)
    (op : Operation) (opts : Options α) (r : CropPad α) (input : Image α)
    (hin : input.header = H) :
    (run lib H op opts = .ok (.crop_pad r) → r.bounds = initialBounds H →
      r.from_ = H.size.map (fun _ => 0) ∧ r.size = H.size ∧ r.changed_axes = 0 ∧
      r.warn_no_axes_changed = true ∧
      ∀ idx, inExtent H.size idx → output_value input r idx = input.value idx) ∧
    (op ≠ .regrid → 3 ≤ H.ndim → (opts.nan = false ∨ opts.fill = none) →
      opts.mask.isSome = false → opts.as_ = none → opts.uniform = some 0 → opts.axis = [] →
      ∃ r0, run lib H op opts = .ok (.crop_pad r0) ∧ r0.bounds = initialBounds H) := by
  constructor
  · intro hrun hb
    obtain ⟨_, oob, _, hcp⟩ := run_ok_crop_pad_inv hrun
    obtain ⟨st1, st2, st3, st4, _, _, _, _, h5⟩ := (run_crop_pad_ok_iff H _ opts oob r).mp hcp
    obtain ⟨_, k, hk, rfl⟩ := (finish_ok_iff H _ opts oob st4 r).mp h5
    simp only [] at hb
    rw [hb] at hk
    have hfrom : (initialBounds H).map (fun b => b.1) = H.size.map (fun _ => (0 : Int)) := by
      simp [initialBounds, List.map_map, Function.comp_def]
    have hsize : (initialBounds H).map (fun b => b.2 - b.1 + 1) = H.size := by
      simp [initialBounds, List.map_map, Function.comp_def]
    rw [hsize] at hk
    have hk0 : k = 0 := by
      refine countChanged_zero H _ _ _ k hk ?_
      intro a x n s _ hx hn hs
      rw [getElem?_initialBounds, hn] at hx
      cases hx
      rw [hn] at hs
      cases hs
      exact ⟨rfl, rfl⟩
    subst hk0
    simp only [hb, hfrom, hsize, decide_True, true_and]
    intro idx hidx
    have hspec := (output_value_spec input
      { bounds := initialBounds H
        from_ := H.size.map (fun _ => (0 : Int))
        size := H.size
        changed_axes := 0
        warn_no_axes_changed := true
        out_of_bounds_value := oob
        datatype := DataType.from_command_line opts DataType.Float32 } idx).2
    simp only [hb, hfrom, hsize, decide_True] at hspec ⊢
    rw [hspec]
    · congr 1
      apply List.ext_getElem?
      intro a
      rw [List.getElem?_zipWith, List.getElem?_map]
      cases hi : idx[a]? with
      | none => rfl
      | some i =>
        have hlt : a < H.size.length := by
          rw [← inExtent_length hidx]
          exact (List.getElem?_eq_some.mp hi).1
        rw [List.getElem?_eq_getElem hlt]
        simp
    · intro a i o n hi ho hn
      rw [hin] at hn
      rw [List.getElem?_map, hn] at ho
      simp only [Option.map_some', Option.some.injEq] at ho
      subst ho
      have := inExtent_getElem? hidx hi hn
      omega
  · intro hop hH hfill hm ha hu hx
    obtain ⟨oob, hoob⟩ := out_of_bounds_value_ok opts hfill
    obtain ⟨r0, hr, hb, _⟩ := run_crop_pad_uniform_only H (decide (op = .crop)) opts oob 0 hH hm
      ha hu hx
    refine ⟨r0, (run_eq_ok_crop_pad lib H op opts oob r0 hop hoob).mpr hr, ?_⟩
    rw [hb]
    have : mapFirst (if opts.nd then H.ndim else 3)
        (fun _ => uniformEntry (decide (op = .crop)) 0) (initialBounds H) =
        mapFirst (if opts.nd then H.ndim else 3) (fun _ x => x) (initialBounds H) := by
      apply mapFirst_congr
      intro a x _ _
      simp [uniformEntry]
    rw [this, mapFirst_id]

/-- C6 (instance): cropping a 4x4x4 image with `-uniform 0` resolves the source extent,
emits the advisory, and the output voxel (1, 2, 3) is the source voxel (1, 2, 3). -/
theorem C6_identity_bounds_witness :
    (run ResizeLibrary.total { size := [4, 4, 4], datatype := .Int16 } .crop
        { Options.none Int with uniform := some 0 } =
      .ok (.crop_pad
        { bounds := [(0, 3), (0, 3), (0, 3)]
          from_ := [0, 0, 0]
          size := [4, 4, 4]
          changed_axes := 0
          warn_no_axes_changed := true
          out_of_bounds_value := .num 0
          datatype := .Float32 }) ∧
      [((0 : Int), (3 : Int)), (0, 3), (0, 3)] =
        initialBounds { size := [4, 4, 4], datatype := .Int16 }) ∧
    output_value
        { header := { size := [4, 4, 4], datatype := .Int16 },
          value := fun v => Scalar.num (v.sum) }
        { bounds := [(0, 3), (0, 3), (0, 3)]
          from_ := [0, 0, 0]
          size := [4, 4, 4]
          changed_axes := 0
          warn_no_axes_changed := true
          out_of_bounds_value := .num 0
          datatype := .Float32 } [1, 2, 3] = Scalar.num (([1, 2, 3] : List Int).sum) ∧
    ∃ r0, run ResizeLibrary.total { size := [4, 4, 4], datatype := .Int16 } .pad
        { Options.none Int with uniform := some 0 } = .ok (.crop_pad r0) ∧
      r0.bounds = initialBounds { size := [4, 4, 4], datatype := .Int16 } :=
  ⟨⟨by decide, by decide⟩,
   ((C6_identity_bounds ResizeLibrary.total { size := [4, 4, 4], datatype := .Int16 } .crop
      { Options.none Int with uniform := some 0 }
      { bounds := [(0, 3), (0, 3), (0, 3)]
        from_ := [0, 0, 0]
        size := [4, 4, 4]
        changed_axes := 0
        warn_no_axes_changed := true
        out_of_bounds_value := .num 0
        datatype := .Float32 }
      { header := { size := [4, 4, 4], datatype := .Int16 },
        value := fun v => Scalar.num (v.sum) } rfl).1 (by decide) (by decide)).2.2.2.2
      [1, 2, 3] ((mem_voxels [4, 4, 4] [1, 2, 3]).mp (by decide)),
   (C6_identity_bounds ResizeLibrary.total { size := [4, 4, 4], datatype := .Int16 } .pad
      { Options.none Int with uniform := some 0 }
      { bounds := []
        from_ := []
        size := []
        changed_axes := 0
        warn_no_axes_changed := true
        out_of_bounds_value := .num 0
        datatype := .Float32 }
      { header := { size := [4, 4, 4], datatype := .Int16 },
        value := fun v => Scalar.num (v.sum) } rfl).2 (by decide) (by decide) (Or.inl rfl) rfl
      rfl rfl rfl⟩

/-- C17: for every operation, `-nan` together with `-fill` makes `run` raise the "use either
-nan or -value" exception, whatever the image, the operation and the other options (nothing
else has been computed); otherwise the out-of-bounds value is the fill value when `-fill`
is given, NaN when only `-nan` is given and 0 when neither is given, and this is the value
the run hands on. -/
theorem C17_fill_and_nan_exclusive {α : Type} [Zero α] (lib : ResizeLibrary) (H : Header)
    (op : Operation) (opts : Options α) :
    (opts.nan = true → opts.fill.isSome = true →
      run lib H op opts = .error .fillAndNan ∧
      Error.fillAndNan.isConfigurationError = true) ∧
    (∀ f, opts.fill = some f → opts.nan = false → out_of_bounds_value opts = .ok f) ∧
    (opts.fill = none → opts.nan = true → out_of_bounds_value opts = .ok .nan) ∧
    (opts.fill = none → opts.nan = false → out_of_bounds_value opts = .ok (.num 0)) ∧
    (∀ r, run lib H op opts = .ok (.crop_pad r) →
      out_of_bounds_value opts = .ok r.out_of_bounds_value) ∧
    (∀ p, run lib H op opts = .ok (.regrid p) →
      out_of_bounds_value opts = .ok p.out_of_bounds_value) := by
  refine ⟨fun hn hf => ⟨run_fill_and_nan lib H op opts hn hf, rfl⟩, ?_, ?_, ?_, ?_, ?_⟩
  · intro f hf hn
    simp [out_of_bounds_value, hf, hn, Scalar.neSelf]
  · intro hf hn
    simp [out_of_bounds_value, hf, hn]
  · intro hf hn
    simp [out_of_bounds_value, hf, hn]
  · intro r hr
    obtain ⟨_, oob, hb, hcp⟩ := run_ok_crop_pad_inv hr
    rw [hb, (run_crop_pad_oob hcp).1]
  · intro p hp
    obtain ⟨oob, hb, hrg⟩ := run_ok_regrid_inv hp
    rw [hb, run_regrid_oob hrg]

/-- C17 (instances): `-nan -fill 5` is rejected for a crop; `-fill 5` alone gives 5, `-nan`
alone gives NaN and no option gives 0. -/
theorem C17_fill_and_nan_exclusive_witness :
    run ResizeLibrary.total { size := [4, 4, 4], datatype := .Int16 } .crop
        { Options.none Int with nan := true, fill := some (.num 5), uniform := some 1 }
        = .error .fillAndNan ∧
    out_of_bounds_value { Options.none Int with fill := some (.num 5) } = .ok (.num 5) ∧
    out_of_bounds_value { Options.none Int with nan := true } = .ok .nan ∧
    out_of_bounds_value (Options.none Int) = .ok (.num 0) :=
  ⟨((C17_fill_and_nan_exclusive ResizeLibrary.total { size := [4, 4, 4], datatype := .Int16 }
      .crop { Options.none Int with nan := true, fill := some (.num 5), uniform := some 1 }).1
      rfl rfl).1,
   (C17_fill_and_nan_exclusive ResizeLibrary.total { size := [4, 4, 4], datatype := .Int16 }
      .crop { Options.none Int with fill := some (.num 5) }).2.1 (.num 5) rfl rfl,
   (C17_fill_and_nan_exclusive ResizeLibrary.total { size := [4, 4, 4], datatype := .Int16 }
      .crop { Options.none Int with nan := true }).2.2.1 rfl rfl,
   (C17_fill_and_nan_exclusive ResizeLibrary.total { size := [4, 4, 4], datatype := .Int16 }
      .crop (Options.none Int)).2.2.2.1 rfl rfl⟩

/-- C18 (the code at the failing input): cropping a 4x4x4 image stored as 16-bit integers
with `-uniform 1` and no `-datatype` option gives an output header of datatype Float32, not
Int16. -/
theorem C18_crop_output_datatype_is_float32 :
    run ResizeLibrary.total { size := [4, 4, 4], datatype := .Int16 } .crop
        { Options.none Int with uniform := some 1 } =
      .ok (.crop_pad
        { bounds := [(1, 2), (1, 2), (1, 2)]
          from_ := [1, 1, 1]
          size := [2, 2, 2]
          changed_axes := 3
          warn_no_axes_changed := false
          out_of_bounds_value := .num 0
          datatype := .Float32 }) := by
  decide

/-- C11 (counterexample): cropping a 4x4x4x5 image to a three-axis 4x4x4 reference with the
all-axes flag leaves the bounds `(0, 0)` on axis 3, so the output size on that axis is 1, not
0. -/
theorem C11_absent_axis_not_zero_length :
    run ResizeLibrary.total { size := [4, 4, 4, 5], datatype := .Int16 } .crop
        { Options.none Int with as_ := some { size := [4, 4, 4], datatype := .Int16 },
                                nd := true } =
      .ok (.crop_pad
        { bounds := [(0, 3), (0, 3), (0, 3), (0, 0)]
          from_ := [0, 0, 0, 0]
          size := [4, 4, 4, 1]
          changed_axes := 1
          warn_no_axes_changed := false
          out_of_bounds_value := .num 0
          datatype := .Float32 }) ∧
    ([4, 4, 4, 1] : List Int)[3]? ≠ some 0 := by
  decide

/-- C11 (amended): on every considered axis that the reference image does not have, the
`-as` loop keeps the lower bound and sets the upper bound to 0 when cropping, and leaves the
bounds unchanged when padding; with `-as` as the only bound source (image of at least 3
axes) a crop therefore ends with bounds `(0, 0)` and output size 1 on that axis, and a pad
with the source extent `(0, N - 1)` and size `N`. -/
theorem C11_as_absent_axis {α : Type} [Zero α] (lib : ResizeLibrary) (H : Header)
    (op : Operation) (opts : Options α) (do_crop : Bool) (nd : Nat) (template_header : Header)
    (b : Bounds) (a : Nat) (hta : template_header.ndim ≤ a) :
    (∀ (lo hi : Int), nd ≤ b.length → a < nd → b[a]? = some (lo, hi) →
      ∃ b1, applyAs do_crop nd template_header b = .ok b1 ∧
        b1[a]? = some (if do_crop then (lo, 0) else (lo, hi))) ∧
    (∀ N : Int, op ≠ .regrid → 3 ≤ H.ndim → (opts.nan = false ∨ opts.fill = none) →
      opts.mask.isSome = false → opts.as_ = some template_header → opts.uniform = none →
      opts.axis = [] → a < (if opts.nd then H.ndim else 3) → H.size[a]? = some N →
      ∃ r, run lib H op opts = .ok (.crop_pad r) ∧
        r.bounds[a]? = some (if op = .crop then (0, 0) else (0, N - 1)) ∧
        r.size[a]? = some (if op = .crop then 1 else N)) := by
  have hge : a ≥ template_header.ndim := hta
  constructor
  · intro lo hi hnd ha hb
    refine ⟨_, applyAs_eq do_crop nd template_header b hnd, ?_⟩
    rw [getElem?_mapFirst, hb]
    cases do_crop <;> simp [ha, asEntry, hge]
  · intro N hop hH hfill hm has hu hx ha hN
    obtain ⟨oob, hoob⟩ := out_of_bounds_value_ok opts hfill
    obtain ⟨r, hr, hb, _, hs, _⟩ := run_crop_pad_as_uniform H (decide (op = .crop)) opts oob hH
      hm hx (Or.inl (by rw [has]; rfl))
    have hba : r.bounds[a]? = some (if op = .crop then (0, 0) else (0, N - 1)) := by
      rw [hb, hu, has]
      simp only [uniformBounds, asBounds]
      rw [getElem?_mapFirst, getElem?_initialBounds, hN]
      by_cases hc : op = .crop
      · simp [ha, asEntry, hge, hc]
      · simp [ha, asEntry, hge, hc]
    refine ⟨r, (run_eq_ok_crop_pad lib H op opts oob r hop hoob).mpr hr, hba, ?_⟩
    rw [hs, List.getElem?_map, hba]
    by_cases hc : op = .crop
    · simp [hc]
    · simp [hc]

/-- C11 (amended, instances): on axis 3, absent from a three-axis reference, the crop loop
turns `(0, 4)` into `(0, 0)`, and the crop of a 4x4x4x5 image ends with size 1 there. -/
theorem C11_as_absent_axis_witness :
    (∃ b1, applyAs true 4 { size := [4, 4, 4], datatype := .Int16 }
        [(0, 3), (0, 3), (0, 3), (0, 4)] = .ok b1 ∧
      b1[3]? = some (if true then ((0 : Int), (0 : Int)) else (0, 4))) ∧
    ∃ r, run ResizeLibrary.total { size := [4, 4, 4, 5], datatype := .Int16 } .crop
        { Options.none Int with as_ := some { size := [4, 4, 4], datatype := .Int16 },
                                nd := true } = .ok (.crop_pad r) ∧
      r.bounds[3]? = some (if Operation.crop = .crop then (0, 0) else (0, 5 - 1)) ∧
      r.size[3]? = some (if Operation.crop = .crop then 1 else 5) := by
  have h := C11_as_absent_axis ResizeLibrary.total { size := [4, 4, 4, 5], datatype := .Int16 }
    .crop { Options.none Int with as_ := some { size := [4, 4, 4], datatype := .Int16 },
                                  nd := true }
    true 4 { size := [4, 4, 4], datatype := .Int16 } [(0, 3), (0, 3), (0, 3), (0, 4)] 3
    (by decide)
  exact ⟨h.1 0 4 (by decide) (by decide) rfl,
    h.2 5 (by decide) (by decide) (Or.inl rfl) rfl rfl rfl rfl (by decide) rfl⟩

/-- C13: an absolute specification `start:stop` (first colon at position `k`, first token
read by `std::stoi` as `start`) is assigned the pair `(start, stop)` when the second token
reads as `stop`, and `(start, N - 1)` when the second token, stripped, is "end" in any
letter case, in crop mode and in pad mode alike; in a successful run these are the final
bounds of an axis whose last specification it is. -/
theorem C13_absolute_spec_is_raw {α : Type} [Zero α] (lib : ResizeLibrary) (H : Header)
    (op : Operation) (opts : Options α) (r : CropPad α) (N : Int) (a : Nat) (spec : String)
    (k : Nat) (start : Int) (hk : find_first_of spec.toList ':' = some k)
    (hlo : stoi (strip (spec.toList.take k)) = .ok start) :
    (∀ (c : Bool) (stop : Int), stoi (strip (spec.toList.drop (k + 1))) = .ok stop →
      axisSpecBounds c N a spec = .ok (start, stop)) ∧
    (∀ c : Bool, lowercase (strip (spec.toList.drop (k + 1))) = "end".toList →
      axisSpecBounds c N a spec = .ok (start, N - 1)) ∧
    (∀ t ∈ ["end", "End", "eNd", "enD", "ENd", "EnD", "eND", "END", " end", "END "],
      lowercase (strip (String.toList t)) = "end".toList) ∧
    (run lib H op opts = .ok (.crop_pad r) → lastSpec opts.axis a = some spec →
      H.size[a]? = some N →
      (∀ stop : Int, stoi (strip (spec.toList.drop (k + 1))) = .ok stop →
        r.bounds[a]? = some (start, stop)) ∧
      (lowercase (strip (spec.toList.drop (k + 1))) = "end".toList →
        r.bounds[a]? = some (start, N - 1))) := by
  refine ⟨fun c stop hhi => axisSpecBounds_range c N a spec k start stop hk hlo hhi,
    fun c hend => axisSpecBounds_end c N a spec k start hk hlo hend, by decide, ?_⟩
  intro hrun hs hN
  obtain ⟨n, v, hn, hv, _, hb⟩ := run_bounds_of_lastSpec hrun hs
  rw [hN] at hn
  cases hn
  constructor
  · intro stop hhi
    rw [axisSpecBounds_range _ N a spec k start stop hk hlo hhi] at hv
    cases hv
    exact hb
  · intro hend
    rw [axisSpecBounds_end _ N a spec k start hk hlo hend] at hv
    cases hv
    exact hb

/-- C13 (instances): on an axis of extent 10, "2:12" is assigned `(2, 12)` in crop mode and
in pad mode, and "2: End" is assigned `(2, 9)`. -/
theorem C13_absolute_spec_is_raw_witness :
    (find_first_of "2:12".toList ':' = some 1 ∧ stoi (strip ("2:12".toList.take 1)) = .ok 2 ∧
      stoi (strip ("2:12".toList.drop (1 + 1))) = .ok 12) ∧
    axisSpecBounds true 10 0 "2:12" = .ok (2, 12) ∧
    axisSpecBounds false 10 0 "2:12" = .ok (2, 12) ∧
    axisSpecBounds false 10 0 "2: End" = .ok (2, 10 - 1) :=
  have h1 := C13_absolute_spec_is_raw ResizeLibrary.total
    { size := [10, 8, 6], datatype := .Int16 } .pad (Options.none Int)
    { bounds := [], from_ := [], size := [], changed_axes := 0, warn_no_axes_changed := true,
      out_of_bounds_value := .num 0, datatype := .Float32 } 10 0 "2:12" 1 2
    (by decide) (by decide)
  have h2 := C13_absolute_spec_is_raw ResizeLibrary.total
    { size := [10, 8, 6], datatype := .Int16 } .pad (Options.none Int)
    { bounds := [], from_ := [], size := [], changed_axes := 0, warn_no_axes_changed := true,
      out_of_bounds_value := .num 0, datatype := .Float32 } 10 0 "2: End" 1 2
    (by decide) (by decide)
  ⟨⟨by decide, by decide, by decide⟩, h1.1 true 12 (by decide), h1.1 false 12 (by decide),
    h2.2.1 false (by decide)⟩

/-- C20: on an image with at least 3 axes, whatever the operation and the options, `run`
never fails on an out-of-range index: every access to the bounds vector (and to the other
per-axis vectors) in the mask, reference-grid, uniform, per-axis and change-report loops is
in range, the bounds vector keeping one entry per axis of the source; and a `-axis`
specification whose axis index is the axis count or more is rejected with the "larger than
image dimensions" exception from any state, without its specification being read or any
entry written. -/
theorem C20_no_out_of_range_access {α : Type} [Zero α] (lib : ResizeLibrary) (H : Header)
    (op : Operation) (opts : Options α) (hH : 3 ≤ H.ndim) :
    run lib H op opts ≠ .error .indexOutOfRange ∧
    (∀ r, run lib H op opts = .ok (.crop_pad r) → r.bounds.length = H.ndim) ∧
    (∀ (c : Bool) (st : Bounds × Nat) (a : Nat) (spec : String), H.ndim ≤ a →
      applyAxis H c st (a, spec) = .error (.axisTooLarge a H.ndim)) := by
  refine ⟨?_, ?_, ?_⟩
  · intro h
    rcases out_of_bounds_value_cases opts with hb | ⟨oob, hb⟩
    · simp [run, hb, bind, Except.bind] at h
    · by_cases hop : op = .regrid
      · subst hop
        rw [run_regrid_eq lib H opts oob hb] at h
        cases hx : run_regrid lib H opts oob with
        | ok p => rw [hx] at h; cases h
        | error e =>
          rw [hx] at h
          simp only [Except.map] at h
          cases h
          exact run_regrid_in_range lib H opts oob hx
      · exact run_crop_pad_in_range H _ opts oob hH
          ((run_eq_error_crop_pad lib H op opts oob _ hop hb).mp h)
  · intro r hr
    obtain ⟨_, oob, _, hcp⟩ := run_ok_crop_pad_inv hr
    obtain ⟨st1, st2, st3, st4, h1, h2, h3, h4, h5⟩ := (run_crop_pad_ok_iff H _ opts oob r).mp hcp
    obtain ⟨_, k, _, rfl⟩ := (finish_ok_iff H _ opts oob st4 r).mp h5
    exact (stage_counts h1 h2 h3 h4).1
  · intro c st a spec ha
    have hge : a ≥ H.ndim := ha
    simp only [applyAxis, hge, if_true]

/-- C20 (instances): a crop of a 4x4x4 image with `-uniform 1` does not fail on an index, and
`-axis 3 0:1` is rejected on that image. -/
theorem C20_no_out_of_range_access_witness :
    3 ≤ ({ size := [4, 4, 4], datatype := .Int16 } : Header).ndim ∧
    run ResizeLibrary.total { size := [4, 4, 4], datatype := .Int16 } .crop
        { Options.none Int with uniform := some 1 } ≠ .error .indexOutOfRange ∧
    applyAxis { size := [4, 4, 4], datatype := .Int16 } true ([(0, 3), (0, 3), (0, 3)], 0)
        (3, "0:1") = .error (.axisTooLarge 3 3) :=
  have h := C20_no_out_of_range_access ResizeLibrary.total
    { size := [4, 4, 4], datatype := .Int16 } .crop
    { Options.none Int with uniform := some 1 } (by decide)
  ⟨by decide, h.1, h.2.2 true ([(0, 3), (0, 3), (0, 3)], 0) 3 "0:1" (by decide)⟩

/-- C16 (counterexample): a pad invocation with both `-mask` and `-as` fails with the
"padding and -mask options is not supported" exception, which is the unsupported-operation
error and not a configuration error. -/
theorem C16_pad_with_mask_and_as_is_unsupported :
    run ResizeLibrary.total { size := [6, 3, 3], datatype := .Int16 } .pad
        { Options.none Int with mask := some sampleMask,
                                as_ := some { size := [6, 3, 3], datatype := .Int16 } }
      = .error .padWithMask ∧
    Error.padWithMask.isConfigurationError = false := by
  decide

/-- C16 (amended): a crop or pad invocation that supplies both a mask and a reference image
always fails.  With `-fill` and `-nan` both given it fails with their configuration error
before anything else.  Otherwise a pad fails with the unsupported-operation exception of the
mask option, and a crop fails with the dimension-mismatch exception when the mask does not
share the first three extents of the image, with the empty-mask exception when it does, has
no true voxel and one of the first three extents is positive, and with the configuration
error "can be performed using either a mask or a template image" when it does and the mask
has a true voxel (or none of the first three extents is positive). -/
theorem C16_mask_and_as_rejected {α : Type} [Zero α] (lib : ResizeLibrary) (H : Header)
    (op : Operation) (opts : Options α) (mask : Mask) (t : Header)
    (hop : op ≠ .regrid) (hmask : opts.mask = some mask) (has : opts.as_ = some t) :
    (∃ e, run lib H op opts = .error e) ∧
    (opts.nan = true → opts.fill.isSome = true →
      run lib H op opts = .error .fillAndNan ∧ Error.fillAndNan.isConfigurationError = true) ∧
    ((opts.nan = false ∨ opts.fill = none) →
      (op = .pad → run lib H op opts = .error .padWithMask) ∧
      (op = .crop → dimensions_match H.size mask.size 0 3 = false →
        run lib H op opts = .error .dimensionMismatch) ∧
      (op = .crop → dimensions_match H.size mask.size 0 3 = true →
        (∀ v, inExtent mask.size v → mask.value v = false) →
        (∃ (a : Nat) (n : Int), a < 3 ∧ H.size[a]? = some n ∧ 0 < n) →
        run lib H op opts = .error .emptyMask) ∧
      (op = .crop → dimensions_match H.size mask.size 0 3 = true →
        ((∃ v, mask.holds v) ∨ ∀ (a : Nat) (n : Int), a < 3 → H.size[a]? = some n → n ≤ 0) →
        run lib H op opts = .error .maskAndAs ∧
        Error.maskAndAs.isConfigurationError = true)) := by
  have hdec : decide (Operation.crop = Operation.crop) = true := by decide
  refine ⟨?_, ?_, ?_⟩
  · rcases out_of_bounds_value_cases opts with he | ⟨oob, hoob⟩
    · exact ⟨_, run_oob_error lib H op opts _ he⟩
    · cases h1 : maskStage H (decide (op = .crop)) opts.mask (initialBounds H, 0) with
      | ok st1 => exact ⟨_, run_crop_mask_as lib H op opts mask t oob hop hoob hmask has st1 h1⟩
      | error e =>
        refine ⟨e, ?_⟩
        rw [run_eq_error_crop_pad lib H op opts oob _ hop hoob, run_crop_pad_error_iff]
        left
        exact h1
  · intro hn hf
    exact ⟨run_fill_and_nan lib H op opts hn hf, rfl⟩
  · intro hfill
    obtain ⟨oob, hoob⟩ := out_of_bounds_value_ok opts hfill
    refine ⟨?_, ?_, ?_, ?_⟩
    · intro hp
      subst hp
      rw [run_eq_error_crop_pad lib H .pad opts oob _ hop hoob, run_crop_pad_error_iff, hmask]
      left
      rfl
    · intro hc hdim
      subst hc
      rw [run_eq_error_crop_pad lib H .crop opts oob _ hop hoob, run_crop_pad_error_iff, hdec,
        hmask]
      left
      simp [maskStage, maskBounds_mismatch H mask _ hdim, bind, Except.bind]
    · intro hc hdim hall hpos
      subst hc
      obtain ⟨a, n, ha, hn, hpos⟩ := hpos
      obtain ⟨hH, _, _⟩ := (dimensions_match_iff _ _).mp hdim
      have hb : 3 ≤ (initialBounds H).length := by rw [length_initialBounds]; exact hH
      have hgt : (mergedEntry H mask a).1 > (mergedEntry H mask a).2 := by
        rw [mergedEntry_all_false H mask a hall, getD_of_getElem? hn]
        exact hpos
      rw [run_eq_error_crop_pad lib H .crop opts oob _ hop hoob, run_crop_pad_error_iff, hdec,
        hmask]
      left
      simp [maskStage, maskBounds_empty_of_exists H mask _ hb hdim ⟨a, ha, hgt⟩, bind,
        Except.bind]
    · intro hc hdim hv
      subst hc
      obtain ⟨hH, _, _⟩ := (dimensions_match_iff _ _).mp hdim
      have hb : 3 ≤ (initialBounds H).length := by rw [length_initialBounds]; exact hH
      have hne : ∀ a, a < 3 → (mergedEntry H mask a).1 ≤ (mergedEntry H mask a).2 := by
        intro a ha
        rcases hv with ⟨v, hv⟩ | hz
        · exact mergedEntry_nonempty H mask a v hv
        · have hlt : a < H.size.length := by omega
          have hn : H.size[a]? = some (H.size[a]) := List.getElem?_eq_getElem hlt
          exact mergedEntry_nonpositive H mask a _ hn (hz a _ ha hn)
      have hmb := maskBounds_ok H mask (initialBounds H) hb hdim hne
      refine ⟨run_crop_mask_as lib H .crop opts mask t oob hop hoob hmask has
        (mapFirst 3 (fun a _ => marginEntry mask a (mergedEntry H mask a))
          (initialBounds H), 0 + 1) ?_, rfl⟩
      simp [hmask, maskStage, hmb, bind, Except.bind, pure, Except.pure]

/-- C16 (amended, instances): a crop of a 6x3x3 image with `sampleMask` and a reference image
is rejected with the configuration error "either a mask or a template image"; the same
invocation with `-nan -fill 5` is rejected with the configuration error of these two. -/
theorem C16_mask_and_as_rejected_witness :
    (Operation.crop ≠ .regrid ∧ dimensions_match [6, 3, 3] sampleMask.size 0 3 = true ∧
      ∃ v, sampleMask.holds v) ∧
    run ResizeLibrary.total { size := [6, 3, 3], datatype := .Int16 } .crop
        { Options.none Int with mask := some sampleMask,
                                as_ := some { size := [6, 3, 3], datatype := .Int16 } }
      = .error .maskAndAs ∧
    run ResizeLibrary.total { size := [6, 3, 3], datatype := .Int16 } .crop
        { Options.none Int with mask := some sampleMask, nan := true, fill := some (.num 5),
                                as_ := some { size := [6, 3, 3], datatype := .Int16 } }
      = .error .fillAndNan :=
  ⟨⟨by decide, by decide,
    ⟨[2, 1, 2, 0], (mem_voxels _ _).mp (by decide), by decide⟩⟩,
   (((C16_mask_and_as_rejected ResizeLibrary.total { size := [6, 3, 3], datatype := .Int16 }
      .crop
      { Options.none Int with mask := some sampleMask,
                              as_ := some { size := [6, 3, 3], datatype := .Int16 } }
      sampleMask { size := [6, 3, 3], datatype := .Int16 } (by decide) rfl rfl).2.2
      (Or.inl rfl)).2.2.2 rfl (by decide)
      (Or.inl ⟨[2, 1, 2, 0], (mem_voxels _ _).mp (by decide), by decide⟩)).1,
   ((C16_mask_and_as_rejected ResizeLibrary.total { size := [6, 3, 3], datatype := .Int16 }
      .crop
      { Options.none Int with mask := some sampleMask, nan := true, fill := some (.num 5),
                              as_ := some { size := [6, 3, 3], datatype := .Int16 } }
      sampleMask { size := [6, 3, 3], datatype := .Int16 } (by decide) rfl rfl).2.1
      rfl rfl).1⟩

/-- C14 (counterexample): cropping a 10x8x6 image with `-axis 0 7 -axis 0 1:3` fails on the
first specification, which is not a pair of integers, and `-axis 0 5:2 -axis 0 1:3` fails on
the first specification, which is empty, although in both the second specification
overwrites the first; `-axis 0 1:3` alone succeeds with bounds `(1, 3)` on axis 0. -/
theorem C14_overwritten_invalid_spec_still_fails :
    run ResizeLibrary.total { size := [10, 8, 6], datatype := .Int16 } .crop
        { Options.none Int with axis := [(0, "7"), (0, "1:3")] }
      = .error (.badDeltaSpec 0 "7") ∧
    run ResizeLibrary.total { size := [10, 8, 6], datatype := .Int16 } .crop
        { Options.none Int with axis := [(0, "5:2"), (0, "1:3")] }
      = .error (.axisEmpty 0 5 2) ∧
    run ResizeLibrary.total { size := [10, 8, 6], datatype := .Int16 } .crop
        { Options.none Int with axis := [(0, "1:3")] } =
      .ok (.crop_pad
        { bounds := [(1, 3), (0, 7), (0, 5)]
          from_ := [1, 0, 0]
          size := [3, 8, 6]
          changed_axes := 1
          warn_no_axes_changed := false
          out_of_bounds_value := .num 0
          datatype := .Float32 }) := by
  decide

/-- C14 (amended): when an axis has an earlier and a later `-axis` specification and the
earlier one is valid on its own (existing axis, parsable, pair not empty), the run has the
same outcome as without the earlier one; in particular every successful run succeeds with
the same result once the earlier specification is removed, and its bounds on that axis are
those of the last specification for it.  An earlier specification that is not valid on its
own makes the run fail although a later one would overwrite it. -/
theorem C14_later_spec_overwrites_valid_earlier {α : Type} [Zero α] (lib : ResizeLibrary)
    (H : Header) (op : Operation) (opts : Options α) (before mid after : List (Nat × String))
    (a : Nat) (s1 s2 : String) (hop : op ≠ .regrid) :
    (∀ v1, axisPair H (decide (op = .crop)) (a, s1) = .ok v1 →
      run lib H op { opts with axis := before ++ (a, s1) :: (mid ++ (a, s2) :: after) } =
        run lib H op { opts with axis := before ++ (mid ++ (a, s2) :: after) }) ∧
    (∀ r, run lib H op { opts with axis := before ++ (a, s1) :: (mid ++ (a, s2) :: after) }
          = .ok (.crop_pad r) →
      run lib H op { opts with axis := before ++ (mid ++ (a, s2) :: after) }
          = .ok (.crop_pad r) ∧
      ∀ spec, lastSpec (before ++ (a, s1) :: (mid ++ (a, s2) :: after)) a = some spec →
        ∃ n v, H.size[a]? = some n ∧
          axisSpecBounds (decide (op = .crop)) n a spec = .ok v ∧ r.bounds[a]? = some v) ∧
    (∀ e, axisPair H (decide (op = .crop)) (a, s1) = .error e →
      ∃ e1, run lib H op { opts with axis := before ++ (a, s1) :: (mid ++ (a, s2) :: after) }
          = .error e1) := by
  have hsame : ∀ v1, axisPair H (decide (op = .crop)) (a, s1) = .ok v1 →
      run lib H op { opts with axis := before ++ (a, s1) :: (mid ++ (a, s2) :: after) } =
        run lib H op { opts with axis := before ++ (mid ++ (a, s2) :: after) } := by
    intro v1 hv
    have hrc : ∀ oob,
        run_crop_pad H (decide (op = .crop))
          { opts with axis := before ++ (a, s1) :: (mid ++ (a, s2) :: after) } oob =
        run_crop_pad H (decide (op = .crop))
          { opts with axis := before ++ (mid ++ (a, s2) :: after) } oob :=
      fun oob => run_crop_pad_drop_overwritten H _ _ _ oob before mid after a s1 s2 v1 hv
        rfl rfl rfl rfl rfl rfl rfl
    simp only [run, out_of_bounds_value, hop, if_false, hrc]
  refine ⟨hsame, ?_, ?_⟩
  · intro r hr
    obtain ⟨_, oob, _, hcp⟩ := run_ok_crop_pad_inv hr
    obtain ⟨v1, hv1⟩ := run_crop_pad_ok_axisPair hcp (a, s1) (by simp)
    refine ⟨by rw [← hsame v1 hv1]; exact hr, fun spec hs => ?_⟩
    obtain ⟨n, v, hn, hv, _, hb⟩ := run_bounds_of_lastSpec hr hs
    exact ⟨n, v, hn, hv, hb⟩
  · intro e he
    cases hrun : run lib H op
        { opts with axis := before ++ (a, s1) :: (mid ++ (a, s2) :: after) } with
    | error e1 => exact ⟨e1, rfl⟩
    | ok out =>
      exfalso
      cases out with
      | regrid p =>
        obtain ⟨oob, hb, _⟩ := run_ok_regrid_inv hrun
        rw [run_crop_pad_eq lib H op _ oob hop hb] at hrun
        cases hx : run_crop_pad H (decide (op = .crop))
            { opts with axis := before ++ (a, s1) :: (mid ++ (a, s2) :: after) } oob with
        | error e2 => rw [hx] at hrun; cases hrun
        | ok q => rw [hx] at hrun; cases hrun
      | crop_pad r =>
        obtain ⟨_, oob, _, hcp⟩ := run_ok_crop_pad_inv hrun
        obtain ⟨v1, hv1⟩ := run_crop_pad_ok_axisPair hcp (a, s1) (by simp)
        rw [he] at hv1
        cases hv1

/-- C14 (amended, instance): cropping a 10x8x6 image with `-axis 0 2:8 -axis 0 1:3` has the
outcome of `-axis 0 1:3` alone, the bounds `(1, 3)` on axis 0. -/
theorem C14_later_spec_overwrites_valid_earlier_witness :
    (Operation.crop ≠ .regrid ∧
      axisPair { size := [10, 8, 6], datatype := .Int16 } (decide (Operation.crop = .crop))
        (0, "2:8") = .ok (2, 8)) ∧
    run ResizeLibrary.total { size := [10, 8, 6], datatype := .Int16 } .crop
        { Options.none Int with axis := [] ++ (0, "2:8") :: ([] ++ (0, "1:3") :: []) } =
      run ResizeLibrary.total { size := [10, 8, 6], datatype := .Int16 } .crop
        { Options.none Int with axis := [] ++ ([] ++ (0, "1:3") :: []) } :=
  ⟨⟨by decide, by decide⟩,
   (C14_later_spec_overwrites_valid_earlier ResizeLibrary.total
      { size := [10, 8, 6], datatype := .Int16 } .crop (Options.none Int) [] [] [] 0
      "2:8" "1:3" (by decide)).1 (2, 8) (by decide)⟩

/-- C21: in a successful crop or pad run without the all-axes flag, when an axis of index 3
or more (named by a `-axis` specification) ends with bounds different from the source extent
`(0, N - 1)`, the output offset or the output size on that axis differs from the source, and
yet, whenever the first 3 axes keep the source extent, no axis is counted as changed and the
"no axes were changed" advisory is emitted: the change count inspects axes 0, 1, 2 only. -/
theorem C21_advisory_ignores_axes_beyond_three {α : Type} [Zero α] (lib : ResizeLibrary)
    (H : Header) (op : Operation) (opts : Options α) (r : CropPad α) (a : Nat) (N : Int)
    (v : Int × Int) (spec : String) (hnd : opts.nd = false) (_ha : 3 ≤ a)
    (hrun : run lib H op opts = .ok (.crop_pad r)) (hs : lastSpec opts.axis a = some spec)
    (hN : H.size[a]? = some N) (hv : r.bounds[a]? = some v) (hne : v ≠ (0, N - 1))
    (hfirst : ∀ i, i < 3 → r.bounds[i]? = (initialBounds H)[i]?) :
    axisSpecBounds (decide (op = .crop)) N a spec = .ok v ∧
    r.from_[a]? = some v.1 ∧ r.size[a]? = some (v.2 - v.1 + 1) ∧
    (v.1 ≠ 0 ∨ v.2 - v.1 + 1 ≠ N) ∧
    r.changed_axes = 0 ∧ r.warn_no_axes_changed = true := by
  obtain ⟨n, w, hn, hw, _, hbw⟩ := run_bounds_of_lastSpec hrun hs
  rw [hN] at hn
  cases hn
  rw [hv] at hbw
  cases hbw
  obtain ⟨_, oob, _, hcp⟩ := run_ok_crop_pad_inv hrun
  obtain ⟨st1, st2, st3, st4, _, _, _, _, h5⟩ := (run_crop_pad_ok_iff H _ opts oob r).mp hcp
  obtain ⟨_, k, hk, rfl⟩ := (finish_ok_iff H _ opts oob st4 r).mp h5
  simp only [] at hv hfirst ⊢
  have hk0 : k = 0 := by
    rw [hnd] at hk
    refine countChanged_zero H _ _ 3 k hk ?_
    intro i x m s hi hx hm hsz
    rw [hfirst i hi, getElem?_initialBounds, hm] at hx
    cases hx
    rw [List.getElem?_map, hfirst i hi, getElem?_initialBounds, hm] at hsz
    simp only [Option.map_some', Option.some.injEq] at hsz
    exact ⟨rfl, by omega⟩
  subst hk0
  refine ⟨hw, ?_, ?_, ?_, rfl, rfl⟩
  · rw [List.getElem?_map, hv]
    rfl
  · rw [List.getElem?_map, hv]
    rfl
  · by_contra hcon
    simp only [not_or, not_not] at hcon
    apply hne
    obtain ⟨h1, h2⟩ := hcon
    have h3 : v.2 = N - 1 := by omega
    exact Prod.ext h1 h3

/-- C21 (instance): cropping a 4x4x4x5 image with `-axis 3 1:2` and no all-axes flag gives
offset 1 and size 2 on axis 3 while the advisory "no axes were changed" is emitted. -/
theorem C21_advisory_ignores_axes_beyond_three_witness :
    (run ResizeLibrary.total { size := [4, 4, 4, 5], datatype := .Int16 } .crop
        { Options.none Int with axis := [(3, "1:2")] } =
      .ok (.crop_pad
        { bounds := [(0, 3), (0, 3), (0, 3), (1, 2)]
          from_ := [0, 0, 0, 1]
          size := [4, 4, 4, 2]
          changed_axes := 0
          warn_no_axes_changed := true
          out_of_bounds_value := .num 0
          datatype := .Float32 }) ∧
      lastSpec [(3, "1:2")] 3 = some "1:2" ∧ ((1 : Int), (2 : Int)) ≠ (0, 5 - 1)) ∧
    (axisSpecBounds (decide (Operation.crop = .crop)) 5 3 "1:2" = .ok (1, 2) ∧
      ([0, 0, 0, 1] : List Int)[3]? = some (1, 2).1 ∧
      ([4, 4, 4, 2] : List Int)[3]? = some ((1, 2).2 - (1, 2).1 + 1) ∧
      (((1 : Int), (2 : Int)).1 ≠ 0 ∨ ((1 : Int), (2 : Int)).2 - ((1 : Int), (2 : Int)).1 + 1 ≠ 5) ∧
      (0 : Nat) = 0 ∧ true = true) :=
  ⟨⟨by decide, by decide, by decide⟩,
   C21_advisory_ignores_axes_beyond_three ResizeLibrary.total
      { size := [4, 4, 4, 5], datatype := .Int16 } .crop
      { Options.none Int with axis := [(3, "1:2")] }
      { bounds := [(0, 3), (0, 3), (0, 3), (1, 2)]
        from_ := [0, 0, 0, 1]
        size := [4, 4, 4, 2]
        changed_axes := 0
        warn_no_axes_changed := true
        out_of_bounds_value := .num 0
        datatype := .Float32 } 3 5 (1, 2) "1:2" rfl (by decide) (by decide) (by decide) rfl rfl
      (by decide) (by decide)⟩

end MRGrid
